import Mathlib

/-!
# libnpengine: the NSB script interpreter (`src/nsbinterpreter.cpp`)

A shallow embedding of the interpreter core of `NsbInterpreter`: the dynamic values,
the parameter stack and placeholder queue, the variable store, the array table, the
return stack, the two-tier dispatcher `ExecuteLine` and the crash/recover protocol.
The handlers of the renderer and audio glue are embedded as far as they act on the members
of the interpreter (operand reads, `HandleName`, the pause flag, assertions, `std::cout`),
on the cache of drawables and on the queue of work of the host; what the host does with the
values it is handed is outside the embedding.

Conventions of the embedding.

* Member functions become functions from the interpreter state to a result; the
  result is `Except Exn _`, where `Exn.bad_lexical_cast` is an escaping
  `boost::bad_lexical_cast` (it carries the state at the throw) and `Exn.undefined` is
  C++ undefined behaviour (out-of-range `operator[]`, null dereference, a read of an
  uninitialised value).
* `NsbFile*` values are indices into the list `Files` of module objects
  (`none` is `nullptr`), so that the active module, the loaded modules and the
  frames of the return stack can alias one another as they do in the source.
* `std::map` is an association list with unique keys, `std::vector` a list,
  `std::queue` a list whose head is the front, `std::stack` a list whose head is the top.
* `std::cout` is the field `cout`; the number of calls of `Crash` is the ghost
  field `Crashes`.
* The release configuration is embedded (`Crash` calls `Recover`, not `abort`).
* C++ leaves the order in which the arguments of a call are evaluated unspecified; the
  embedding evaluates them from left to right.
-/

namespace Npengine

/-! ## Values and machine integers -/

/-- The dynamic value `struct Variable { string Type; string Value; }`; the field
`Type` is spelled `Ty`. `Variable()` is the pair of empty strings. -/
structure Variable where
  Ty : String
  Value : String
deriving DecidableEq, Repr, Inhabited

/-- The value `Variable()`. -/
def Variable.empty : Variable := ⟨"", ""⟩

/-- Two's-complement wrap of an integer into `int32_t`. -/
def wrapInt32 (x : Int) : Int := (x + 2 ^ 31) % 2 ^ 32 - 2 ^ 31

/-- Subtraction of `uint32_t` values: `a - b` modulo `2 ^ 32`. -/
def subUInt32 (a b : Nat) : Nat := (a % 2 ^ 32 + 2 ^ 32 - b % 2 ^ 32) % 2 ^ 32

/-- The range of `int32_t`. -/
def isInt32 (x : Int) : Prop := -(2 ^ 31) ≤ x ∧ x < 2 ^ 31

instance (x : Int) : Decidable (isInt32 x) := by unfold isInt32; exact inferInstance

/-! ## `boost::lexical_cast` -/

/-- The value of a decimal digit character. -/
def digitValue (c : Char) : Option Nat :=
  if '0' ≤ c ∧ c ≤ '9' then some (c.toNat - '0'.toNat) else none

/-- Left-to-right accumulation of decimal digits; `none` on a character that is not a digit. -/
def parseDigits : Nat → List Char → Option Nat
  | acc, [] => some acc
  | acc, c :: cs =>
    match digitValue c with
    | some d => parseDigits (acc * 10 + d) cs
    | none => none

/-- A non-empty run of decimal digits as a natural number. -/
def parseNat (cs : List Char) : Option Nat :=
  match cs with
  | [] => none
  | _ :: _ => parseDigits 0 cs

/-- `boost::lexical_cast<int32_t>(std::string)`: an optional sign, then one or more decimal
digits and nothing else; the value has to fit `int32_t`. `none` stands for the
`bad_lexical_cast` exception. -/
def lexical_cast_int32 (s : String) : Option Int :=
  match s.data with
  | [] => none
  | c :: cs =>
    if c = '-' then
      match parseNat cs with
      | some m => if m ≤ 2 ^ 31 then some (-(m : Int)) else none
      | none => none
    else
      match parseNat (if c = '+' then cs else c :: cs) with
      | some m => if m < 2 ^ 31 then some (m : Int) else none
      | none => none

/-- `boost::lexical_cast<std::string>(int32_t)`: the decimal text, with a leading `-` for
a negative number. -/
def lexical_cast_string (n : Int) : String := toString n

/-- The target types of `GetVariable<T>` and `GetParam<T>`: the conversion
`boost::lexical_cast<T>(std::string)` and the value-initialised `T()`. -/
class LexicalCast (T : Type) where
  cast : String → Option T
  dflt : T

/-- `T = int32_t`. -/
instance : LexicalCast Int where
  cast := lexical_cast_int32
  dflt := 0

/-- `T = std::string`: the conversion is the identity. -/
instance : LexicalCast String where
  cast := fun s => some s
  dflt := ""

/-- `std::string::c_str()` read as a C string: the characters before the first NUL. -/
def c_str (s : String) : String := ⟨s.data.takeWhile (fun c => c ≠ Char.ofNat 0)⟩

/-! ## Opcodes, instructions and modules -/

/-- Modelled from the spec: the opcode tags of `nsbmagic.hpp` (not among the sources), one
constructor for every `MAGIC_*` constant the interpreter names and `MAGIC_OTHER` for every
other 16-bit tag. -/
inductive Magic where
  | MAGIC_DRAW_TO_TEXTURE | MAGIC_CREATE_TEXTURE | MAGIC_LOAD_MOVIE | MAGIC_APPLY_MASK
  | MAGIC_CREATE_COLOR | MAGIC_LOAD_TEXTURE | MAGIC_CALL | MAGIC_CONCAT | MAGIC_DESTROY
  | MAGIC_SET_OPACITY | MAGIC_BIND_IDENTIFIER | MAGIC_FWN_UNK | MAGIC_BEGIN | MAGIC_END
  | MAGIC_CLEAR_PARAMS | MAGIC_UNK3 | MAGIC_FORMAT
  | MAGIC_SET_PLACEHOLDER | MAGIC_PLACEHOLDER_PARAM | MAGIC_APPLY_BLUR | MAGIC_DISPLAY_TEXT
  | MAGIC_CREATE_BOX | MAGIC_ARRAY_READ | MAGIC_CREATE_ARRAY | MAGIC_SET_TEXTBOX_ATTRIBUTES
  | MAGIC_SET_FONT_ATTRIBUTES | MAGIC_SET_AUDIO_STATE | MAGIC_SET_AUDIO_LOOP
  | MAGIC_SET_AUDIO_RANGE | MAGIC_LOAD_AUDIO | MAGIC_START_ANIMATION | MAGIC_UNK29
  | MAGIC_SLEEP_MS | MAGIC_GET_MOVIE_TIME | MAGIC_CALL_SCRIPT | MAGIC_UNK5 | MAGIC_TEXT
  | MAGIC_SET | MAGIC_GET | MAGIC_PARAM | MAGIC_SET_DISPLAY_STATE | MAGIC_CALLBACK
  | MAGIC_OTHER (tag : Nat)
deriving DecidableEq, Repr

/-- Modelled from the spec: the decoded instruction `Line` of `nsbfile.hpp`, an opcode tag
and the ordered raw operand tokens. -/
structure Line where
  Magic : Magic
  Params : List String
deriving DecidableEq, Repr

/-- Modelled from the spec: the module `NsbFile` of `nsbfile.hpp` (spec §6): a name, the
instruction sequence `Source`, the function symbol table `Functions` (name to entry number,
entry numbers start at 1) and the cursor `SourceIter`, the index of the next instruction
to fetch. -/
structure NsbFile where
  Name : String
  Source : List Line
  Functions : List (String × Nat)
  SourceIter : Nat
deriving DecidableEq, Repr

namespace NsbFile

/-- Modelled from the spec: next-instruction fetch. The instruction under the cursor is
returned and the cursor advances by one; past the last instruction the fetch answers
`none` (end-of-stream, the null pointer of the caller) and the cursor stays. -/
def GetNextLine (f : NsbFile) : Option Line × NsbFile :=
  match f.Source[f.SourceIter]? with
  | some l => (some l, { f with SourceIter := f.SourceIter + 1 })
  | none => (none, f)

/-- Modelled from the spec: get-cursor. -/
def GetNextLineEntry (f : NsbFile) : Nat := f.SourceIter

/-- Modelled from the spec: set-cursor. -/
def SetSourceIter (f : NsbFile) (NewIter : Nat) : NsbFile := { f with SourceIter := NewIter }

/-- Modelled from the spec: lookup-function; the entry number of the first definition of
the name, `0` when the name is absent (the caller tests the result as a boolean). -/
def GetFunctionLine (f : NsbFile) (FuncName : String) : Nat :=
  match f.Functions.find? (fun e => e.1 = FuncName) with
  | some e => e.2
  | none => 0

/-- Modelled from the spec: get-name. -/
def GetName (f : NsbFile) : String := f.Name

end NsbFile

/-! ## The interpreter state -/

/-- A call frame `struct FuncReturn { NsbFile* pScript; uint32_t SourceLine; }`. -/
structure FuncReturn where
  pScript : Option Nat
  SourceLine : Nat
deriving DecidableEq, Repr

/-- An array node `struct ArrayVariable : Variable { ArrayMembers Members; }` with
`ArrayMembers = std::vector<std::pair<string, ArrayVariable>>`. -/
inductive ArrayVariable where
  | mk (Ty : String) (Value : String) (Members : List (String × ArrayVariable)) : ArrayVariable

namespace ArrayVariable

/-- The member list of a node. -/
def Members : ArrayVariable → List (String × ArrayVariable)
  | mk _ _ ms => ms

/-- The `Variable` base of a node (the slice taken by `Params.push_back(*pVariable)`). -/
def toVariable : ArrayVariable → Variable
  | mk t v _ => ⟨t, v⟩

/-- The conversion `ArrayVariable(const Variable&)`: the value with no members. -/
def ofVariable (v : Variable) : ArrayVariable := mk v.Ty v.Value []

/-- The value `ArrayVariable()`. -/
def empty : ArrayVariable := mk "" "" []

/-- Replaces the member list of a node. -/
def setMembers : ArrayVariable → List (String × ArrayVariable) → ArrayVariable
  | mk t v _, ms => mk t v ms

end ArrayVariable

/-- What the interpreter tells apart about a `Drawable`: a movie (with its duration in
milliseconds), a `Text`, or another drawable. -/
inductive DrawableKind where
  | movie (duration : Int)
  | text
  | other
deriving DecidableEq, Repr

/-- The members of `class NsbInterpreter` that the core uses, the module objects they
point to (`Files`), and what the interpreter observes of its collaborators: the cache
`CacheHolder<Drawable>` (`Drawables`: a handle is mapped to the kind of its drawable, or to
`none` for a null entry), the names of the work items handed to the host (`GLCallbacks`),
the files the resource manager can read, each with whether it opens as music (`Resources`),
the handles a wildcard walk of the drawable cache visits for a pattern, in order
(`Wildcard`), the text written to `std::cout`, and the number of `Crash` calls. -/
structure NsbInterpreter where
  Files : List NsbFile
  pScript : Option Nat
  pLine : Option Line
  LoadedScripts : List (Option Nat)
  Variables : List (String × Variable)
  Arrays : List (String × ArrayVariable)
  Params : List Variable
  ArrayParams : List (String × Nat)
  Placeholders : List Variable
  Returns : List FuncReturn
  HandleName : String
  RunInterpreter : Bool
  StopInterpreter : Bool
  Drawables : List (String × Option DrawableKind)
  GLCallbacks : List String
  Resources : List (String × Bool)
  Wildcard : String → List String
  cout : String
  Crashes : Nat

/-- Escaping conditions of a handler. -/
inductive Exn where
  /-- An uncaught `boost::bad_lexical_cast`, with the state at the throw. -/
  | bad_lexical_cast (s : NsbInterpreter)
  /-- Undefined behaviour of C++: out-of-range element access or null dereference. -/
  | undefined

/-- The result of a handler. -/
abbrev Res (α : Type) := Except Exn α

/-! ## `std::map` -/

/-- The call `m.find(k)`. -/
def mapFind {α : Type} (m : List (String × α)) (k : String) : Option α :=
  match m.find? (fun e => e.1 = k) with
  | some e => some e.2
  | none => none

/-- The assignment `m[k] = v`: overwrites the entry of `k`, or adds one. -/
def mapSet {α : Type} : List (String × α) → String → α → List (String × α)
  | [], k, v => [(k, v)]
  | e :: m, k, v => if e.1 = k then (k, v) :: m else e :: mapSet m k v

/-- The map after evaluating `m[k]`: an absent key is inserted with the default value. -/
def mapTouch {α : Type} (m : List (String × α)) (k : String) (dflt : α) : List (String × α) :=
  match mapFind m k with
  | some _ => m
  | none => m ++ [(k, dflt)]

/-- The value of `m[k]`. -/
def mapAt {α : Type} (m : List (String × α)) (k : String) (dflt : α) : α :=
  match mapFind m k with
  | some v => v
  | none => dflt

/-! ## Fault handler -/

/-- The module a pointer refers to; a null or dangling pointer is undefined behaviour. -/
def deref (s : NsbInterpreter) (p : Option Nat) : Res NsbFile :=
  match p with
  | none => .error .undefined
  | some i =>
    match s.Files[i]? with
    | some f => .ok f
    | none => .error .undefined

/-- The lines printed by the loop of `WriteTrace` for a stack, top first:
`Stream << Stack.top().pScript->GetName() << " at " << Stack.top().SourceLine << std::endl`. -/
def traceLines (s : NsbInterpreter) : List FuncReturn → Res String
  | [] => .ok ""
  | fr :: rest =>
    match deref s fr.pScript with
    | .error e => .error e
    | .ok g =>
      match traceLines s rest with
      | .error e => .error e
      | .ok t => .ok (g.GetName ++ " at " ++ toString fr.SourceLine ++ "\n" ++ t)

/-- The text written by `NsbInterpreter::WriteTrace`: the return stack with the frame of
the active module pushed on top. -/
def WriteTrace (s : NsbInterpreter) : Res String :=
  match deref s s.pScript with
  | .error e => .error e
  | .ok f => traceLines s (⟨s.pScript, f.GetNextLineEntry⟩ :: s.Returns)

/-- The loop of `NsbInterpreter::Recover`,
`while (Line* pLine = pScript->GetNextLine()) if (pLine->Magic == MAGIC_CLEAR_PARAMS) break;`,
run for at most `fuel` fetches. -/
def RecoverLoop : Nat → NsbFile → NsbFile
  | 0, f => f
  | fuel + 1, f =>
    match f.GetNextLine with
    | (some l, f') => if l.Magic = Magic.MAGIC_CLEAR_PARAMS then f' else RecoverLoop fuel f'
    | (none, f') => f'

/-- `NsbInterpreter::Recover`: scan to the next clear-parameters instruction, then
`pScript->SetSourceIter(pScript->GetNextLineEntry() - 2)` in `uint32_t` arithmetic. The
loop fetches at most `Source.size()` instructions before the fetch fails, so the fuel
given is enough (`RecoverLoop_enough`). -/
def Recover (s : NsbInterpreter) : Res NsbInterpreter :=
  match s.pScript with
  | none => .error .undefined
  | some i =>
    match s.Files[i]? with
    | none => .error .undefined
    | some f =>
      let f' := RecoverLoop (f.Source.length + 1) f
      .ok { s with Files := s.Files.set i (f'.SetSourceIter (subUInt32 f'.GetNextLineEntry 2)) }

/-- `NsbInterpreter::Crash` in the release configuration: print the trace, then recover.
The ghost counter `Crashes` records the call. -/
def Crash (s : NsbInterpreter) : Res NsbInterpreter :=
  match WriteTrace s with
  | .error e => .error e
  | .ok t =>
    Recover { s with
      cout := s.cout ++ "\n**STACK TRACE BEGIN**\n" ++ t ++ "**STACK TRACE END**\nRecovering...\n\n"
      Crashes := s.Crashes + 1 }

/-- The text written by the printing overloads `NsbAssert(fmt)` and
`NsbAssert(fmt, value, args...)`: every single `%` is replaced by the next argument, `%%`
prints `%`, and the line is ended only by the overload without arguments. -/
def NsbAssertPrint : List Char → List String → String
  | fmt, [] => String.mk fmt ++ "\n"
  | [], _ :: _ => ""
  | '%' :: '%' :: fmt, v :: args => "%" ++ NsbAssertPrint fmt (v :: args)
  | '%' :: fmt, v :: args => v ++ NsbAssertPrint fmt args
  | c :: fmt, v :: args => String.singleton c ++ NsbAssertPrint fmt (v :: args)

/-- The checking overloads `bool NsbAssert(bool expr, const char* fmt, ...)`: when `expr`
is false the message is printed, `Crash` is called and the result is `true`. -/
def NsbAssert (expr : Bool) (fmt : String) (args : List String) (s : NsbInterpreter) :
    Res (Bool × NsbInterpreter) :=
  if expr then .ok (false, s)
  else
    match Crash { s with cout := s.cout ++ NsbAssertPrint fmt.data args } with
    | .error e => .error e
    | .ok s' => .ok (true, s')

/-! ## Variables and parameters -/

/-- `NsbInterpreter::SetVariable`: `Variables[Identifier] = Var`. -/
def SetVariable (Identifier : String) (Var : Variable) (s : NsbInterpreter) : NsbInterpreter :=
  { s with Variables := mapSet s.Variables Identifier Var }

/-- `NsbInterpreter::GetVariable<T>`. The literal `@` yields `T()`; a leading `@` casts the
rest of the identifier outside the `try` block; otherwise the stored payload, or the
identifier itself when it is not stored, is cast inside the `try` block, whose handler
prints a message and yields `T()`. -/
def GetVariable {T : Type} [LexicalCast T] (Identifier : String) (s : NsbInterpreter) :
    Res (T × NsbInterpreter) :=
  if Identifier = "@" then .ok (LexicalCast.dflt, s)
  else if Identifier.data.head? = some '@' then
    match LexicalCast.cast (String.mk (Identifier.data.drop 1)) with
    | some v => .ok (v, s)
    | none => .error (.bad_lexical_cast s)
  else
    let text :=
      match mapFind s.Variables Identifier with
      | none => Identifier
      | some Var => Var.Value
    match LexicalCast.cast text with
    | some v => .ok (v, s)
    | none =>
      .ok (LexicalCast.dflt,
        { s with cout := s.cout ++ "Failed to cast " ++ Identifier ++ " to correct type.\n" })

/-- `NsbInterpreter::GetParam<T>`: a staged value of type `PH` takes the front of the
placeholder queue when there is one; in every other case the operand token of the
instruction is resolved by `GetVariable<T>`. -/
def GetParam {T : Type} [LexicalCast T] (Index : Nat) (s : NsbInterpreter) :
    Res (T × NsbInterpreter) :=
  let viaVariable : Res (T × NsbInterpreter) :=
    match s.pLine with
    | none => .error .undefined
    | some l =>
      match l.Params[Index]? with
      | none => .error .undefined
      | some tok => GetVariable tok s
  match s.Params[Index]? with
  | some p =>
    if p.Ty = "PH" then
      match s.Placeholders with
      | Var :: rest =>
        match LexicalCast.cast Var.Value with
        | some v => .ok (v, { s with Placeholders := rest })
        | none => .error (.bad_lexical_cast { s with Placeholders := rest })
      | [] => viaVariable
    else viaVariable
  | none => viaVariable

/-- `NsbInterpreter::Boolify`: exactly `true` and `false` convert; every other string
fails the assertion and yields `false`. -/
def Boolify (Str : String) (s : NsbInterpreter) : Res (Bool × NsbInterpreter) :=
  if Str = "true" then .ok (true, s)
  else if Str = "false" then .ok (false, s)
  else
    match NsbAssert false "Invalid boolification of string: " [c_str Str] s with
    | .error e => .error e
    | .ok (_, s') => .ok (false, s')

/-- The specialisation `GetParam<bool>`: `Boolify(GetParam<string>(Index))`. -/
def GetParamBool (Index : Nat) (s : NsbInterpreter) : Res (Bool × NsbInterpreter) :=
  match GetParam (T := String) Index s with
  | .error e => .error e
  | .ok (str, s') => Boolify str s'

/-! ## Handlers of the first tier -/

/-- Writes a module object back through a pointer known to be valid. -/
def setFile (s : NsbInterpreter) (i : Nat) (f : NsbFile) : NsbInterpreter :=
  { s with Files := s.Files.set i f }

/-- `NsbInterpreter::ClearParams`. -/
def ClearParams (s : NsbInterpreter) : Res NsbInterpreter :=
  .ok { s with Params := [], ArrayParams := [], Placeholders := [] }

/-- The loop of `NsbInterpreter::Begin` over the operand tokens from index 1 on:
`SetVariable(pLine->Params[i], Params[i - 1])`. -/
def BeginLoop : List String → Nat → NsbInterpreter → Res NsbInterpreter
  | [], _, s => .ok s
  | name :: rest, j, s =>
    match s.Params[j]? with
    | none => .error .undefined
    | some v => BeginLoop rest (j + 1) (SetVariable name v s)

/-- `NsbInterpreter::Begin`: turn the staged values into variables. -/
def Begin (s : NsbInterpreter) : Res NsbInterpreter :=
  match s.pLine with
  | none => .error .undefined
  | some l => BeginLoop (l.Params.drop 1) 0 s

/-- `NsbInterpreter::End`: an empty return stack fails the assertion and the handler
returns; otherwise the top frame becomes active again and is popped. -/
def End (s : NsbInterpreter) : Res NsbInterpreter :=
  match NsbAssert (!s.Returns.isEmpty) "Empty return stack" [] s with
  | .error e => .error e
  | .ok (true, s') => .ok s'
  | .ok (false, s') =>
    match s'.Returns with
    | [] => .ok s'
    | top :: rest =>
      match top.pScript with
      | none => .error .undefined
      | some i =>
        match s'.Files[i]? with
        | none => .error .undefined
        | some f =>
          .ok { setFile s' i (f.SetSourceIter top.SourceLine) with
                pScript := top.pScript, Returns := rest }

/-- `NsbInterpreter::CallFunction`: when the destination module defines the name, push
the frame of the active module, make the destination active and move its cursor to
`FuncLine - 1`. -/
def CallFunction (pDestScript : Option Nat) (FuncName : String) (s : NsbInterpreter) :
    Res (Bool × NsbInterpreter) :=
  match pDestScript with
  | none => .error .undefined
  | some i =>
    match s.Files[i]? with
    | none => .error .undefined
    | some dest =>
      let FuncLine := dest.GetFunctionLine FuncName
      if FuncLine ≠ 0 then
        match deref s s.pScript with
        | .error e => .error e
        | .ok cur =>
          .ok (true,
            { setFile s i (dest.SetSourceIter (subUInt32 FuncLine 1)) with
              Returns := ⟨s.pScript, cur.GetNextLineEntry⟩ :: s.Returns
              pScript := pDestScript })
      else .ok (false, s)

/-- The loop of `NsbInterpreter::Call` over `LoadedScripts`, ended by the message of a
failed lookup. -/
def CallGlobal (FuncName : String) : List (Option Nat) → NsbInterpreter → Res NsbInterpreter
  | [], s => .ok { s with cout := s.cout ++ "Failed to lookup function symbol " ++ FuncName ++ "\n" }
  | p :: rest, s =>
    match CallFunction p FuncName s with
    | .error e => .error e
    | .ok (true, s') => .ok s'
    | .ok (false, s') => CallGlobal FuncName rest s'

/-- `CacheHolder<Drawable>::Read`: the drawable behind a handle; `none` is the null pointer
of an absent or null entry. -/
def readDrawable (s : NsbInterpreter) (Handle : String) : Option DrawableKind :=
  match mapFind s.Drawables Handle with
  | some d => d
  | none => none

/-- `NsbInterpreter::GetMovieTime`: clear the staged values and stage the duration of the
movie behind the handle, when there is one. -/
def GetMovieTime (Handle : String) (s : NsbInterpreter) : NsbInterpreter :=
  match readDrawable s Handle with
  | some (DrawableKind.movie ms) => { s with Params := [⟨"INT", lexical_cast_string ms⟩] }
  | some _ =>
    { s with Params := []
             cout := s.cout ++ "Failed to get movie duration because Drawable is not movie\n" }
  | none =>
    { s with Params := []
             cout := s.cout ++ "Failed to get movie time because there is no Drawable "
               ++ Handle ++ "\n" }

/-- `NsbInterpreter::Call`: the override `MovieWaitSG`, then the active module, then the
loaded modules in load order. -/
def Call (s : NsbInterpreter) : Res NsbInterpreter :=
  match s.pLine with
  | none => .error .undefined
  | some l =>
    match l.Params[0]? with
    | none => .error .undefined
    | some tok =>
      let FuncName := c_str tok
      if FuncName = "MovieWaitSG" then
        let s1 := GetMovieTime "ムービー" s
        match s1.Params[0]? with
        | none => .error .undefined
        | some p =>
          match GetVariable (T := Int) p.Value s1 with
          | .error e => .error e
          | .ok (_, s2) =>
            .ok { s2 with GLCallbacks := s2.GLCallbacks ++ ["Game::RemoveDrawable ムービー"] }
      else
        match CallFunction s.pScript FuncName s with
        | .error e => .error e
        | .ok (true, s') => .ok s'
        | .ok (false, s') => CallGlobal FuncName s'.LoadedScripts s'

/-- `NsbInterpreter::Concat`: the assertion on the two types, then the sum of two `INT`
payloads in `int32_t` or the second payload appended to the first, then
`Params.resize(Second)`. -/
def Concat (s : NsbInterpreter) : Res NsbInterpreter :=
  if s.Params.length < 2 then .error .undefined
  else
    let First := s.Params.length - 2
    let Second := s.Params.length - 1
    match s.Params[First]?, s.Params[Second]? with
    | some a, some b =>
      match NsbAssert (a.Ty = b.Ty) "Concating params of different types (% and %)"
          [a.Ty, b.Ty] s with
      | .error e => .error e
      | .ok (_, s') =>
        if a.Ty = "INT" ∧ b.Ty = "INT" then
          match lexical_cast_int32 a.Value, lexical_cast_int32 b.Value with
          | some x, some y =>
            .ok { s' with Params := (s'.Params.set First
                    { a with Value := lexical_cast_string (wrapInt32 (x + y)) }).take Second }
          | _, _ => .error (.bad_lexical_cast s')
        else
          .ok { s' with Params := (s'.Params.set First
                  { a with Value := a.Value ++ b.Value }).take Second }
    | _, _ => .error .undefined

/-- The loop of `NsbInterpreter::BindIdentifier`: `Var->Members[i - 1].first = Params[i].Value`. -/
def BindLoop : List Variable → Nat → List (String × ArrayVariable) →
    Res (List (String × ArrayVariable))
  | [], _, ms => .ok ms
  | p :: rest, j, ms =>
    match ms[j]? with
    | none => .error .undefined
    | some m => BindLoop rest (j + 1) (ms.set j (p.Value, m.2))

/-- `NsbInterpreter::BindIdentifier`: name the members of the array behind the handle after
the staged values from index 1 on. -/
def BindIdentifier (s : NsbInterpreter) : Res NsbInterpreter :=
  match s.pLine with
  | none => .error .undefined
  | some l =>
    match l.Params[0]? with
    | none => .error .undefined
    | some h =>
      let A := mapTouch s.Arrays h ArrayVariable.empty
      let Var := mapAt A h ArrayVariable.empty
      match BindLoop (s.Params.drop 1) 0 Var.Members with
      | .error e => .error e
      | .ok ms => .ok { s with HandleName := h, Arrays := mapSet A h (Var.setMembers ms) }

/-! ## Array read -/

/-- The inner loop of `NsbInterpreter::ArrayRead`: the index of the first member whose name
equals `Params[Params.size() - Depth - 2].Value`. The staged value is read only when
there is a member to compare with; `key` is `none` when that index is out of range. -/
def scanMembers (key : Option String) : List (String × ArrayVariable) → Nat → Res (Option Nat)
  | [], _ => .ok none
  | m :: rest, i =>
    match key with
    | none => .error .undefined
    | some k => if m.1 = k then .ok (some i) else scanMembers key rest (i + 1)

/-- The state of the walk of `ArrayRead`: `MemberName`, `pVariable` (the array it points
into, the index of the member and the member) and the array table. -/
structure ArrayWalk where
  MemberName : String
  pVariable : Option (String × Nat × ArrayVariable)
  Arrays : List (String × ArrayVariable)

/-- The loop `while (Depth --> 0)` of `NsbInterpreter::ArrayRead`; the first argument is
the number of iterations left, which is also the value of `Depth` inside the body plus one. -/
def ArrayReadLoop (Params : List Variable) : Nat → ArrayWalk → Res ArrayWalk
  | 0, w => .ok w
  | Depth + 1, w =>
    let A := mapTouch w.Arrays w.MemberName ArrayVariable.empty
    let Members := (mapAt A w.MemberName ArrayVariable.empty).Members
    let key :=
      if Depth + 2 ≤ Params.length then
        (Params[Params.length - Depth - 2]?).map (fun p => p.Value)
      else none
    match scanMembers key Members 0 with
    | .error e => .error e
    | .ok none => ArrayReadLoop Params Depth { w with Arrays := A }
    | .ok (some i) =>
      match Members[i]? with
      | none => .error .undefined
      | some m =>
        ArrayReadLoop Params Depth
          { MemberName := m.1, pVariable := some (w.MemberName, i, m.2), Arrays := A }

/-- `NsbInterpreter::ArrayRead`: walk `Depth` levels, then stage the member reached, if any. -/
def ArrayRead (Handle : String) (Depth : Int) (s : NsbInterpreter) : Res NsbInterpreter :=
  match ArrayReadLoop s.Params Depth.toNat ⟨Handle, none, s.Arrays⟩ with
  | .error e => .error e
  | .ok w =>
    match w.pVariable with
    | none => .ok { s with Arrays := w.Arrays }
    | some (arr, i, v) =>
      .ok { s with Arrays := w.Arrays
                   ArrayParams := s.ArrayParams ++ [(arr, i)]
                   Params := s.Params ++ [v.toVariable] }

/-! ## The flags of the interpreter thread -/

/-- `NsbInterpreter::Stop`. -/
def Stop (s : NsbInterpreter) : NsbInterpreter := { s with StopInterpreter := true }

/-- `NsbInterpreter::Pause`. -/
def Pause (s : NsbInterpreter) : NsbInterpreter := { s with RunInterpreter := false }

/-- `NsbInterpreter::Start`. -/
def Start (s : NsbInterpreter) : NsbInterpreter := { s with RunInterpreter := true }

/-! ## The glue of the renderer and the audio device -/

/-- A statement or expression inside a handler: it yields a value and the next state. -/
abbrev Act (α : Type) := NsbInterpreter → Res (α × NsbInterpreter)

namespace Act

/-- Sequencing, the `;` of C++: the second part runs on the value and the state the first
part leaves; a throw or undefined behaviour of the first part ends the handler. -/
def andThen {α β : Type} (x : Act α) (f : α → Act β) : Act β := fun s =>
  match x s with
  | .error e => .error e
  | .ok (a, s1) => f a s1

/-- The empty statement. -/
def done : Act Unit := fun s => .ok ((), s)

/-- A handler as the dispatcher calls it: the value is dropped. -/
def run (x : Act Unit) : NsbInterpreter → Res NsbInterpreter := fun s =>
  match x s with
  | .error e => .error e
  | .ok (_, s1) => .ok s1

end Act

/-- The assignment `HandleName = ...`. -/
def setHandleName (h : String) : Act Unit := fun s => .ok ((), { s with HandleName := h })

/-- The call `pGame->GLCallback(std::bind(...))`: the work item is queued for the host
under the name of the function bound. -/
def GLCallback (what : String) : Act Unit := fun s =>
  .ok ((), { s with GLCallbacks := s.GLCallbacks ++ [what] })

/-- Output on `std::cout`. -/
def print (text : String) : Act Unit := fun s => .ok ((), { s with cout := s.cout ++ text })

/-- The call `WriteTrace(std::cout)`. -/
def printTrace : Act Unit := fun s =>
  match WriteTrace s with
  | .error e => .error e
  | .ok t => .ok ((), { s with cout := s.cout ++ t })

/-- The call `CacheHolder<Drawable>::Write(HandleName, nullptr)`. -/
def writeNullDrawable : Act Unit := fun s =>
  .ok ((), { s with Drawables := mapSet s.Drawables s.HandleName none })

/-- The type at which an operand is read. -/
inductive ArgType where
  | int
  | string
  | bool
deriving DecidableEq, Repr

/-- One operand read whose value goes to the host only: `GetParam<int32_t>(Index)`,
`GetParam<string>(Index)` or `GetParam<bool>(Index)`. -/
def evalArg : ArgType × Nat → Act Unit
  | (ArgType.int, i) => Act.andThen (GetParam (T := Int) i) fun _ => Act.done
  | (ArgType.string, i) => Act.andThen (GetParam (T := String) i) fun _ => Act.done
  | (ArgType.bool, i) => Act.andThen (GetParamBool i) fun _ => Act.done

/-- The operand reads in the argument list of a call, from left to right. -/
def evalArgs : List (ArgType × Nat) → Act Unit
  | [] => Act.done
  | a :: rest => Act.andThen (evalArg a) fun _ => evalArgs rest

/-- `NsbInterpreter::DrawToTexture`. -/
def DrawToTexture : NsbInterpreter → Res NsbInterpreter :=
  Act.run (Act.andThen (evalArgs [(ArgType.int, 1), (ArgType.int, 2),
    (ArgType.string, 3)]) fun _ => GLCallback "GLDrawToTexture")

/-- `NsbInterpreter::CreateTexture`. -/
def CreateTexture : NsbInterpreter → Res NsbInterpreter :=
  Act.run (Act.andThen (GetParam (T := String) 0) fun h =>
    Act.andThen (setHandleName h) fun _ =>
    Act.andThen (evalArgs [(ArgType.int, 1), (ArgType.int, 2), (ArgType.string, 3)]) fun _ =>
    GLCallback "GLCreateTexture")

/-- `NsbInterpreter::LoadMovie`. -/
def LoadMovie : NsbInterpreter → Res NsbInterpreter :=
  Act.run (Act.andThen (GetParam (T := String) 0) fun h =>
    Act.andThen (setHandleName h) fun _ =>
    Act.andThen (evalArgs [(ArgType.int, 1), (ArgType.int, 2), (ArgType.int, 3), (ArgType.bool, 4),
      (ArgType.bool, 5), (ArgType.string, 6), (ArgType.bool, 7)]) fun _ =>
    GLCallback "GLLoadMovie")

/-- `NsbInterpreter::ApplyMask`: the work is queued when the handle has a drawable; a null
drawable is reported with the trace. -/
def ApplyMask : NsbInterpreter → Res NsbInterpreter :=
  Act.run (Act.andThen (GetParam (T := String) 0) fun h => fun s =>
    match readDrawable s h with
    | some _ =>
      (Act.andThen (evalArgs [(ArgType.int, 1), (ArgType.int, 2), (ArgType.int, 3), (ArgType.int, 4),
        (ArgType.string, 5), (ArgType.string, 6), (ArgType.bool, 7)]) fun _ =>
        GLCallback "GLApplyMask") s
    | none => (Act.andThen (print "Applying mask to NULL drawable!\n") fun _ => printTrace) s)

/-- `NsbInterpreter::CreateColor`. -/
def CreateColor : NsbInterpreter → Res NsbInterpreter :=
  Act.run (Act.andThen (GetParam (T := String) 0) fun h =>
    Act.andThen (setHandleName h) fun _ =>
    Act.andThen (evalArgs [(ArgType.int, 1), (ArgType.int, 2), (ArgType.int, 3), (ArgType.int, 4),
      (ArgType.int, 5), (ArgType.string, 6)]) fun _ =>
    GLCallback "GLCreateColor")

/-- The table `SpecialPos`. -/
def SpecialPos : List String :=
  ["Center", "InBottom", "Middle", "OnLeft", "OutTop", "InTop", "OutRight"]

/-- One round of the loop of `NsbInterpreter::LoadTexture` over the staged values 2 and 3:
a `STRING` is looked up in `SpecialPos`, any other value is read as an integer. A `STRING`
outside the table leaves the position uninitialised, and handing it to the host is
undefined behaviour. -/
def LoadTexturePos (i : Nat) : Act Unit := fun s =>
  match s.Params[i]? with
  | none => .error .undefined
  | some p =>
    if p.Ty = "STRING" then
      if p.Value ∈ SpecialPos then .ok ((), s) else .error .undefined
    else evalArg (ArgType.int, i) s

/-- `NsbInterpreter::LoadTexture`. -/
def LoadTexture : NsbInterpreter → Res NsbInterpreter :=
  Act.run (Act.andThen (LoadTexturePos 2) fun _ =>
    Act.andThen (LoadTexturePos 3) fun _ =>
    Act.andThen (GetParam (T := String) 0) fun h =>
    Act.andThen (setHandleName h) fun _ =>
    Act.andThen (evalArgs [(ArgType.int, 1), (ArgType.string, 4)]) fun _ =>
    GLCallback "GLLoadTexture")

/-- `NsbInterpreter::WildcardCall`: for every entry of the drawable cache the walk visits,
`HandleName` is set to its handle and the function is called on its drawable. -/
def WildcardCall (Func : Option DrawableKind → Act Unit) : List String → Act Unit
  | [] => Act.done
  | k :: rest =>
    Act.andThen (setHandleName k) fun _ =>
    Act.andThen (fun s => Func (readDrawable s k) s) fun _ =>
    WildcardCall Func rest

/-- `NsbInterpreter::Destroy`: every drawable that matches a handle ending in `*` (the
handle `*` alone excepted), or the drawable of the handle, is handed to the host for
destruction and its cache entry is set to null. `std::string::back` of an empty handle is
undefined behaviour. -/
def Destroy : NsbInterpreter → Res NsbInterpreter :=
  Act.run (Act.andThen (GetParam (T := String) 0) fun h =>
    Act.andThen (setHandleName h) fun _ => fun s =>
    match h.data.getLast? with
    | none => .error .undefined
    | some c =>
      if c = '*' ∧ h.utf8ByteSize ≠ 1 then
        WildcardCall (fun _ => Act.andThen (GLCallback "GLDestroy") fun _ => writeNullDrawable)
          (s.Wildcard h) s
      else (Act.andThen (GLCallback "GLDestroy") fun _ => writeNullDrawable) s)

/-- `NsbInterpreter::NSBSetOpacity`: a `Text` whose opacity is set to 0 is cleared by the
host and its cache entry is set to null; every other drawable is changed in the host only. -/
def NSBSetOpacity (Opacity : Int) (pDrawable : Option DrawableKind) : Act Unit :=
  match pDrawable with
  | none => Act.done
  | some DrawableKind.text =>
    if Opacity = 0 then Act.andThen (GLCallback "Game::ClearText") fun _ => writeNullDrawable
    else Act.done
  | some _ => Act.done

/-- `NsbInterpreter::SetOpacity`: the operands are read once, then the opacity is set on
every drawable that matches a handle ending in `*`, or on the drawable of the handle.
`std::string::back` of an empty handle is undefined behaviour. -/
def SetOpacity : NsbInterpreter → Res NsbInterpreter :=
  Act.run (Act.andThen (GetParam (T := String) 0) fun h =>
    Act.andThen (setHandleName h) fun _ => fun s =>
    match h.data.getLast? with
    | none => .error .undefined
    | some c =>
      let pDrawable := readDrawable s h
      (Act.andThen (GetParam (T := Int) 1) fun _ =>
        Act.andThen (GetParam (T := Int) 2) fun Opacity =>
        Act.andThen (GetParam (T := String) 3) fun _ =>
        Act.andThen (GetParamBool 4) fun _ =>
        if c = '*' then WildcardCall (NSBSetOpacity Opacity) (s.Wildcard h)
        else NSBSetOpacity Opacity pDrawable) s)

/-- `NsbInterpreter::DisplayText` after `HandleName = GetParam<string>(0)`: the text is
handed to the host and the interpreter pauses. -/
def DisplayText : NsbInterpreter → Res NsbInterpreter :=
  Act.run (Act.andThen (GetParam (T := String) 0) fun h =>
    Act.andThen (setHandleName h) fun _ =>
    Act.andThen (evalArgs [(ArgType.string, 1)]) fun _ => fun s =>
    .ok ((), Pause s))

/-- `NsbInterpreter::LoadAudio` on its evaluated arguments: a file that cannot be read is
reported with the trace; one that is read has to open as music, or the assertion fails. -/
def LoadAudio (File : String) : Act Unit := fun s =>
  match mapFind s.Resources File with
  | none => (Act.andThen (print ("Failed to read music " ++ File ++ "\n")) fun _ => printTrace) s
  | some opens =>
    (Act.andThen (NsbAssert opens "Failed to load music %!" [File]) fun _ => Act.done) s

/-- `NsbInterpreter::SetDisplayState` on its evaluated arguments: playing a drawable that is
not a movie fails the assertion. -/
def SetDisplayState (Handle State : String) : Act Unit := fun s =>
  match readDrawable s Handle with
  | some (DrawableKind.movie _) => .ok ((), s)
  | some _ =>
    if State = "Play" then
      (Act.andThen (NsbAssert false "Attempted to Play non-movie object " [Handle]) fun _ =>
        Act.done) s
    else .ok ((), s)
  | none => .ok ((), s)

/-! ## The dispatcher -/

/-- The table filled by `NsbInterpreter::RegisterBuiltins`: the handler registered for an
opcode, if any. -/
def Builtins : Magic → Option (NsbInterpreter → Res NsbInterpreter)
  | Magic.MAGIC_DRAW_TO_TEXTURE => some DrawToTexture
  | Magic.MAGIC_CREATE_TEXTURE => some CreateTexture
  | Magic.MAGIC_LOAD_MOVIE => some LoadMovie
  | Magic.MAGIC_APPLY_MASK => some ApplyMask
  | Magic.MAGIC_CREATE_COLOR => some CreateColor
  | Magic.MAGIC_LOAD_TEXTURE => some LoadTexture
  | Magic.MAGIC_CALL => some Call
  | Magic.MAGIC_CONCAT => some Concat
  | Magic.MAGIC_DESTROY => some Destroy
  | Magic.MAGIC_SET_OPACITY => some SetOpacity
  | Magic.MAGIC_BIND_IDENTIFIER => some BindIdentifier
  | Magic.MAGIC_FWN_UNK => some End
  | Magic.MAGIC_BEGIN => some Begin
  | Magic.MAGIC_END => some End
  | Magic.MAGIC_CLEAR_PARAMS => some ClearParams
  | Magic.MAGIC_UNK3 => some ClearParams
  | _ => none

/-- The `switch` of `NsbInterpreter::ExecuteLine` on the opcodes that have no registered
handler. The cases that only call into the host (the audio state, the animation, the key
callback) leave nothing but their operand reads. -/
def ExecuteSwitch (l : Line) (s : NsbInterpreter) : Res NsbInterpreter :=
  match l.Magic with
  | Magic.MAGIC_SET_PLACEHOLDER =>
    match s.Params.getLast? with
    | none => .error .undefined
    | some v => .ok { s with Placeholders := s.Placeholders ++ [v], Params := s.Params.dropLast }
  | Magic.MAGIC_PLACEHOLDER_PARAM => .ok { s with Params := s.Params ++ [⟨"PH", ""⟩] }
  | Magic.MAGIC_ARRAY_READ =>
    match l.Params[0]? with
    | none => .error .undefined
    | some h =>
      match GetParam (T := Int) 1 s with
      | .error e => .error e
      | .ok (Depth, s') => ArrayRead h Depth s'
  | Magic.MAGIC_CREATE_ARRAY =>
    match s.Params.drop 1 with
    | [] => .ok s
    | v :: vs =>
      match l.Params[0]? with
      | none => .error .undefined
      | some name =>
        let A := mapTouch s.Arrays name ArrayVariable.empty
        let Var := mapAt A name ArrayVariable.empty
        .ok { s with Arrays := mapSet A name (Var.setMembers
                (Var.Members ++ (v :: vs).map (fun p => ("", ArrayVariable.ofVariable p)))) }
  | Magic.MAGIC_SET_AUDIO_RANGE => .ok s
  | Magic.MAGIC_UNK29 => .ok s
  | Magic.MAGIC_SLEEP_MS =>
    match s.Params[0]? with
    | none => .error .undefined
    | some p =>
      match GetVariable (T := Int) p.Value s with
      | .error e => .error e
      | .ok (_, s') => .ok s'
  | Magic.MAGIC_GET_MOVIE_TIME =>
    match GetParam (T := String) 0 s with
    | .error e => .error e
    | .ok (h, s') => .ok (GetMovieTime h s')
  | Magic.MAGIC_CALL_SCRIPT => .ok s
  | Magic.MAGIC_UNK5 =>
    match s.Params with
    | [] => .error .undefined
    | _ :: rest => .ok { s with Params := ⟨"STRING", ""⟩ :: rest }
  | Magic.MAGIC_SET =>
    match l.Params[0]? with
    | none => .error .undefined
    | some name =>
      if name = "__array_variable__" then .ok s
      else
        match s.Params[0]? with
        | none => .error .undefined
        | some v => .ok (SetVariable name v s)
  | Magic.MAGIC_GET =>
    match l.Params[0]? with
    | none => .error .undefined
    | some name =>
      .ok { s with Variables := mapTouch s.Variables name Variable.empty
                   Params := s.Params ++ [mapAt s.Variables name Variable.empty] }
  | Magic.MAGIC_PARAM =>
    match l.Params[0]?, l.Params[1]? with
    | some t, some v => .ok { s with Params := s.Params ++ [⟨t, v⟩] }
    | _, _ => .error .undefined
  | Magic.MAGIC_APPLY_BLUR =>
    Act.run (Act.andThen (evalArgs [(ArgType.string, 0), (ArgType.string, 1)]) fun _ =>
      GLCallback "ApplyBlur") s
  | Magic.MAGIC_DISPLAY_TEXT => DisplayText s
  | Magic.MAGIC_CREATE_BOX =>
    Act.run (Act.andThen (GetParam (T := String) 0) fun h =>
      Act.andThen (setHandleName h) fun _ =>
      evalArgs [(ArgType.int, 1), (ArgType.int, 2), (ArgType.int, 3), (ArgType.int, 4),
        (ArgType.int, 5), (ArgType.bool, 6)]) s
  | Magic.MAGIC_SET_TEXTBOX_ATTRIBUTES =>
    Act.run (evalArgs [(ArgType.string, 0), (ArgType.int, 1), (ArgType.string, 2),
      (ArgType.int, 3), (ArgType.string, 4), (ArgType.string, 5), (ArgType.int, 6),
      (ArgType.string, 7)]) s
  | Magic.MAGIC_SET_FONT_ATTRIBUTES =>
    Act.run (evalArgs [(ArgType.string, 0), (ArgType.int, 1), (ArgType.string, 2),
      (ArgType.string, 3), (ArgType.int, 4), (ArgType.string, 5)]) s
  | Magic.MAGIC_SET_AUDIO_STATE =>
    Act.run (evalArgs [(ArgType.string, 0), (ArgType.int, 1), (ArgType.int, 2),
      (ArgType.string, 3)]) s
  | Magic.MAGIC_SET_AUDIO_LOOP =>
    Act.run (evalArgs [(ArgType.string, 0), (ArgType.bool, 1)]) s
  | Magic.MAGIC_LOAD_AUDIO =>
    Act.run (Act.andThen (GetParam (T := String) 0) fun _ =>
      Act.andThen (GetParam (T := String) 1) fun _ =>
      Act.andThen (GetParam (T := String) 2) fun File =>
      LoadAudio (File ++ ".ogg")) s
  | Magic.MAGIC_START_ANIMATION =>
    Act.run (evalArgs [(ArgType.string, 0), (ArgType.int, 1), (ArgType.int, 2),
      (ArgType.int, 3), (ArgType.string, 4), (ArgType.bool, 5)]) s
  | Magic.MAGIC_TEXT =>
    Act.run (Act.andThen (evalArgs [(ArgType.string, 0), (ArgType.string, 1),
      (ArgType.string, 2)]) fun _ => GLCallback "ParseText") s
  | Magic.MAGIC_SET_DISPLAY_STATE =>
    Act.run (Act.andThen (GetParam (T := String) 0) fun Handle =>
      Act.andThen (GetParam (T := String) 1) fun State =>
      SetDisplayState Handle State) s
  | Magic.MAGIC_CALLBACK =>
    match l.Params[0]?, l.Params[1]? with
    | some _, some _ => .ok s
    | _, _ => .error .undefined
  | _ => .ok s

/-- `NsbInterpreter::ExecuteLine`: the two assertions (a failed one stops the
interpreter), then the registered handler of the opcode, then the `switch`. -/
def ExecuteLine (s : NsbInterpreter) : Res NsbInterpreter :=
  match NsbAssert s.pScript.isSome "Interpreting null script" [] s with
  | .error e => .error e
  | .ok (true, s1) => .ok (Stop s1)
  | .ok (false, s1) =>
    match NsbAssert s1.pLine.isSome "Interpreting null line" [] s1 with
    | .error e => .error e
    | .ok (true, s2) => .ok (Stop s2)
    | .ok (false, s2) =>
      match s2.pLine with
      | none => .error .undefined
      | some l =>
        match Builtins l.Magic with
        | some pFunc => pFunc s2
        | none => ExecuteSwitch l s2

/-- One iteration of the loop of `NsbInterpreter::ThreadMain` while the interpreter runs:
`pLine = pScript->GetNextLine(); ExecuteLine();`. -/
def FetchExecute (s : NsbInterpreter) : Res NsbInterpreter :=
  match s.pScript with
  | none => .error .undefined
  | some i =>
    match s.Files[i]? with
    | none => .error .undefined
    | some f => ExecuteLine { setFile s i f.GetNextLine.2 with pLine := f.GetNextLine.1 }

/-! ## Vocabulary of the statements -/

/-- A pointer that refers to a module object. -/
def validPtr (s : NsbInterpreter) (p : Option Nat) : Prop := ∃ i, p = some i ∧ i < s.Files.length

/-- The pointers the interpreter follows without a check refer to module objects: the
active module and the loaded modules. -/
def WellFormed (s : NsbInterpreter) : Prop :=
  validPtr s s.pScript ∧ ∀ p ∈ s.LoadedScripts, validPtr s p

/-- The module left by `Recover`: the cursor after the scan, moved back by two. -/
def recovered (f : NsbFile) : NsbFile :=
  let f' := RecoverLoop (f.Source.length + 1) f
  f'.SetSourceIter (subUInt32 f'.GetNextLineEntry 2)

/-- The module behind the pointer defines the function: its lookup is not zero. -/
def defines (s : NsbInterpreter) (p : Option Nat) (FuncName : String) : Prop :=
  ∃ i f, p = some i ∧ s.Files[i]? = some f ∧ f.GetFunctionLine FuncName ≠ 0

/-- The state after a call that resolved to the module `dest` at index `i` while `cur` was
the active module: the frame of the caller is pushed, `dest` is active and its cursor is at
the entry of the function. -/
def entered (s : NsbInterpreter) (i : Nat) (dest cur : NsbFile) (FuncName : String) :
    NsbInterpreter :=
  { setFile s i (dest.SetSourceIter (subUInt32 (dest.GetFunctionLine FuncName) 1)) with
    Returns := ⟨s.pScript, cur.GetNextLineEntry⟩ :: s.Returns
    pScript := some i }

/-- Executes instructions one after the other, each as the current line of `ExecuteLine`. -/
def runLines : List Line → NsbInterpreter → Res NsbInterpreter
  | [], s => .ok s
  | l :: rest, s =>
    match ExecuteLine { s with pLine := some l } with
    | .error e => .error e
    | .ok s' => runLines rest s'

/-- A step of a call/return sequence. -/
inductive CallEnd where
  | call (FuncName : String)
  | ret
deriving DecidableEq, Repr

namespace CallEnd

/-- The instruction of a step: the call opcode with the function name, or the end opcode. -/
def line : CallEnd → Line
  | call n => ⟨Magic.MAGIC_CALL, [n]⟩
  | ret => ⟨Magic.MAGIC_END, []⟩

/-- The number of call steps. -/
def calls : List CallEnd → Nat
  | [] => 0
  | call _ :: rest => calls rest + 1
  | ret :: rest => calls rest

/-- The number of return steps. -/
def rets : List CallEnd → Nat
  | [] => 0
  | call _ :: rest => rets rest
  | ret :: rest => rets rest + 1

end CallEnd

/-- A balanced sequence: as many calls as returns, and no prefix with more returns than
calls. -/
def Balanced (steps : List CallEnd) : Prop :=
  CallEnd.calls steps = CallEnd.rets steps ∧
    ∀ k, CallEnd.rets (steps.take k) ≤ CallEnd.calls (steps.take k)

/-- The function of a call is found: the active module or a loaded module defines it. -/
def Resolves (s : NsbInterpreter) (FuncName : String) : Prop :=
  defines s s.pScript FuncName ∨ ∃ p ∈ s.LoadedScripts, defines s p FuncName

/-- Every call step of the sequence is successful when the sequence runs from `s`: its
function is not the built-in override and is found in the state the step starts from. -/
def CallsResolve : List CallEnd → NsbInterpreter → Prop
  | [], _ => True
  | st :: rest, s =>
    (match st with
      | .call n => c_str n ≠ "MovieWaitSG" ∧ Resolves s (c_str n)
      | .ret => True) ∧
    ∀ s', ExecuteLine { s with pLine := some st.line } = .ok s' → CallsResolve rest s'

/-- The cursor of the active module. -/
def cursor (s : NsbInterpreter) : Option Nat :=
  match s.pScript with
  | none => none
  | some i => (s.Files[i]?).map NsbFile.SourceIter

/-- The instruction the next fetch of the active module returns, if any. -/
def nextLine (s : NsbInterpreter) : Option Line :=
  match s.pScript with
  | none => none
  | some i =>
    match s.Files[i]? with
    | none => none
    | some f => f.GetNextLine.1

/-- The two instructions that move a value into the Placeholder Queue: the parameter opcode
stages it, the set-placeholder opcode moves the last staged value to the back of the queue. -/
def stagePlaceholder (v : Variable) : List Line :=
  [⟨Magic.MAGIC_PARAM, [v.Ty, v.Value]⟩, ⟨Magic.MAGIC_SET_PLACEHOLDER, []⟩]

/-- The program that moves the values into the queue in the order of the list. -/
def stagePlaceholders : List Variable → List Line
  | [] => []
  | v :: vs => stagePlaceholder v ++ stagePlaceholders vs

/-- Successive reads `GetParam<T>(Index)` at the indices of the list, in order. -/
def GetParams {T : Type} [LexicalCast T] : List Nat → NsbInterpreter →
    Res (List T × NsbInterpreter)
  | [], s => .ok ([], s)
  | i :: rest, s =>
    match GetParam (T := T) i s with
    | .error e => .error e
    | .ok (v, s') =>
      match GetParams rest s' with
      | .error e => .error e
      | .ok (vs, s'') => .ok (v :: vs, s'')

/-! ## Example states -/

/-- An interpreter at start-up: the given module objects, active module and loaded modules,
every store empty, running. -/
def initState (Files : List NsbFile) (pScript : Option Nat) (Loaded : List (Option Nat)) :
    NsbInterpreter :=
  { Files := Files, pScript := pScript, pLine := none, LoadedScripts := Loaded
    Variables := [], Arrays := [], Params := [], ArrayParams := [], Placeholders := []
    Returns := [], HandleName := "", RunInterpreter := true, StopInterpreter := false
    Drawables := [], GLCallbacks := [], Resources := [], Wildcard := fun _ => []
    cout := "", Crashes := 0 }

/-- A module whose first instruction is an end opcode and whose only clear-parameters
instruction is at position 5; it defines `Foo` with entry number 2. -/
def exampleMain : NsbFile :=
  { Name := "main"
    Source := [⟨Magic.MAGIC_END, []⟩, ⟨Magic.MAGIC_PARAM, ["STRING", "p1"]⟩,
      ⟨Magic.MAGIC_PARAM, ["STRING", "p2"]⟩, ⟨Magic.MAGIC_PARAM, ["STRING", "p3"]⟩,
      ⟨Magic.MAGIC_PARAM, ["STRING", "p4"]⟩, ⟨Magic.MAGIC_CLEAR_PARAMS, []⟩,
      ⟨Magic.MAGIC_PARAM, ["STRING", "p6"]⟩, ⟨Magic.MAGIC_PARAM, ["STRING", "p7"]⟩]
    Functions := [("Foo", 2)]
    SourceIter := 0 }

/-- A loaded module that defines `Foo` and `Bar`. -/
def exampleLib : NsbFile :=
  { Name := "lib"
    Source := [⟨Magic.MAGIC_BEGIN, ["function.Foo"]⟩, ⟨Magic.MAGIC_END, []⟩,
      ⟨Magic.MAGIC_BEGIN, ["function.Bar"]⟩, ⟨Magic.MAGIC_END, []⟩]
    Functions := [("Foo", 1), ("Bar", 3)]
    SourceIter := 0 }

/-- The active module `exampleMain` with `exampleLib` loaded. -/
def exampleState : NsbInterpreter := initState [exampleMain, exampleLib] (some 0) [some 1]

/-- The state `exampleState` while the instruction at position 0 is executed: the cursor
of the active module is 1. -/
def exampleFetched : NsbInterpreter :=
  initState [{ exampleMain with SourceIter := 1 }, exampleLib] (some 0) [some 1]

/-- The state `exampleState` about to execute a call of the function named. -/
def exampleCall (FuncName : String) : NsbInterpreter :=
  { exampleState with pLine := some ⟨Magic.MAGIC_CALL, [FuncName]⟩ }

/-- The state `exampleState` with the given staged values. -/
def exampleParams (Params : List Variable) : NsbInterpreter :=
  { exampleState with Params := Params }

/-- An array read of depth 2 on the handle `arr`, whose only member is `a` with the value
`INT 1`; the staged names are `a` and `b`, and no array has a member named `b`. -/
def exampleArrayRead : NsbInterpreter :=
  { exampleState with
    pLine := some ⟨Magic.MAGIC_ARRAY_READ, ["arr", "2"]⟩
    Arrays := [("arr", ArrayVariable.mk "" "" [("a", ArrayVariable.mk "INT" "1" [])])]
    Params := [⟨"STRING", "a"⟩, ⟨"STRING", "b"⟩, ⟨"INT", "2"⟩] }

/-- The opcodes that are a `case` label of the `switch` in `NsbInterpreter::ExecuteLine`. -/
def switchCases : List Magic :=
  [Magic.MAGIC_SET_PLACEHOLDER, Magic.MAGIC_PLACEHOLDER_PARAM, Magic.MAGIC_APPLY_BLUR,
   Magic.MAGIC_DISPLAY_TEXT, Magic.MAGIC_CREATE_BOX, Magic.MAGIC_ARRAY_READ,
   Magic.MAGIC_CREATE_ARRAY, Magic.MAGIC_SET_TEXTBOX_ATTRIBUTES,
   Magic.MAGIC_SET_FONT_ATTRIBUTES, Magic.MAGIC_SET_AUDIO_STATE, Magic.MAGIC_SET_AUDIO_LOOP,
   Magic.MAGIC_SET_AUDIO_RANGE, Magic.MAGIC_LOAD_AUDIO, Magic.MAGIC_START_ANIMATION,
   Magic.MAGIC_UNK29, Magic.MAGIC_SLEEP_MS, Magic.MAGIC_GET_MOVIE_TIME,
   Magic.MAGIC_CALL_SCRIPT, Magic.MAGIC_UNK5, Magic.MAGIC_TEXT, Magic.MAGIC_SET,
   Magic.MAGIC_GET, Magic.MAGIC_PARAM, Magic.MAGIC_SET_DISPLAY_STATE, Magic.MAGIC_CALLBACK]

/-- The state `exampleState` with two variables: `x` holds `INT 5`, `y` holds `STRING abc`. -/
def exampleVariables : NsbInterpreter :=
  { exampleState with Variables := [("x", ⟨"INT", "5"⟩), ("y", ⟨"STRING", "abc"⟩)] }

/-- The state `exampleState` about to execute a create-array instruction on the absent
array `arr` with the staged values `INT 1`, `INT 2`, `INT 3`. -/
def exampleCreateArray : NsbInterpreter :=
  { exampleState with
    pLine := some ⟨Magic.MAGIC_CREATE_ARRAY, ["arr"]⟩
    Params := [⟨"INT", "1"⟩, ⟨"INT", "2"⟩, ⟨"INT", "3"⟩] }

/-- The state `exampleVariables` about to execute the begin instruction of a function with
the parameters `$a` and `$b`, with three staged values. -/
def exampleBegin : NsbInterpreter :=
  { exampleVariables with
    pLine := some ⟨Magic.MAGIC_BEGIN, ["function.Foo", "$a", "$b"]⟩
    Params := [⟨"INT", "1"⟩, ⟨"STRING", "two"⟩, ⟨"INT", "3"⟩] }

/-- The state `exampleVariables` inside an instruction with the operand tokens `x` and `7`,
both slots staged as placeholders, with an empty Placeholder Queue. -/
def examplePlaceholderSlots : NsbInterpreter :=
  { exampleVariables with
    pLine := some ⟨Magic.MAGIC_CREATE_BOX, ["x", "7"]⟩
    Params := [⟨"PH", ""⟩, ⟨"PH", ""⟩] }

/-- The state `exampleState` with the array `arr` of the members `k`, `a`, `a` (values
`INT 1`, `INT 2`, `INT 3`) and the staged key `a`. -/
def exampleArrayFirst : NsbInterpreter :=
  { exampleState with
    Arrays := [("arr", ArrayVariable.mk "" "" [("k", ArrayVariable.mk "INT" "1" []),
      ("a", ArrayVariable.mk "INT" "2" []), ("a", ArrayVariable.mk "INT" "3" [])])]
    Params := [⟨"STRING", "a"⟩, ⟨"INT", "1"⟩] }

/-! ## Outcomes and frames -/

/-- The state an outcome of an expression carries: the state returned, or the state at an
escaping cast error; undefined behaviour carries none. -/
def stateOf {α : Type} : Res (α × NsbInterpreter) → Option NsbInterpreter
  | .ok (_, s) => some s
  | .error (.bad_lexical_cast s) => some s
  | .error .undefined => none

/-- The state an outcome of a handler carries: the state returned, or the state at an
escaping cast error; undefined behaviour carries none. -/
def finalState : Res NsbInterpreter → Option NsbInterpreter
  | .ok s => some s
  | .error (.bad_lexical_cast s) => some s
  | .error .undefined => none

/-- The members that the operand reads, the assertions and the glue of the renderer and
the audio device leave as they are: the Return Stack, the Parameter Stack, the Variable
Store, the Array Table, the array-read result references, the active module pointer, the
current instruction and the loaded modules. -/
def hostFrame (s s' : NsbInterpreter) : Prop :=
  s'.Returns = s.Returns ∧ s'.Params = s.Params ∧ s'.Variables = s.Variables ∧
  s'.Arrays = s.Arrays ∧ s'.ArrayParams = s.ArrayParams ∧ s'.pScript = s.pScript ∧
  s'.pLine = s.pLine ∧ s'.LoadedScripts = s.LoadedScripts

/-- Every state an outcome of the expression carries is in the frame of the state it
started from. -/
def Keeps {α : Type} (x : Act α) : Prop :=
  ∀ s s', stateOf (x s) = some s' → hostFrame s s'

/-- What a step other than a call, a return, a clear or the movie-time query guarantees:
the Return Stack is as before and the Parameter Stack has lost at most one value. -/
def stepFrame (s s' : NsbInterpreter) : Prop :=
  s'.Returns = s.Returns ∧ s.Params.length ≤ s'.Params.length + 1

/-- The state `exampleFetched` inside a function called from the loaded module (one frame
on the Return Stack), about to concatenate the staged values `INT 1` and `STRING a`. -/
def exampleConcatFault : NsbInterpreter :=
  { exampleFetched with
    pLine := some ⟨Magic.MAGIC_CONCAT, []⟩
    Params := [⟨"INT", "1"⟩, ⟨"STRING", "a"⟩]
    Returns := [⟨some 1, 2⟩] }

/-- The state `exampleState` about to execute the movie-time query on the handle `movie`,
which has no drawable, with two staged values. -/
def exampleMovieTime : NsbInterpreter :=
  { exampleState with
    pLine := some ⟨Magic.MAGIC_GET_MOVIE_TIME, ["movie"]⟩
    Params := [⟨"STRING", "a"⟩, ⟨"STRING", "b"⟩] }

/-- The state `exampleState` about to move the last of two staged values into the
Placeholder Queue. -/
def exampleSetPlaceholder : NsbInterpreter :=
  { exampleState with
    pLine := some ⟨Magic.MAGIC_SET_PLACEHOLDER, []⟩
    Params := [⟨"STRING", "a"⟩, ⟨"STRING", "b"⟩] }

/-- The state `exampleVariables` with staged values, a queued placeholder, an array-read
result reference, an array and a frame, about to execute the clear-parameters instruction. -/
def exampleClear : NsbInterpreter :=
  { exampleVariables with
    pLine := some ⟨Magic.MAGIC_CLEAR_PARAMS, []⟩
    Params := [⟨"INT", "1"⟩, ⟨"STRING", "a"⟩]
    Placeholders := [⟨"INT", "7"⟩]
    ArrayParams := [("arr", 0)]
    Arrays := [("arr", ArrayVariable.mk "" "" [("a", ArrayVariable.mk "INT" "1" [])])]
    Returns := [⟨some 1, 2⟩] }

/-- The active module `exampleMain` with the cursor past its last instruction, with the
variables of `exampleVariables`, one staged value, one queued placeholder, one array and one
frame. -/
def exampleEndOfStream : NsbInterpreter :=
  { initState [{ exampleMain with SourceIter := 8 }, exampleLib] (some 0) [some 1] with
    Variables := [("x", ⟨"INT", "5"⟩), ("y", ⟨"STRING", "abc"⟩)]
    Params := [⟨"INT", "1"⟩]
    Placeholders := [⟨"INT", "7"⟩]
    Arrays := [("arr", ArrayVariable.mk "" "" [("a", ArrayVariable.mk "INT" "1" [])])]
    Returns := [⟨some 1, 2⟩] }

/-- The state `exampleState` with a movie of 1500 milliseconds behind the handle of the
override and two staged values, about to execute a call of `MovieWaitSG`. -/
def exampleMovieWait : NsbInterpreter :=
  { exampleState with
    pLine := some ⟨Magic.MAGIC_CALL, ["MovieWaitSG"]⟩
    Params := [⟨"STRING", "a"⟩, ⟨"STRING", "b"⟩]
    Drawables := [("ムービー", some (DrawableKind.movie 1500))] }

/-- The state `exampleMovieTime` with a movie of 1500 milliseconds behind the handle
`movie`. -/
def exampleMovieTimeHit : NsbInterpreter :=
  { exampleMovieTime with Drawables := [("movie", some (DrawableKind.movie 1500))] }

/-- The state `exampleMovieWait` with a `Text` instead of a movie behind the handle of the
override. -/
def exampleMovieWaitMiss : NsbInterpreter :=
  { exampleMovieWait with Drawables := [("ムービー", some DrawableKind.text)] }

/-! ## Lexical casts -/

theorem digitValue_digitChar (d : Nat) (h : d < 10) : digitValue (Nat.digitChar d) = some d := by
  interval_cases d <;> rfl

theorem parseDigits_toDigitsCore (fuel : Nat) : ∀ (n : Nat) (ds : List Char), n < fuel →
    parseDigits 0 (Nat.toDigitsCore 10 fuel n ds) = parseDigits n ds := by
  induction fuel with
  | zero => intro n ds h; omega
  | succ fuel ih =>
    intro n ds h
    simp only [Nat.toDigitsCore]
    split
    · rename_i h0
      have hn : n % 10 = n := by omega
      have hd := digitValue_digitChar (n % 10) (Nat.mod_lt _ (by decide))
      simp only [parseDigits, hd]
      rw [hn]; simp
    · rename_i h0
      rw [ih (n / 10) _ (by omega)]
      simp only [parseDigits, digitValue_digitChar (n % 10) (Nat.mod_lt _ (by decide))]
      congr 1
      omega

theorem toDigitsCore_ne_nil (fuel : Nat) : ∀ (n : Nat) (ds : List Char), (0 < fuel ∨ ds ≠ []) →
    Nat.toDigitsCore 10 fuel n ds ≠ [] := by
  induction fuel with
  | zero => intro n ds h; simpa [Nat.toDigitsCore] using h
  | succ fuel ih =>
    intro n ds _
    simp only [Nat.toDigitsCore]
    split
    · simp
    · exact ih _ _ (Or.inr (by simp))

theorem parseNat_toDigits (n : Nat) : parseNat (Nat.toDigits 10 n) = some n := by
  have h1 := parseDigits_toDigitsCore (n + 1) n [] (by omega)
  have h2 := toDigitsCore_ne_nil (n + 1) n [] (Or.inl (by omega))
  unfold Nat.toDigits
  cases hd : Nat.toDigitsCore 10 (n + 1) n [] with
  | nil => exact absurd hd h2
  | cons c cs =>
    rw [hd] at h1
    simp only [parseNat, h1]
    rfl

theorem head_toDigits (n : Nat) : ∃ c cs, Nat.toDigits 10 n = c :: cs ∧ c ≠ '-' ∧ c ≠ '+' := by
  have h := parseNat_toDigits n
  cases hd : Nat.toDigits 10 n with
  | nil => rw [hd] at h; simp [parseNat] at h
  | cons c cs =>
    refine ⟨c, cs, rfl, ?_, ?_⟩
    · rintro rfl
      rw [hd] at h
      simp [parseNat, parseDigits, digitValue] at h
    · rintro rfl
      rw [hd] at h
      simp [parseNat, parseDigits, digitValue] at h

theorem lexical_cast_int32_string (n : Int) (h : isInt32 n) :
    lexical_cast_int32 (lexical_cast_string n) = some n := by
  obtain ⟨hlo, hhi⟩ := h
  unfold lexical_cast_string
  cases n with
  | ofNat m =>
    obtain ⟨c, cs, hd, hm, hplus⟩ := head_toDigits m
    have hp := parseNat_toDigits m
    have hdata : (toString (Int.ofNat m)).data = c :: cs := by
      show (Nat.repr m).data = _
      simp [Nat.repr, hd, List.asString]
    unfold lexical_cast_int32
    rw [hdata]
    simp only [hm, hplus, if_false]
    rw [← hd, hp]
    have hlt : m < 2 ^ 31 := by
      have : Int.ofNat m = (m : Int) := rfl
      omega
    simp only [hlt, if_true]
    rfl
  | negSucc m =>
    have hp := parseNat_toDigits (m + 1)
    have hdata : (toString (Int.negSucc m)).data = '-' :: Nat.toDigits 10 (m + 1) := by
      show ("-" ++ Nat.repr (m + 1)).data = _
      simp [Nat.repr, List.asString]
    unfold lexical_cast_int32
    rw [hdata]
    simp only [if_true, hp]
    have : m + 1 ≤ 2 ^ 31 := by
      have : Int.negSucc m = -((m : Int) + 1) := by rfl
      omega
    simp only [this, if_true]
    rfl

theorem deref_of_valid {s : NsbInterpreter} {p : Option Nat} (h : validPtr s p) :
    ∃ i f, p = some i ∧ s.Files[i]? = some f ∧ deref s p = .ok f := by
  obtain ⟨i, rfl, hi⟩ := h
  refine ⟨i, s.Files[i], rfl, by simp [hi], ?_⟩
  simp [deref, hi]

theorem traceLines_ok (s : NsbInterpreter) : ∀ frs : List FuncReturn,
    (∀ fr ∈ frs, validPtr s fr.pScript) → ∃ t, traceLines s frs = .ok t := by
  intro frs
  induction frs with
  | nil => intro _; exact ⟨"", rfl⟩
  | cons fr rest ih =>
    intro h
    obtain ⟨i, f, _, _, hd⟩ := deref_of_valid (h fr (by simp))
    obtain ⟨t, ht⟩ := ih (fun fr' hfr => h fr' (by simp [hfr]))
    exact ⟨f.GetName ++ " at " ++ toString fr.SourceLine ++ "\n" ++ t,
      by simp only [traceLines, hd, ht]⟩

theorem WriteTrace_ok (s : NsbInterpreter) (hp : validPtr s s.pScript)
    (hr : ∀ fr ∈ s.Returns, validPtr s fr.pScript) : ∃ t, WriteTrace s = .ok t := by
  obtain ⟨i, f, _, _, hd⟩ := deref_of_valid hp
  obtain ⟨t, ht⟩ := traceLines_ok s (⟨s.pScript, f.GetNextLineEntry⟩ :: s.Returns) (by
    intro fr hfr
    rcases List.mem_cons.mp hfr with rfl | h
    · exact hp
    · exact hr fr h)
  exact ⟨t, by simp only [WriteTrace, hd, ht]⟩

theorem Crash_ok (s : NsbInterpreter) (i : Nat) (f : NsbFile) (hp : s.pScript = some i)
    (hf : s.Files[i]? = some f) (hr : ∀ fr ∈ s.Returns, validPtr s fr.pScript) :
    ∃ t, Crash s = .ok { s with cout := s.cout ++ t, Crashes := s.Crashes + 1,
                                 Files := s.Files.set i (recovered f) } := by
  have hv : validPtr s s.pScript := ⟨i, hp, by
    rcases Nat.lt_or_ge i s.Files.length with h | h
    · exact h
    · simp [List.getElem?_eq_none h] at hf⟩
  obtain ⟨t, ht⟩ := WriteTrace_ok s hv hr
  refine ⟨"\n**STACK TRACE BEGIN**\n" ++ t ++ "**STACK TRACE END**\nRecovering...\n\n", ?_⟩
  simp only [Crash, ht, Recover, hp, hf, recovered, String.append_assoc]

theorem RecoverLoop_scan (d : Nat) : ∀ (fuel : Nat) (f : NsbFile), d < fuel →
    (∀ j, j < d → ∃ l, f.Source[f.SourceIter + j]? = some l ∧ l.Magic ≠ Magic.MAGIC_CLEAR_PARAMS) →
    (∃ l, f.Source[f.SourceIter + d]? = some l ∧ l.Magic = Magic.MAGIC_CLEAR_PARAMS) →
    RecoverLoop fuel f = { f with SourceIter := f.SourceIter + d + 1 } := by
  induction d with
  | zero =>
    intro fuel f hfuel _ hclear
    obtain ⟨l, hl, hm⟩ := hclear
    cases fuel with
    | zero => omega
    | succ fuel =>
      simp only [Nat.add_zero] at hl
      simp [RecoverLoop, NsbFile.GetNextLine, hl, hm]
  | succ d ih =>
    intro fuel f hfuel hbefore hclear
    obtain ⟨l0, hl0, hm0⟩ := hbefore 0 (by omega)
    cases fuel with
    | zero => omega
    | succ fuel =>
      simp only [Nat.add_zero] at hl0
      simp only [RecoverLoop, NsbFile.GetNextLine, hl0, hm0, if_false]
      rw [ih fuel _ (by omega)]
      · simp; omega
      · intro j hj
        have := hbefore (j + 1) (by omega)
        simpa [Nat.add_assoc, Nat.add_comm 1 j] using this
      · simpa [Nat.add_assoc, Nat.add_comm 1 d] using hclear

theorem RecoverLoop_fuel (n : Nat) : ∀ (fuel : Nat) (f : NsbFile),
    f.Source.length - f.SourceIter = n → n < fuel →
    RecoverLoop fuel f = RecoverLoop (n + 1) f := by
  induction n with
  | zero =>
    intro fuel f hn hfuel
    cases fuel with
    | zero => omega
    | succ fuel =>
      have : f.Source[f.SourceIter]? = none := List.getElem?_eq_none (by omega)
      simp [RecoverLoop, NsbFile.GetNextLine, this]
  | succ n ih =>
    intro fuel f hn hfuel
    cases fuel with
    | zero => omega
    | succ fuel =>
      cases hl : f.Source[f.SourceIter]? with
      | none => simp [RecoverLoop, NsbFile.GetNextLine, hl]
      | some l =>
        simp only [RecoverLoop, NsbFile.GetNextLine, hl]
        split
        · rfl
        · exact ih fuel _ (by simp; omega) (by omega)

theorem RecoverLoop_enough (f : NsbFile) (fuel : Nat) (h : f.Source.length + 1 ≤ fuel) :
    RecoverLoop fuel f = RecoverLoop (f.Source.length + 1) f := by
  rw [RecoverLoop_fuel _ fuel f rfl (by omega), RecoverLoop_fuel _ (f.Source.length + 1) f rfl (by omega)]

theorem validPtr_of_getElem {s : NsbInterpreter} {i : Nat} {f : NsbFile}
    (h : s.Files[i]? = some f) : validPtr s (some i) := by
  refine ⟨i, rfl, ?_⟩
  rcases Nat.lt_or_ge i s.Files.length with hlt | hge
  · exact hlt
  · simp [List.getElem?_eq_none hge] at h

theorem validPtr_congr {s s' : NsbInterpreter} (h : s'.Files.length = s.Files.length)
    (p : Option Nat) : validPtr s' p ↔ validPtr s p := by
  simp [validPtr, h]

theorem ExecuteLine_builtin (s : NsbInterpreter) (l : Line)
    (h : NsbInterpreter → Res NsbInterpreter) (hp : s.pScript.isSome = true)
    (hl : s.pLine = some l) (hb : Builtins l.Magic = some h) : ExecuteLine s = h s := by
  simp [ExecuteLine, NsbAssert, hp, hl, hb]

theorem ExecuteLine_switch (s : NsbInterpreter) (l : Line) (hp : s.pScript.isSome = true)
    (hl : s.pLine = some l) (hb : Builtins l.Magic = none) :
    ExecuteLine s = ExecuteSwitch l s := by
  simp [ExecuteLine, NsbAssert, hp, hl, hb]

theorem CallFunction_hit (s : NsbInterpreter) (i : Nat) (dest cur : NsbFile) (fn : String)
    (hd : s.Files[i]? = some dest) (hf : dest.GetFunctionLine fn ≠ 0)
    (hc : deref s s.pScript = .ok cur) :
    CallFunction (some i) fn s = .ok (true, entered s i dest cur fn) := by
  simp [CallFunction, hd, hf, hc, entered]

theorem CallFunction_miss (s : NsbInterpreter) (i : Nat) (dest : NsbFile) (fn : String)
    (hd : s.Files[i]? = some dest) (hf : dest.GetFunctionLine fn = 0) :
    CallFunction (some i) fn s = .ok (false, s) := by
  simp [CallFunction, hd, hf]

theorem CallGlobal_hit (s : NsbInterpreter) (fn : String) (cur : NsbFile)
    (hc : deref s s.pScript = .ok cur) (i : Nat) (dest : NsbFile) (post : List (Option Nat))
    (hd : s.Files[i]? = some dest) (hf : dest.GetFunctionLine fn ≠ 0) :
    ∀ pre : List (Option Nat),
      (∀ p ∈ pre, ∃ j g, p = some j ∧ s.Files[j]? = some g ∧ g.GetFunctionLine fn = 0) →
      CallGlobal fn (pre ++ some i :: post) s = .ok (entered s i dest cur fn) := by
  intro pre
  induction pre with
  | nil =>
    intro _
    simp [CallGlobal, CallFunction_hit s i dest cur fn hd hf hc]
  | cons p pre ih =>
    intro h
    obtain ⟨j, g, rfl, hg, hg0⟩ := h p (by simp)
    simp only [List.cons_append, CallGlobal, CallFunction_miss s j g fn hg hg0]
    exact ih (fun q hq => h q (by simp [hq]))

theorem CallGlobal_miss (s : NsbInterpreter) (fn : String) :
    ∀ l : List (Option Nat),
      (∀ p ∈ l, ∃ j g, p = some j ∧ s.Files[j]? = some g ∧ g.GetFunctionLine fn = 0) →
      CallGlobal fn l s =
        .ok { s with cout := s.cout ++ "Failed to lookup function symbol " ++ fn ++ "\n" } := by
  intro l
  induction l with
  | nil => intro _; rfl
  | cons p l ih =>
    intro h
    obtain ⟨j, g, rfl, hg, hg0⟩ := h p (by simp)
    simp only [CallGlobal, CallFunction_miss s j g fn hg hg0]
    exact ih (fun q hq => h q (by simp [hq]))

/-- `Call` on a function the active module defines. -/
theorem Call_local (s : NsbInterpreter) (l : Line) (tok : String) (i : Nat) (cur : NsbFile)
    (hl : s.pLine = some l) (ht : l.Params[0]? = some tok) (hno : c_str tok ≠ "MovieWaitSG")
    (hp : s.pScript = some i) (hc : s.Files[i]? = some cur)
    (hf : cur.GetFunctionLine (c_str tok) ≠ 0) :
    Call s = .ok (entered s i cur cur (c_str tok)) := by
  have hd : deref s s.pScript = .ok cur := by simp [deref, hp, hc]
  have := CallFunction_hit s i cur cur (c_str tok) hc hf hd
  simp only [Call, hl, ht, hno, if_false, hp] at this ⊢
  simp [this]

/-- `Call` on a function that the active module does not define and a loaded module does. -/
theorem Call_global (s : NsbInterpreter) (l : Line) (tok : String) (a i : Nat)
    (cur dest : NsbFile) (pre post : List (Option Nat))
    (hl : s.pLine = some l) (ht : l.Params[0]? = some tok) (hno : c_str tok ≠ "MovieWaitSG")
    (hp : s.pScript = some a) (hc : s.Files[a]? = some cur)
    (hf : cur.GetFunctionLine (c_str tok) = 0)
    (hload : s.LoadedScripts = pre ++ some i :: post)
    (hpre : ∀ p ∈ pre, ∃ j g, p = some j ∧ s.Files[j]? = some g ∧ g.GetFunctionLine (c_str tok) = 0)
    (hd : s.Files[i]? = some dest) (hdf : dest.GetFunctionLine (c_str tok) ≠ 0) :
    Call s = .ok (entered s i dest cur (c_str tok)) := by
  have hcur : deref s s.pScript = .ok cur := by simp [deref, hp, hc]
  have h1 := CallFunction_miss s a cur (c_str tok) hc hf
  have h2 := CallGlobal_hit s (c_str tok) cur hcur i dest post hd hdf pre hpre
  simp only [Call, hl, ht, hno, if_false, hp, h1, hload, h2]

/-- `Call` on a function that no module defines. -/
theorem Call_miss (s : NsbInterpreter) (l : Line) (tok : String) (a : Nat) (cur : NsbFile)
    (hl : s.pLine = some l) (ht : l.Params[0]? = some tok) (hno : c_str tok ≠ "MovieWaitSG")
    (hp : s.pScript = some a) (hc : s.Files[a]? = some cur)
    (hf : cur.GetFunctionLine (c_str tok) = 0)
    (hall : ∀ p ∈ s.LoadedScripts,
      ∃ j g, p = some j ∧ s.Files[j]? = some g ∧ g.GetFunctionLine (c_str tok) = 0) :
    Call s = .ok { s with
      cout := s.cout ++ "Failed to lookup function symbol " ++ c_str tok ++ "\n" } := by
  have h1 := CallFunction_miss s a cur (c_str tok) hc hf
  have h2 := CallGlobal_miss s (c_str tok) s.LoadedScripts hall
  simp only [Call, hl, ht, hno, if_false, hp, h1, h2]

theorem first_defining (s : NsbInterpreter) (fn : String) : ∀ l : List (Option Nat),
    (∀ p ∈ l, validPtr s p) → (∃ p ∈ l, defines s p fn) →
    ∃ pre i post dest, l = pre ++ some i :: post ∧
      (∀ p ∈ pre, ∃ j g, p = some j ∧ s.Files[j]? = some g ∧ g.GetFunctionLine fn = 0) ∧
      s.Files[i]? = some dest ∧ dest.GetFunctionLine fn ≠ 0 := by
  intro l
  induction l with
  | nil => intro _ h; obtain ⟨p, hp, _⟩ := h; simp at hp
  | cons q l ih =>
    intro hv hex
    obtain ⟨j, g, rfl, hg, _⟩ := deref_of_valid (hv q (by simp))
    by_cases hq : g.GetFunctionLine fn = 0
    · have hex' : ∃ p ∈ l, defines s p fn := by
        obtain ⟨p, hp, hdef⟩ := hex
        rcases List.mem_cons.mp hp with rfl | hp'
        · obtain ⟨j', g', hj', hg', hne⟩ := hdef
          cases hj'
          rw [hg] at hg'
          cases hg'
          exact absurd hq hne
        · exact ⟨p, hp', hdef⟩
      obtain ⟨pre, i, post, dest, rfl, hpre, hd, hne⟩ :=
        ih (fun p hp => hv p (by simp [hp])) hex'
      refine ⟨some j :: pre, i, post, dest, rfl, ?_, hd, hne⟩
      intro p hp
      rcases List.mem_cons.mp hp with rfl | hp'
      · exact ⟨j, g, rfl, hg, hq⟩
      · exact hpre p hp'
    · exact ⟨[], j, l, g, rfl, by simp, hg, hq⟩

theorem Call_resolves (s : NsbInterpreter) (l : Line) (tok : String)
    (hwf : WellFormed s) (hl : s.pLine = some l) (ht : l.Params[0]? = some tok)
    (hno : c_str tok ≠ "MovieWaitSG") (hres : Resolves s (c_str tok)) :
    ∃ i dest cur, s.Files[i]? = some dest ∧ deref s s.pScript = .ok cur ∧
      Call s = .ok (entered s i dest cur (c_str tok)) := by
  obtain ⟨a, cur, hp, hc, hd⟩ := deref_of_valid hwf.1
  by_cases hf : cur.GetFunctionLine (c_str tok) = 0
  · have hex : ∃ p ∈ s.LoadedScripts, defines s p (c_str tok) := by
      rcases hres with hdef | hex
      · obtain ⟨j', g', hj', hg', hne⟩ := hdef
        rw [hp] at hj'
        cases hj'
        rw [hc] at hg'
        cases hg'
        exact absurd hf hne
      · exact hex
    obtain ⟨pre, i, post, dest, hload, hpre, hdest, hne⟩ :=
      first_defining s (c_str tok) s.LoadedScripts hwf.2 hex
    exact ⟨i, dest, cur, hdest, hd,
      Call_global s l tok a i cur dest pre post hl ht hno hp hc hf hload hpre hdest hne⟩
  · exact ⟨a, cur, cur, hc, hd, Call_local s l tok a cur hl ht hno hp hc hf⟩

theorem End_pop (s : NsbInterpreter) (top : FuncReturn) (rest : List FuncReturn) (i : Nat)
    (f : NsbFile) (hr : s.Returns = top :: rest) (hp : top.pScript = some i)
    (hf : s.Files[i]? = some f) :
    End s = .ok { setFile s i (f.SetSourceIter top.SourceLine) with
                  pScript := top.pScript, Returns := rest } := by
  simp [End, NsbAssert, hr, hp, hf]

theorem calls_returns_general : ∀ (steps : List CallEnd) (s : NsbInterpreter)
    (new base : List FuncReturn), WellFormed s → s.Returns = new ++ base →
    (∀ fr ∈ new, validPtr s fr.pScript) →
    (∀ k, CallEnd.rets (steps.take k) ≤ CallEnd.calls (steps.take k) + new.length) →
    CallsResolve steps s →
    ∃ s' new', runLines (steps.map CallEnd.line) s = .ok s' ∧ s'.Returns = new' ++ base ∧
      new'.length + CallEnd.rets steps = new.length + CallEnd.calls steps := by
  intro steps
  induction steps with
  | nil =>
    intro s new base _ hr _ _ _
    exact ⟨s, new, rfl, hr, rfl⟩
  | cons st rest ih =>
    intro s new base hwf hr hnew hpre hres
    obtain ⟨hstep, hrest⟩ := hres
    have hsome : ({ s with pLine := some st.line } : NsbInterpreter).pScript.isSome = true := by
      obtain ⟨a, ha, _⟩ := hwf.1
      simp [ha]
    cases st with
    | call n =>
      obtain ⟨hno, hfound⟩ := hstep
      obtain ⟨i, dest, cur, hdest, hcur, hcall⟩ :=
        Call_resolves { s with pLine := some (CallEnd.call n).line } (CallEnd.call n).line n
          hwf rfl rfl hno hfound
      have hexec : ExecuteLine { s with pLine := some (CallEnd.call n).line } =
          .ok (entered { s with pLine := some (CallEnd.call n).line } i dest cur (c_str n)) := by
        rw [ExecuteLine_builtin _ (CallEnd.call n).line Call hsome rfl rfl]
        exact hcall
      have hlen : (entered { s with pLine := some (CallEnd.call n).line } i dest cur
          (c_str n)).Files.length = s.Files.length := by
        simp [entered, setFile]
      have hwf' : WellFormed (entered { s with pLine := some (CallEnd.call n).line } i dest cur
          (c_str n)) := by
        constructor
        · exact (validPtr_congr hlen _).2 (validPtr_of_getElem hdest)
        · intro p hp
          exact (validPtr_congr hlen _).2 (hwf.2 p hp)
      obtain ⟨s', new', hrun, hret, hcount⟩ :=
        ih _ (⟨s.pScript, cur.GetNextLineEntry⟩ :: new) base hwf'
          (by simp [entered, setFile, hr])
          (by
            intro fr hfr
            refine (validPtr_congr hlen _).2 ?_
            rcases List.mem_cons.mp hfr with rfl | h
            · exact hwf.1
            · exact hnew fr h)
          (by
            intro k
            have := hpre (k + 1)
            simp only [List.take_succ_cons, CallEnd.rets, CallEnd.calls] at this
            simp only [List.length_cons]
            omega)
          (hrest _ hexec)
      refine ⟨s', new', ?_, hret, ?_⟩
      · simp only [List.map_cons, runLines, hexec]
        exact hrun
      · simp only [CallEnd.rets, CallEnd.calls, List.length_cons] at hcount ⊢
        omega
    | ret =>
      have h1 := hpre 1
      simp only [List.take_succ_cons, List.take_zero, CallEnd.rets, CallEnd.calls] at h1
      cases new with
      | nil => simp at h1
      | cons top new =>
        obtain ⟨i, f, hi, hf, _⟩ := deref_of_valid (hnew top (by simp))
        have hexec : ExecuteLine { s with pLine := some CallEnd.ret.line } =
            .ok { setFile { s with pLine := some CallEnd.ret.line } i
                    (f.SetSourceIter top.SourceLine) with
                  pScript := top.pScript, Returns := new ++ base } := by
          rw [ExecuteLine_builtin _ CallEnd.ret.line End hsome rfl rfl]
          exact End_pop _ top (new ++ base) i f (by simp [hr]) hi hf
        have hlen : ({ setFile { s with pLine := some CallEnd.ret.line } i
                    (f.SetSourceIter top.SourceLine) with
                  pScript := top.pScript, Returns := new ++ base } : NsbInterpreter).Files.length
              = s.Files.length := by
          simp [setFile]
        obtain ⟨s', new', hrun, hret, hcount⟩ :=
          ih _ new base
            (by
              constructor
              · exact (validPtr_congr hlen _).2 (hnew top (by simp))
              · intro p hp
                exact (validPtr_congr hlen _).2 (hwf.2 p hp))
            rfl
            (by
              intro fr hfr
              exact (validPtr_congr hlen _).2 (hnew fr (by simp [hfr])))
            (by
              intro k
              have := hpre (k + 1)
              simp only [List.take_succ_cons, CallEnd.rets, CallEnd.calls,
                List.length_cons] at this
              omega)
            (hrest _ hexec)
        refine ⟨s', new', ?_, hret, ?_⟩
        · simp only [List.map_cons, runLines, hexec]
          exact hrun
        · simp only [CallEnd.rets, CallEnd.calls, List.length_cons] at hcount ⊢
          omega

/-- C1. A balanced sequence of successful Call steps and End steps, run from a state whose
active and loaded module pointers are valid, leaves the Return Stack as it was. -/
theorem balanced_calls_returns (s : NsbInterpreter) (steps : List CallEnd)
    (hwf : WellFormed s) (hb : Balanced steps) (hres : CallsResolve steps s) :
    ∃ s', runLines (steps.map CallEnd.line) s = .ok s' ∧ s'.Returns = s.Returns := by
  obtain ⟨s', new', hrun, hret, hcount⟩ :=
    calls_returns_general steps s [] s.Returns hwf rfl (by simp)
      (by intro k; simpa using hb.2 k) hres
  have h0 : new'.length = 0 := by
    have := hb.1
    simp only [List.length_nil] at hcount
    omega
  have hnil : new' = [] := List.length_eq_zero.mp h0
  exact ⟨s', hrun, by simpa [hnil] using hret⟩

theorem NsbAssert_pass (fmt : String) (args : List String) (s : NsbInterpreter) :
    NsbAssert true fmt args s = .ok (false, s) := by
  simp [NsbAssert]

theorem NsbAssert_fail_ok (s : NsbInterpreter) (i : Nat) (f : NsbFile) (fmt : String)
    (args : List String) (hp : s.pScript = some i) (hf : s.Files[i]? = some f)
    (hr : ∀ fr ∈ s.Returns, validPtr s fr.pScript) :
    ∃ t, NsbAssert false fmt args s = .ok (true, { s with
      cout := s.cout ++ t
      Crashes := s.Crashes + 1
      Files := s.Files.set i (recovered f) }) := by
  obtain ⟨t, ht⟩ := Crash_ok { s with cout := s.cout ++ NsbAssertPrint fmt.data args } i f hp hf hr
  refine ⟨NsbAssertPrint fmt.data args ++ t, ?_⟩
  unfold NsbAssert
  simp only [Bool.false_eq_true, if_false, ht, String.append_assoc]

theorem subUInt32_two (a : Nat) (h2 : 2 ≤ a) (h : a < 2 ^ 32) : subUInt32 a 2 = a - 2 := by
  unfold subUInt32
  have e : (2 : Nat) ^ 32 = 4294967296 := by norm_num
  rw [e] at h ⊢
  omega

theorem subUInt32_one (a : Nat) (h1 : 1 ≤ a) (h : a < 2 ^ 32) : subUInt32 a 1 = a - 1 := by
  unfold subUInt32
  have e : (2 : Nat) ^ 32 = 4294967296 := by norm_num
  rw [e] at h ⊢
  omega

/-- C2. With an empty Return Stack and a valid active module, End calls the Fault Handler
exactly once, leaves the Return Stack empty and keeps the active module; the same holds when
End is dispatched by ExecuteLine for either opcode registered to it. -/
theorem End_empty_stack_faults_once (s : NsbInterpreter) (i : Nat) (f : NsbFile)
    (hp : s.pScript = some i) (hf : s.Files[i]? = some f) (hr : s.Returns = []) :
    ∃ s', End s = .ok s' ∧ s'.Crashes = s.Crashes + 1 ∧ s'.Returns = [] ∧
      s'.pScript = s.pScript ∧
      ∀ l, s.pLine = some l → (l.Magic = Magic.MAGIC_END ∨ l.Magic = Magic.MAGIC_FWN_UNK) →
        ExecuteLine s = .ok s' := by
  obtain ⟨t, ht⟩ := NsbAssert_fail_ok s i f "Empty return stack" [] hp hf (by simp [hr])
  have hempty : (!s.Returns.isEmpty) = false := by simp [hr]
  have hEnd : End s = .ok { s with
      cout := s.cout ++ t
      Crashes := s.Crashes + 1
      Files := s.Files.set i (recovered f) } := by
    unfold End
    rw [hempty, ht]
  refine ⟨_, hEnd, rfl, hr, rfl, ?_⟩
  intro l hl hm
  have hsome : s.pScript.isSome = true := by simp [hp]
  rcases hm with hm | hm
  · rw [ExecuteLine_builtin s l End hsome hl (by rw [hm]; rfl)]
    exact hEnd
  · rw [ExecuteLine_builtin s l End hsome hl (by rw [hm]; rfl)]
    exact hEnd

theorem recovered_cursor (f : NsbFile) (d : Nat) (hlen : f.Source.length < 2 ^ 32)
    (hbefore : ∀ j, j < d →
      ∃ l, f.Source[f.SourceIter + j]? = some l ∧ l.Magic ≠ Magic.MAGIC_CLEAR_PARAMS)
    (hclear : ∃ l, f.Source[f.SourceIter + d]? = some l ∧ l.Magic = Magic.MAGIC_CLEAR_PARAMS)
    (h1 : 1 ≤ f.SourceIter + d) :
    recovered f = { f with SourceIter := f.SourceIter + d - 1 } := by
  have hd : f.SourceIter + d < f.Source.length := by
    obtain ⟨l, hl, _⟩ := hclear
    rcases Nat.lt_or_ge (f.SourceIter + d) f.Source.length with h | h
    · exact h
    · simp [List.getElem?_eq_none h] at hl
  have hscan := RecoverLoop_scan d (f.Source.length + 1) f (by omega) hbefore hclear
  simp only [recovered, hscan, NsbFile.SetSourceIter, NsbFile.GetNextLineEntry]
  rw [subUInt32_two _ (by omega) (by omega)]
  congr 1

/-- C3 (amended). When `Crash` runs while the cursor of the active module is `K + 1` (the
instruction at `K` is being executed) and the next clear-parameters instruction after `K` is
at `K + 5`, the recovery leaves the cursor at `K + 4`: the next instruction fetched is the
one at `K + 4`. -/
theorem Crash_resumes_before_clear (s : NsbInterpreter) (i : Nat) (f : NsbFile) (K : Nat)
    (hp : s.pScript = some i) (hf : s.Files[i]? = some f)
    (hr : ∀ fr ∈ s.Returns, validPtr s fr.pScript)
    (hlen : f.Source.length < 2 ^ 32) (hcur : f.SourceIter = K + 1)
    (hbefore : ∀ j, K < j → j < K + 5 →
      ∃ l, f.Source[j]? = some l ∧ l.Magic ≠ Magic.MAGIC_CLEAR_PARAMS)
    (hclear : ∃ l, f.Source[K + 5]? = some l ∧ l.Magic = Magic.MAGIC_CLEAR_PARAMS) :
    ∃ s', Crash s = .ok s' ∧ s'.Crashes = s.Crashes + 1 ∧ s'.pScript = s.pScript ∧
      cursor s' = some (K + 4) ∧ nextLine s' = f.Source[K + 4]? ∧
      (f.Source[K + 4]?).isSome = true := by
  obtain ⟨t, ht⟩ := Crash_ok s i f hp hf hr
  have hrec : recovered f = { f with SourceIter := K + 4 } := by
    rw [recovered_cursor f 4 hlen
      (by
        intro j hj
        rw [hcur]
        exact hbefore (K + 1 + j) (by omega) (by omega))
      (by rw [hcur]; simpa [Nat.add_assoc] using hclear)
      (by omega), hcur]
    have e : K + 1 + 4 - 1 = K + 4 := by omega
    rw [e]
  have hi : i < s.Files.length := by
    obtain ⟨_, h, h'⟩ := validPtr_of_getElem hf
    cases h
    exact h'
  have h4 : (f.Source[K + 4]?).isSome = true := by
    obtain ⟨l, hl, _⟩ := hbefore (K + 4) (by omega) (by omega)
    simp [hl]
  refine ⟨_, ht, rfl, rfl, ?_, ?_, h4⟩
  · simp [cursor, hp, hi, hrec]
  · obtain ⟨l, hl, _⟩ := hbefore (K + 4) (by omega) (by omega)
    simp [nextLine, hp, hi, hrec, NsbFile.GetNextLine, hl]

/-- C5. A call of a function that the active module defines (and that is not the built-in
override) keeps the active module, moves its cursor to the entry of its own definition (the
entry number of the function minus one, in `uint32_t`) and pushes the frame of the caller,
whatever the loaded modules are and define. -/
theorem Call_prefers_active_module (s : NsbInterpreter) (l : Line) (tok : String) (i : Nat)
    (cur : NsbFile) (hl : s.pLine = some l) (ht : l.Params[0]? = some tok)
    (hno : c_str tok ≠ "MovieWaitSG") (hp : s.pScript = some i) (hc : s.Files[i]? = some cur)
    (hf : cur.GetFunctionLine (c_str tok) ≠ 0) :
    ∃ s', Call s = .ok s' ∧ s'.pScript = s.pScript ∧
      s'.Files = s.Files.set i
        { cur with SourceIter := subUInt32 (cur.GetFunctionLine (c_str tok)) 1 } ∧
      cursor s' = some (subUInt32 (cur.GetFunctionLine (c_str tok)) 1) ∧
      (cur.GetFunctionLine (c_str tok) < 2 ^ 32 →
        cursor s' = some (cur.GetFunctionLine (c_str tok) - 1)) ∧
      s'.Returns = ⟨some i, cur.SourceIter⟩ :: s.Returns := by
  have hi : i < s.Files.length := by
    obtain ⟨_, h, h'⟩ := validPtr_of_getElem hc
    cases h
    exact h'
  refine ⟨_, Call_local s l tok i cur hl ht hno hp hc hf, ?_, ?_, ?_, ?_, ?_⟩
  · simp [entered, hp]
  · simp [entered, setFile, NsbFile.SetSourceIter]
  · simp [cursor, entered, setFile, NsbFile.SetSourceIter, hi]
  · intro hlt
    rw [← subUInt32_one _ (Nat.pos_of_ne_zero hf) hlt]
    simp [cursor, entered, setFile, NsbFile.SetSourceIter, hi]
  · simp [entered, setFile, hp, NsbFile.GetNextLineEntry]

/-- C6. A call of a function (not the built-in override) that is not defined in the active
module makes the first loaded module, in load order, that defines it the active module,
with its cursor at the entry of the function, and pushes exactly one frame: the module that
was active and its resume position. -/
theorem Call_first_loaded_module (s : NsbInterpreter) (l : Line) (tok : String) (a i : Nat)
    (cur dest : NsbFile) (pre post : List (Option Nat))
    (hl : s.pLine = some l) (ht : l.Params[0]? = some tok) (hno : c_str tok ≠ "MovieWaitSG")
    (hp : s.pScript = some a) (hc : s.Files[a]? = some cur)
    (hf : cur.GetFunctionLine (c_str tok) = 0)
    (hload : s.LoadedScripts = pre ++ some i :: post)
    (hpre : ∀ p ∈ pre,
      ∃ j g, p = some j ∧ s.Files[j]? = some g ∧ g.GetFunctionLine (c_str tok) = 0)
    (hd : s.Files[i]? = some dest) (hdf : dest.GetFunctionLine (c_str tok) ≠ 0) :
    ∃ s', Call s = .ok s' ∧ s'.pScript = some i ∧
      s'.Files = s.Files.set i
        { dest with SourceIter := subUInt32 (dest.GetFunctionLine (c_str tok)) 1 } ∧
      cursor s' = some (subUInt32 (dest.GetFunctionLine (c_str tok)) 1) ∧
      (dest.GetFunctionLine (c_str tok) < 2 ^ 32 →
        cursor s' = some (dest.GetFunctionLine (c_str tok) - 1)) ∧
      s'.Returns = ⟨some a, cur.SourceIter⟩ :: s.Returns := by
  have hi : i < s.Files.length := by
    obtain ⟨_, h, h'⟩ := validPtr_of_getElem hd
    cases h
    exact h'
  refine ⟨_, Call_global s l tok a i cur dest pre post hl ht hno hp hc hf hload hpre hd hdf,
    ?_, ?_, ?_, ?_, ?_⟩
  · simp [entered]
  · simp [entered, setFile, NsbFile.SetSourceIter]
  · simp [cursor, entered, setFile, NsbFile.SetSourceIter, hi]
  · intro hlt
    rw [← subUInt32_one _ (Nat.pos_of_ne_zero hdf) hlt]
    simp [cursor, entered, setFile, NsbFile.SetSourceIter, hi]
  · simp [entered, setFile, hp, NsbFile.GetNextLineEntry]

/-- C10. For a 32-bit integer `n`, `GetVariable<int32_t>` of the identifier `@` followed by
the decimal text of `n` yields `n` and leaves the whole state, the Variable Store included,
as it was, whatever the store holds. -/
theorem GetVariable_immediate_literal (s : NsbInterpreter) (n : Int) (hn : isInt32 n) :
    GetVariable (T := Int) ("@" ++ lexical_cast_string n) s = .ok (n, s) := by
  have hcast := lexical_cast_int32_string n hn
  have hdata : ("@" ++ lexical_cast_string n).data = '@' :: (lexical_cast_string n).data := by
    simp
  have hne : ("@" ++ lexical_cast_string n) ≠ "@" := by
    intro h
    have h' := congrArg String.data h
    rw [hdata] at h'
    have hnil : (lexical_cast_string n).data = [] := by simpa using h'
    have hs : lexical_cast_string n = "" := by
      cases hx : lexical_cast_string n with
      | mk d => rw [hx] at hnil; simp at hnil; rw [hnil]
    rw [hs] at hcast
    simp [lexical_cast_int32] at hcast
  unfold GetVariable
  simp only [hne, if_false, hdata, List.head?_cons, if_true, List.drop_succ_cons, List.drop_zero]
  have hc : (LexicalCast.cast (String.mk (lexical_cast_string n).data) : Option Int) = some n :=
    hcast
  rw [hc]

theorem two_last_first {α : Type} (pre : List α) (a b : α) :
    (pre ++ [a, b])[pre.length]? = some a := by
  induction pre with
  | nil => rfl
  | cons x pre ih => simpa using ih

theorem two_last_second {α : Type} (pre : List α) (a b : α) :
    (pre ++ [a, b])[pre.length + 1]? = some b := by
  induction pre with
  | nil => rfl
  | cons x pre ih => simpa using ih

theorem two_last_replace {α : Type} (pre : List α) (a b c : α) :
    ((pre ++ [a, b]).set pre.length c).take (pre.length + 1) = pre ++ [c] := by
  induction pre with
  | nil => simp
  | cons x pre ih => simpa using ih

/-- The body of `Concat` behind the assertion, on a stack that ends with `a` and `b`. -/
theorem Concat_unfold (s : NsbInterpreter) (pre : List Variable) (a b : Variable)
    (hparams : s.Params = pre ++ [a, b]) :
    Concat s =
      match NsbAssert (a.Ty = b.Ty) "Concating params of different types (% and %)"
          [a.Ty, b.Ty] s with
      | .error e => .error e
      | .ok (_, s') =>
        if a.Ty = "INT" ∧ b.Ty = "INT" then
          match lexical_cast_int32 a.Value, lexical_cast_int32 b.Value with
          | some x, some y =>
            .ok { s' with Params := List.take (pre.length + 1) (s'.Params.set pre.length
                    { a with Value := lexical_cast_string (wrapInt32 (x + y)) }) }
          | _, _ => .error (.bad_lexical_cast s')
        else
          .ok { s' with Params := List.take (pre.length + 1) (s'.Params.set pre.length
                  { a with Value := a.Value ++ b.Value }) } := by
  have hlen : s.Params.length = pre.length + 2 := by rw [hparams]; simp
  have h0 : ¬ s.Params.length < 2 := by omega
  have h1 : s.Params.length - 2 = pre.length := by omega
  have h2 : s.Params.length - 1 = pre.length + 1 := by omega
  have ha : s.Params[pre.length]? = some a := by rw [hparams]; exact two_last_first pre a b
  have hb : s.Params[pre.length + 1]? = some b := by rw [hparams]; exact two_last_second pre a b
  unfold Concat
  simp only [h0, if_false, h1, h2, ha, hb]

/-- `Concat` on two staged values of one type: no assertion fails, and the state changes in
the parameter stack only. -/
theorem Concat_same_type (s : NsbInterpreter) (pre : List Variable) (a b : Variable)
    (hparams : s.Params = pre ++ [a, b]) (hty : a.Ty = b.Ty) :
    Concat s =
      if a.Ty = "INT" then
        match lexical_cast_int32 a.Value, lexical_cast_int32 b.Value with
        | some x, some y =>
          .ok { s with Params := pre ++
                  [{ a with Value := lexical_cast_string (wrapInt32 (x + y)) }] }
        | _, _ => .error (.bad_lexical_cast s)
      else .ok { s with Params := pre ++ [{ a with Value := a.Value ++ b.Value }] } := by
  rw [Concat_unfold s pre a b hparams]
  have hd : decide (a.Ty = b.Ty) = true := by simp [hty]
  rw [hd, NsbAssert_pass]
  simp only [hparams, two_last_replace]
  by_cases hint : a.Ty = "INT"
  · have hb : b.Ty = "INT" := by rw [← hty]; exact hint
    simp only [hint, hb, and_self, if_true]
  · simp only [hint, false_and, if_false]

/-- `Concat` on two staged values of different types: the assertion fails, `Crash` runs
once, and the payloads are appended all the same. -/
theorem Concat_mismatch (s : NsbInterpreter) (pre : List Variable) (a b : Variable) (i : Nat)
    (f : NsbFile) (hparams : s.Params = pre ++ [a, b]) (hty : a.Ty ≠ b.Ty)
    (hp : s.pScript = some i) (hf : s.Files[i]? = some f)
    (hr : ∀ fr ∈ s.Returns, validPtr s fr.pScript) :
    ∃ t, Concat s = .ok { s with
      cout := s.cout ++ t
      Crashes := s.Crashes + 1
      Files := s.Files.set i (recovered f)
      Params := pre ++ [{ a with Value := a.Value ++ b.Value }] } := by
  obtain ⟨t, ht⟩ := NsbAssert_fail_ok s i f "Concating params of different types (% and %)"
    [a.Ty, b.Ty] hp hf hr
  refine ⟨t, ?_⟩
  rw [Concat_unfold s pre a b hparams]
  have hd : decide (a.Ty = b.Ty) = false := by simp [hty]
  have hnot : ¬ (a.Ty = "INT" ∧ b.Ty = "INT") := by
    rintro ⟨h1, h2⟩
    exact hty (h1.trans h2.symm)
  rw [hd, ht]
  simp only [hnot, if_false, hparams, two_last_replace]

/-- C7 (amended). On a stack whose last two entries `a` and `b` have the same type,
`Concat` replaces them by one entry in the slot of the first, of the same type, and leaves
the earlier entries and the rest of the state as they were. When the type is `INT` and the
payloads are the decimal texts of 32-bit integers `x` and `y` whose sum is a 32-bit integer,
the new payload is the decimal text of `x + y`; when the type is not `INT`, the new payload
is the first payload followed by the second. -/
theorem Concat_result (s : NsbInterpreter) (pre : List Variable) (a b : Variable)
    (hparams : s.Params = pre ++ [a, b]) (hty : a.Ty = b.Ty) :
    (∀ x y : Int, a.Ty = "INT" → isInt32 x → isInt32 y → isInt32 (x + y) →
      a.Value = lexical_cast_string x → b.Value = lexical_cast_string y →
      Concat s = .ok { s with Params := pre ++ [⟨"INT", lexical_cast_string (x + y)⟩] }) ∧
    (a.Ty ≠ "INT" →
      Concat s = .ok { s with Params := pre ++ [⟨a.Ty, a.Value ++ b.Value⟩] }) := by
  constructor
  · intro x y hint hx hy hxy hax hby
    rw [Concat_same_type s pre a b hparams hty]
    simp only [hint, if_true, hax, hby, lexical_cast_int32_string x hx,
      lexical_cast_int32_string y hy]
    have hw : wrapInt32 (x + y) = x + y := by
      obtain ⟨h1, h2⟩ := hxy
      unfold wrapInt32
      have e31 : (2 : Int) ^ 31 = 2147483648 := by norm_num
      have e32 : (2 : Int) ^ 32 = 4294967296 := by norm_num
      rw [e31] at h1 h2 ⊢
      rw [e32]
      omega
    rw [hw]
  · intro hint
    rw [Concat_same_type s pre a b hparams hty]
    simp only [hint, if_false]

/-- C8. On a stack whose last two entries have different types, `Concat` calls the Fault
Handler exactly once; when the two types are equal it does not call it, whether it returns
or the cast of an `INT` payload throws. -/
theorem Concat_faults_iff_types_differ (s : NsbInterpreter) (pre : List Variable)
    (a b : Variable) (i : Nat) (f : NsbFile) (hparams : s.Params = pre ++ [a, b])
    (hp : s.pScript = some i) (hf : s.Files[i]? = some f)
    (hr : ∀ fr ∈ s.Returns, validPtr s fr.pScript) :
    (a.Ty ≠ b.Ty → ∃ s', Concat s = .ok s' ∧ s'.Crashes = s.Crashes + 1) ∧
    (a.Ty = b.Ty →
      (∃ s', Concat s = .ok s' ∧ s'.Crashes = s.Crashes) ∨
        Concat s = .error (.bad_lexical_cast s)) := by
  constructor
  · intro hty
    obtain ⟨t, ht⟩ := Concat_mismatch s pre a b i f hparams hty hp hf hr
    exact ⟨_, ht, rfl⟩
  · intro hty
    rw [Concat_same_type s pre a b hparams hty]
    by_cases hint : a.Ty = "INT"
    · simp only [hint, if_true]
      cases lexical_cast_int32 a.Value with
      | none => exact Or.inr rfl
      | some x =>
        cases lexical_cast_int32 b.Value with
        | none => exact Or.inr rfl
        | some y => exact Or.inl ⟨_, rfl, rfl⟩
    · simp only [hint, if_false]
      exact Or.inl ⟨_, rfl, rfl⟩

theorem runLines_append (ls1 ls2 : List Line) : ∀ s s1 : NsbInterpreter,
    runLines ls1 s = .ok s1 → runLines (ls1 ++ ls2) s = runLines ls2 s1 := by
  induction ls1 with
  | nil => intro s s1 h; simp only [runLines] at h; cases h; rfl
  | cons l ls1 ih =>
    intro s s1 h
    simp only [runLines, List.cons_append] at h ⊢
    cases hx : ExecuteLine { s with pLine := some l } with
    | error e => rw [hx] at h; cases h
    | ok s' =>
      rw [hx] at h
      exact ih s' s1 h

theorem stagePlaceholder_run (s : NsbInterpreter) (v : Variable)
    (hp : s.pScript.isSome = true) :
    runLines (stagePlaceholder v) s = .ok { s with
      pLine := some ⟨Magic.MAGIC_SET_PLACEHOLDER, []⟩
      Placeholders := s.Placeholders ++ [v] } := by
  have h1 : ExecuteLine { s with pLine := some ⟨Magic.MAGIC_PARAM, [v.Ty, v.Value]⟩ } =
      .ok { s with pLine := some ⟨Magic.MAGIC_PARAM, [v.Ty, v.Value]⟩,
                   Params := s.Params ++ [v] } := by
    rw [ExecuteLine_switch { s with pLine := some ⟨Magic.MAGIC_PARAM, [v.Ty, v.Value]⟩ }
      ⟨Magic.MAGIC_PARAM, [v.Ty, v.Value]⟩ hp rfl rfl]
    simp [ExecuteSwitch]
  have h2 : ExecuteLine { s with pLine := some ⟨Magic.MAGIC_SET_PLACEHOLDER, []⟩,
                                 Params := s.Params ++ [v] } =
      .ok { s with pLine := some ⟨Magic.MAGIC_SET_PLACEHOLDER, []⟩,
                   Placeholders := s.Placeholders ++ [v] } := by
    rw [ExecuteLine_switch { s with pLine := some ⟨Magic.MAGIC_SET_PLACEHOLDER, []⟩,
                                    Params := s.Params ++ [v] }
      ⟨Magic.MAGIC_SET_PLACEHOLDER, []⟩ hp rfl rfl]
    simp [ExecuteSwitch]
  simp only [stagePlaceholder, runLines, h1, h2]

theorem stagePlaceholders_run : ∀ (vs : List Variable) (s : NsbInterpreter),
    s.pScript.isSome = true →
    ∃ s1, runLines (stagePlaceholders vs) s = .ok s1 ∧
      s1.Placeholders = s.Placeholders ++ vs ∧ s1.Params = s.Params ∧
      s1.Variables = s.Variables ∧ s1.Returns = s.Returns ∧ s1.Crashes = s.Crashes := by
  intro vs
  induction vs with
  | nil => intro s _; exact ⟨s, rfl, by simp, rfl, rfl, rfl, rfl⟩
  | cons v vs ih =>
    intro s hp
    obtain ⟨s1, hrun, hq, hpar, hvar, hret, hcr⟩ :=
      ih { s with pLine := some ⟨Magic.MAGIC_SET_PLACEHOLDER, []⟩
                  Placeholders := s.Placeholders ++ [v] } hp
    refine ⟨s1, ?_, ?_, hpar, hvar, hret, hcr⟩
    · simp only [stagePlaceholders]
      rw [runLines_append _ _ _ _ (stagePlaceholder_run s v hp)]
      exact hrun
    · simpa using hq

theorem GetParam_placeholder {T : Type} [LexicalCast T] (s : NsbInterpreter) (Index : Nat)
    (p Var : Variable) (rest : List Variable) (x : T) (hi : s.Params[Index]? = some p)
    (hph : p.Ty = "PH") (hq : s.Placeholders = Var :: rest)
    (hx : LexicalCast.cast Var.Value = some x) :
    GetParam (T := T) Index s = .ok (x, { s with Placeholders := rest }) := by
  simp [GetParam, hi, hph, hq, hx]

theorem GetParams_fifo {T : Type} [LexicalCast T] : ∀ (idxs : List Nat) (Vs : List Variable)
    (vals : List T) (s : NsbInterpreter), s.Placeholders = Vs → idxs.length = Vs.length →
    (∀ i ∈ idxs, ∃ p, s.Params[i]? = some p ∧ p.Ty = "PH") →
    Vs.map (fun V => LexicalCast.cast V.Value) = vals.map some →
    GetParams (T := T) idxs s = .ok (vals, { s with Placeholders := [] }) := by
  intro idxs
  induction idxs with
  | nil =>
    intro Vs vals s hq hlen _ hvals
    have hV : Vs = [] := List.length_eq_zero.mp hlen.symm
    subst hV
    have hv : vals = [] := by simpa using hvals
    subst hv
    simp only [GetParams]
    rw [← hq]
  | cons i idxs ih =>
    intro Vs vals s hq hlen hph hvals
    cases Vs with
    | nil => simp at hlen
    | cons V Vs =>
      cases vals with
      | nil => simp at hvals
      | cons x vals =>
        simp only [List.map_cons, List.cons.injEq] at hvals
        obtain ⟨p, hp, hpt⟩ := hph i (by simp)
        have h1 := GetParam_placeholder s i p V Vs x hp hpt hq hvals.1
        have h2 := ih Vs vals { s with Placeholders := Vs } rfl
          (by simpa using hlen)
          (fun j hj => hph j (by simp [hj])) hvals.2
        simp only [GetParams, h1, h2]

/-- C9. Values moved into an empty Placeholder Queue by set-placeholder instructions, in an
order, come back in that order: as many successive reads of operand slots of type `PH` as
there are values return their payloads, cast to the type read, first in first out, and leave
the queue empty. -/
theorem placeholders_are_fifo {T : Type} [LexicalCast T] (s : NsbInterpreter)
    (Vs : List Variable) (idxs : List Nat) (vals : List T)
    (hp : s.pScript.isSome = true) (hq : s.Placeholders = [])
    (hlen : idxs.length = Vs.length)
    (hph : ∀ i ∈ idxs, ∃ p, s.Params[i]? = some p ∧ p.Ty = "PH")
    (hvals : Vs.map (fun V => LexicalCast.cast V.Value) = vals.map some) :
    ∃ s1 s2, runLines (stagePlaceholders Vs) s = .ok s1 ∧ s1.Placeholders = Vs ∧
      GetParams (T := T) idxs s1 = .ok (vals, s2) ∧ s2.Placeholders = [] ∧
      s2.Params = s.Params := by
  obtain ⟨s1, hrun, hq1, hpar, _, _, _⟩ := stagePlaceholders_run Vs s hp
  have hq1' : s1.Placeholders = Vs := by rw [hq1, hq]; rfl
  refine ⟨s1, { s1 with Placeholders := [] }, hrun, hq1', ?_, rfl, hpar⟩
  exact GetParams_fifo idxs Vs vals s1 hq1' hlen (by rw [hpar]; exact hph) hvals

/-! ## The claims on the example states -/

/-- Witness of C1: in `exampleState` the sequence call `Bar`, call `Foo`, end, end is
balanced, both calls resolve (the first in the loaded module, the second in the module then
active), and the Return Stack is afterwards what it was. -/
theorem balanced_calls_returns_witness :
    WellFormed exampleState ∧
    Balanced [CallEnd.call "Bar", CallEnd.call "Foo", CallEnd.ret, CallEnd.ret] ∧
    CallsResolve [CallEnd.call "Bar", CallEnd.call "Foo", CallEnd.ret, CallEnd.ret]
      exampleState ∧
    ∃ s', runLines ([CallEnd.call "Bar", CallEnd.call "Foo", CallEnd.ret, CallEnd.ret].map
        CallEnd.line) exampleState = .ok s' ∧ s'.Returns = exampleState.Returns := by
  have hwf : WellFormed exampleState := by
    refine ⟨⟨0, rfl, by decide⟩, ?_⟩
    intro p hp
    have : p = some 1 := by simpa [exampleState, initState] using hp
    exact ⟨1, this, by decide⟩
  have hb : Balanced [CallEnd.call "Bar", CallEnd.call "Foo", CallEnd.ret, CallEnd.ret] := by
    refine ⟨rfl, ?_⟩
    intro k
    rcases k with _ | _ | _ | _ | k <;> simp [CallEnd.rets, CallEnd.calls]
  have hres : CallsResolve [CallEnd.call "Bar", CallEnd.call "Foo", CallEnd.ret, CallEnd.ret]
      exampleState := by
    refine ⟨⟨by decide, Or.inr ⟨some 1, by simp [exampleState, initState],
      ⟨1, exampleLib, rfl, rfl, by decide⟩⟩⟩, ?_⟩
    intro s1 h1
    have e1 : ExecuteLine { exampleState with pLine := some (CallEnd.call "Bar").line } =
        Except.ok _ := rfl
    rw [e1] at h1
    cases h1
    refine ⟨⟨by decide, Or.inl ⟨1, _, rfl, rfl, by decide⟩⟩, ?_⟩
    intro s2 _
    exact ⟨trivial, fun _ _ => ⟨trivial, fun _ _ => trivial⟩⟩
  exact ⟨hwf, hb, hres, balanced_calls_returns exampleState _ hwf hb hres⟩

/-- Witness of C2: an end instruction executed at position 0 of `exampleMain` with an empty
Return Stack. -/
theorem End_empty_stack_faults_once_witness :
    exampleFetched.Returns = [] ∧
    ∃ s', End exampleFetched = .ok s' ∧ s'.Crashes = exampleFetched.Crashes + 1 ∧
      s'.Returns = [] ∧ s'.pScript = exampleFetched.pScript ∧
      ∀ l, exampleFetched.pLine = some l →
        (l.Magic = Magic.MAGIC_END ∨ l.Magic = Magic.MAGIC_FWN_UNK) →
        ExecuteLine exampleFetched = .ok s' :=
  ⟨rfl, End_empty_stack_faults_once exampleFetched 0 { exampleMain with SourceIter := 1 }
    rfl rfl rfl⟩

/-- Counterexample to C3 as stated: in `exampleState` the instruction at position 0 (an end
instruction on an empty Return Stack) raises a fault, the next clear-parameters instruction
is at position 5, and after the step the cursor is 4, not 3: the instruction fetched next is
the one at position 4. -/
theorem Crash_resumes_counterexample :
    ∃ s', FetchExecute exampleState = .ok s' ∧ s'.Crashes = 1 ∧
      cursor s' = some 4 ∧ cursor s' ≠ some (0 + 3) ∧
      nextLine s' = exampleMain.Source[4]? ∧ nextLine s' ≠ exampleMain.Source[0 + 3]? :=
  ⟨_, rfl, rfl, rfl, by decide, rfl, by decide⟩

/-- Witness of C3 (amended): `Crash` in `exampleFetched`, where `K = 0`. -/
theorem Crash_resumes_before_clear_witness :
    exampleMain.Source.length < 2 ^ 32 ∧
    ∃ s', Crash exampleFetched = .ok s' ∧ s'.Crashes = exampleFetched.Crashes + 1 ∧
      s'.pScript = exampleFetched.pScript ∧ cursor s' = some (0 + 4) ∧
      nextLine s' = exampleMain.Source[0 + 4]? ∧ (exampleMain.Source[0 + 4]?).isSome = true :=
  ⟨by decide,
    Crash_resumes_before_clear exampleFetched 0 { exampleMain with SourceIter := 1 } 0 rfl rfl
      (by intro fr hfr; simp [exampleFetched, initState] at hfr)
      (by decide) rfl
      (by
        intro j h1 h2
        have hj : j = 1 ∨ j = 2 ∨ j = 3 ∨ j = 4 := by omega
        rcases hj with rfl | rfl | rfl | rfl <;> exact ⟨_, rfl, by decide⟩)
      ⟨_, rfl, rfl⟩⟩

/-- C4 (the code at the failing input). An array read of depth 2 whose first-level name `a`
is found and whose second-level name `b` matches no member stages the first-level member:
the Parameter Stack grows by the value `INT 1`, and the Fault Handler is not called. When
the first-level name is not found either (`z` instead of `a`), nothing is staged. -/
theorem ArrayRead_mid_miss_stages_parent :
    (∃ s', ExecuteLine exampleArrayRead = .ok s' ∧
      s'.Params = exampleArrayRead.Params ++ [⟨"INT", "1"⟩] ∧
      s'.Params.length = exampleArrayRead.Params.length + 1 ∧
      s'.Crashes = exampleArrayRead.Crashes) ∧
    (∃ s', ExecuteLine { exampleArrayRead with
          Params := [⟨"STRING", "z"⟩, ⟨"STRING", "b"⟩, ⟨"INT", "2"⟩] } = .ok s' ∧
      s'.Params = [⟨"STRING", "z"⟩, ⟨"STRING", "b"⟩, ⟨"INT", "2"⟩] ∧
      s'.Crashes = exampleArrayRead.Crashes) :=
  ⟨⟨_, rfl, rfl, rfl, rfl⟩, ⟨_, rfl, rfl, rfl⟩⟩

/-- Witness of C5: `Foo` is defined in the active module `exampleMain` and in the loaded
module `exampleLib`; the call stays in `exampleMain`. -/
theorem Call_prefers_active_module_witness :
    exampleLib.GetFunctionLine "Foo" ≠ 0 ∧
    ∃ s', Call (exampleCall "Foo") = .ok s' ∧ s'.pScript = some 0 ∧
      s'.Files = [{ exampleMain with SourceIter := 1 }, exampleLib] ∧
      cursor s' = some 1 ∧ s'.Returns = [⟨some 0, 0⟩] := by
  obtain ⟨s', h, hp, hfiles, hcur, _, hret⟩ :=
    Call_prefers_active_module (exampleCall "Foo") ⟨Magic.MAGIC_CALL, ["Foo"]⟩ "Foo" 0
      exampleMain rfl rfl (by decide) rfl rfl (by decide)
  exact ⟨by decide, s', h, hp, hfiles, hcur, hret⟩

/-- Witness of C6: `Bar` is defined in the loaded module `exampleLib` only. -/
theorem Call_first_loaded_module_witness :
    exampleMain.GetFunctionLine "Bar" = 0 ∧
    ∃ s', Call (exampleCall "Bar") = .ok s' ∧ s'.pScript = some 1 ∧
      s'.Files = [exampleMain, { exampleLib with SourceIter := 2 }] ∧
      cursor s' = some 2 ∧ s'.Returns = [⟨some 0, 0⟩] := by
  obtain ⟨s', h, hp, hfiles, hcur, _, hret⟩ :=
    Call_first_loaded_module (exampleCall "Bar") ⟨Magic.MAGIC_CALL, ["Bar"]⟩ "Bar" 0 1
      exampleMain exampleLib [] [] rfl rfl (by decide) rfl rfl (by decide) rfl
      (by intro p hp; simp at hp) rfl (by decide)
  exact ⟨by decide, s', h, hp, hfiles, hcur, hret⟩

/-- Counterexample to C7 as stated: two `INT` entries with the decimal payloads 2147483648
and 1 are not replaced at all (the cast of the first payload throws), and the payloads
2147483647 and 1 give `-2147483648`, which is not the decimal text of their sum. -/
theorem Concat_result_counterexample :
    Concat (exampleParams [⟨"INT", "2147483648"⟩, ⟨"INT", "1"⟩]) =
        .error (.bad_lexical_cast (exampleParams [⟨"INT", "2147483648"⟩, ⟨"INT", "1"⟩])) ∧
      Concat (exampleParams [⟨"INT", "2147483647"⟩, ⟨"INT", "1"⟩]) =
        .ok (exampleParams [⟨"INT", "-2147483648"⟩]) ∧
      lexical_cast_string (2147483647 + 1) ≠ "-2147483648" :=
  ⟨rfl, rfl, by decide⟩

/-- Witness of C7 (amended): `INT 3` and `INT 4` give `INT 7`, and `STRING a` and
`STRING b` give `STRING ab`, below an entry that stays. -/
theorem Concat_result_witness :
    Concat (exampleParams [⟨"STRING", "x"⟩, ⟨"INT", "3"⟩, ⟨"INT", "4"⟩]) =
        .ok (exampleParams [⟨"STRING", "x"⟩, ⟨"INT", "7"⟩]) ∧
      Concat (exampleParams [⟨"STRING", "x"⟩, ⟨"STRING", "a"⟩, ⟨"STRING", "b"⟩]) =
        .ok (exampleParams [⟨"STRING", "x"⟩, ⟨"STRING", "ab"⟩]) :=
  ⟨(Concat_result (exampleParams [⟨"STRING", "x"⟩, ⟨"INT", "3"⟩, ⟨"INT", "4"⟩])
      [⟨"STRING", "x"⟩] ⟨"INT", "3"⟩ ⟨"INT", "4"⟩ rfl rfl).1 3 4 rfl (by decide) (by decide)
      (by decide) rfl rfl,
    (Concat_result (exampleParams [⟨"STRING", "x"⟩, ⟨"STRING", "a"⟩, ⟨"STRING", "b"⟩])
      [⟨"STRING", "x"⟩] ⟨"STRING", "a"⟩ ⟨"STRING", "b"⟩ rfl rfl).2 (by decide)⟩

/-- Witness of C8: `INT 3` and `STRING b` call the Fault Handler once, `INT 3` and `INT 4`
do not call it. -/
theorem Concat_faults_iff_types_differ_witness :
    (∃ s', Concat (exampleParams [⟨"INT", "3"⟩, ⟨"STRING", "b"⟩]) = .ok s' ∧ s'.Crashes = 1) ∧
    ((∃ s', Concat (exampleParams [⟨"INT", "3"⟩, ⟨"INT", "4"⟩]) = .ok s' ∧ s'.Crashes = 0) ∨
      Concat (exampleParams [⟨"INT", "3"⟩, ⟨"INT", "4"⟩]) =
        .error (.bad_lexical_cast (exampleParams [⟨"INT", "3"⟩, ⟨"INT", "4"⟩]))) :=
  ⟨(Concat_faults_iff_types_differ (exampleParams [⟨"INT", "3"⟩, ⟨"STRING", "b"⟩]) []
      ⟨"INT", "3"⟩ ⟨"STRING", "b"⟩ 0 exampleMain rfl rfl rfl
      (by intro fr hfr; simp [exampleParams, exampleState, initState] at hfr)).1 (by decide),
    (Concat_faults_iff_types_differ (exampleParams [⟨"INT", "3"⟩, ⟨"INT", "4"⟩]) []
      ⟨"INT", "3"⟩ ⟨"INT", "4"⟩ 0 exampleMain rfl rfl rfl
      (by intro fr hfr; simp [exampleParams, exampleState, initState] at hfr)).2 rfl⟩

/-- Witness of C9: the values `INT 1`, `STRING b`, `INT 3` are moved into the empty queue
and three reads of slots of type `PH` return `1`, `b`, `3`. -/
theorem placeholders_are_fifo_witness :
    ∃ s1 s2,
      runLines (stagePlaceholders [⟨"INT", "1"⟩, ⟨"STRING", "b"⟩, ⟨"INT", "3"⟩])
        (exampleParams [⟨"PH", ""⟩, ⟨"PH", ""⟩, ⟨"PH", ""⟩]) = .ok s1 ∧
      s1.Placeholders = [⟨"INT", "1"⟩, ⟨"STRING", "b"⟩, ⟨"INT", "3"⟩] ∧
      GetParams (T := String) [0, 1, 2] s1 = .ok (["1", "b", "3"], s2) ∧
      s2.Placeholders = [] ∧ s2.Params = [⟨"PH", ""⟩, ⟨"PH", ""⟩, ⟨"PH", ""⟩] :=
  placeholders_are_fifo (T := String) (exampleParams [⟨"PH", ""⟩, ⟨"PH", ""⟩, ⟨"PH", ""⟩])
    [⟨"INT", "1"⟩, ⟨"STRING", "b"⟩, ⟨"INT", "3"⟩] [0, 1, 2] ["1", "b", "3"] rfl rfl rfl
    (by
      intro i hi
      have h : i = 0 ∨ i = 1 ∨ i = 2 := by simpa using hi
      rcases h with rfl | rfl | rfl <;> exact ⟨_, rfl, rfl⟩)
    rfl

/-- Witness of C10: the identifier `@42` yields 42 although the store holds a variable
named `@42` with the value 7. -/
theorem GetVariable_immediate_literal_witness :
    isInt32 42 ∧
    GetVariable (T := Int) "@42"
        { exampleState with Variables := [("@42", ⟨"INT", "7"⟩)] } =
      .ok (42, { exampleState with Variables := [("@42", ⟨"INT", "7"⟩)] }) :=
  ⟨by decide,
    GetVariable_immediate_literal { exampleState with Variables := [("@42", ⟨"INT", "7"⟩)] }
      42 (by decide)⟩

/-! ## Variable resolution, boolean coercion and unknown opcodes -/

/-- C11. `GetVariable` of the identifier `@` yields the value-initialised `T()` and leaves
the state as it is, whatever the Variable Store holds: `0` for `int32_t`, the empty string
for `std::string`. -/
theorem GetVariable_null_object (s : NsbInterpreter) :
    (∀ (T : Type) [LexicalCast T],
      GetVariable (T := T) "@" s = .ok (LexicalCast.dflt, s)) ∧
    GetVariable (T := Int) "@" s = .ok (0, s) ∧
    GetVariable (T := String) "@" s = .ok ("", s) ∧
    GetVariable (T := Int) "@" { s with Variables := mapSet s.Variables "@" ⟨"INT", "7"⟩ } =
      .ok (0, { s with Variables := mapSet s.Variables "@" ⟨"INT", "7"⟩ }) := by
  refine ⟨?_, ?_, ?_, ?_⟩
  · intro T _
    simp [GetVariable]
  · simp [GetVariable, LexicalCast.dflt]
  · simp [GetVariable, LexicalCast.dflt]
  · simp [GetVariable, LexicalCast.dflt]

theorem GetVariable_plain_ne {Identifier : String} (h : Identifier.data.head? ≠ some '@') :
    Identifier ≠ "@" := by
  rintro rfl
  exact h rfl

theorem GetVariable_hit_ok {T : Type} [LexicalCast T] (Identifier : String)
    (s : NsbInterpreter) (Var : Variable) (v : T) (h : Identifier.data.head? ≠ some '@')
    (hf : mapFind s.Variables Identifier = some Var) (hc : LexicalCast.cast Var.Value = some v) :
    GetVariable (T := T) Identifier s = .ok (v, s) := by
  simp [GetVariable, GetVariable_plain_ne h, h, hf, hc]

theorem GetVariable_miss_ok {T : Type} [LexicalCast T] (Identifier : String)
    (s : NsbInterpreter) (v : T) (h : Identifier.data.head? ≠ some '@')
    (hf : mapFind s.Variables Identifier = none) (hc : LexicalCast.cast Identifier = some v) :
    GetVariable (T := T) Identifier s = .ok (v, s) := by
  simp [GetVariable, GetVariable_plain_ne h, h, hf, hc]

theorem GetVariable_hit_fail {T : Type} [LexicalCast T] (Identifier : String)
    (s : NsbInterpreter) (Var : Variable) (h : Identifier.data.head? ≠ some '@')
    (hf : mapFind s.Variables Identifier = some Var)
    (hc : (LexicalCast.cast Var.Value : Option T) = none) :
    GetVariable (T := T) Identifier s = .ok (LexicalCast.dflt,
      { s with cout := s.cout ++ "Failed to cast " ++ Identifier ++ " to correct type.\n" }) := by
  simp [GetVariable, GetVariable_plain_ne h, h, hf, hc]

theorem GetVariable_miss_fail {T : Type} [LexicalCast T] (Identifier : String)
    (s : NsbInterpreter) (h : Identifier.data.head? ≠ some '@')
    (hf : mapFind s.Variables Identifier = none)
    (hc : (LexicalCast.cast Identifier : Option T) = none) :
    GetVariable (T := T) Identifier s = .ok (LexicalCast.dflt,
      { s with cout := s.cout ++ "Failed to cast " ++ Identifier ++ " to correct type.\n" }) := by
  simp [GetVariable, GetVariable_plain_ne h, h, hf, hc]

/-- C12. For an identifier that does not begin with `@`, `GetVariable<int32_t>` yields the
integer cast from the stored payload when the identifier is a key of the Variable Store and
the integer cast from the identifier itself when it is not; when that cast fails it yields
`0`, and the state is as before but for a message on `std::cout`: the Fault Handler is not
called and no store changes. -/
theorem GetVariable_soft_failure (Identifier : String) (s : NsbInterpreter)
    (h : Identifier.data.head? ≠ some '@') :
    (∀ Var n, mapFind s.Variables Identifier = some Var →
      lexical_cast_int32 Var.Value = some n →
      GetVariable (T := Int) Identifier s = .ok (n, s)) ∧
    (∀ n, mapFind s.Variables Identifier = none → lexical_cast_int32 Identifier = some n →
      GetVariable (T := Int) Identifier s = .ok (n, s)) ∧
    (∀ Var, mapFind s.Variables Identifier = some Var → lexical_cast_int32 Var.Value = none →
      GetVariable (T := Int) Identifier s = .ok (0,
        { s with cout := s.cout ++ "Failed to cast " ++ Identifier ++ " to correct type.\n" })) ∧
    (mapFind s.Variables Identifier = none → lexical_cast_int32 Identifier = none →
      GetVariable (T := Int) Identifier s = .ok (0,
        { s with cout := s.cout ++ "Failed to cast " ++ Identifier ++ " to correct type.\n" })) :=
  ⟨fun Var n hf hc => GetVariable_hit_ok Identifier s Var n h hf hc,
    fun n hf hc => GetVariable_miss_ok Identifier s n h hf hc,
    fun Var hf hc => GetVariable_hit_fail (T := Int) Identifier s Var h hf hc,
    fun hf hc => GetVariable_miss_fail (T := Int) Identifier s h hf hc⟩

/-- C14. A call of a function (not the built-in override) that neither the active module nor
any loaded module defines prints the message of the failed lookup and changes nothing else:
the Return Stack, the active module, its cursor, the Variable Store and the Parameter Stack
are as before and the Fault Handler is not called. -/
theorem Call_unresolved_changes_nothing (s : NsbInterpreter) (l : Line) (tok : String)
    (a : Nat) (cur : NsbFile) (hl : s.pLine = some l) (ht : l.Params[0]? = some tok)
    (hno : c_str tok ≠ "MovieWaitSG") (hp : s.pScript = some a) (hc : s.Files[a]? = some cur)
    (hf : cur.GetFunctionLine (c_str tok) = 0)
    (hall : ∀ p ∈ s.LoadedScripts,
      ∃ j g, p = some j ∧ s.Files[j]? = some g ∧ g.GetFunctionLine (c_str tok) = 0) :
    ∃ s', Call s = .ok s' ∧
      s' = { s with
        cout := s.cout ++ "Failed to lookup function symbol " ++ c_str tok ++ "\n" } ∧
      s'.Returns = s.Returns ∧ s'.pScript = s.pScript ∧ s'.Files = s.Files ∧
      cursor s' = cursor s ∧ s'.Variables = s.Variables ∧ s'.Params = s.Params ∧
      s'.Crashes = s.Crashes ∧
      (l.Magic = Magic.MAGIC_CALL → ExecuteLine s = .ok s') := by
  have hcall := Call_miss s l tok a cur hl ht hno hp hc hf hall
  refine ⟨_, hcall, rfl, rfl, rfl, rfl, rfl, rfl, rfl, rfl, ?_⟩
  intro hm
  rw [ExecuteLine_builtin s l Call (by simp [hp]) hl (by rw [hm]; rfl)]
  exact hcall

/-- C15. `Boolify` yields `true` for the string `true` and `false` for the string `false`
without a fault and without a change of the state; for every other string it calls the
Fault Handler exactly once and yields `false`. -/
theorem Boolify_exact_tokens (s : NsbInterpreter) (i : Nat) (f : NsbFile)
    (hp : s.pScript = some i) (hf : s.Files[i]? = some f)
    (hr : ∀ fr ∈ s.Returns, validPtr s fr.pScript) :
    Boolify "true" s = .ok (true, s) ∧ Boolify "false" s = .ok (false, s) ∧
    ∀ str : String, str ≠ "true" → str ≠ "false" →
      ∃ s', Boolify str s = .ok (false, s') ∧ s'.Crashes = s.Crashes + 1 := by
  refine ⟨by simp [Boolify], by simp [Boolify], ?_⟩
  intro str h1 h2
  obtain ⟨t, ht⟩ := NsbAssert_fail_ok s i f "Invalid boolification of string: " [c_str str]
    hp hf hr
  refine ⟨{ s with cout := s.cout ++ t, Crashes := s.Crashes + 1,
                   Files := s.Files.set i (recovered f) }, ?_, rfl⟩
  unfold Boolify
  rw [if_neg h1, if_neg h2, ht]

theorem GetVariable_immediate_ok {T : Type} [LexicalCast T] (Identifier : String)
    (s : NsbInterpreter) (v : T) (h0 : Identifier ≠ "@")
    (h1 : Identifier.data.head? = some '@')
    (hc : LexicalCast.cast (String.mk (Identifier.data.drop 1)) = some v) :
    GetVariable (T := T) Identifier s = .ok (v, s) := by
  simp only [GetVariable, h0, h1, if_false, if_true, hc]

theorem GetVariable_immediate_throw {T : Type} [LexicalCast T] (Identifier : String)
    (s : NsbInterpreter) (h0 : Identifier ≠ "@") (h1 : Identifier.data.head? = some '@')
    (hc : (LexicalCast.cast (String.mk (Identifier.data.drop 1)) : Option T) = none) :
    GetVariable (T := T) Identifier s = .error (.bad_lexical_cast s) := by
  simp only [GetVariable, h0, h1, if_false, if_true, hc]

/-- The state after `GetVariable`: the state before, with or without the message of a failed
cast on `std::cout`; a throw carries the state before. -/
theorem GetVariable_frame {T : Type} [LexicalCast T] (Identifier : String)
    (s : NsbInterpreter) :
    (∃ v, GetVariable (T := T) Identifier s = .ok (v, s)) ∨
    (∃ v, GetVariable (T := T) Identifier s = .ok (v,
      { s with cout := s.cout ++ "Failed to cast " ++ Identifier ++ " to correct type.\n" })) ∨
    GetVariable (T := T) Identifier s = .error (.bad_lexical_cast s) := by
  by_cases h0 : Identifier = "@"
  · exact Or.inl ⟨LexicalCast.dflt, by simp [GetVariable, h0]⟩
  · by_cases h1 : Identifier.data.head? = some '@'
    · cases hc : (LexicalCast.cast (String.mk (Identifier.data.drop 1)) : Option T) with
      | none => exact Or.inr (Or.inr (GetVariable_immediate_throw Identifier s h0 h1 hc))
      | some v => exact Or.inl ⟨v, GetVariable_immediate_ok Identifier s v h0 h1 hc⟩
    · cases hf : mapFind s.Variables Identifier with
      | none =>
        cases hc : (LexicalCast.cast Identifier : Option T) with
        | none => exact Or.inr (Or.inl ⟨_, GetVariable_miss_fail Identifier s h1 hf hc⟩)
        | some v => exact Or.inl ⟨v, GetVariable_miss_ok Identifier s v h1 hf hc⟩
      | some Var =>
        cases hc : (LexicalCast.cast Var.Value : Option T) with
        | none => exact Or.inr (Or.inl ⟨_, GetVariable_hit_fail Identifier s Var h1 hf hc⟩)
        | some v => exact Or.inl ⟨v, GetVariable_hit_ok Identifier s Var v h1 hf hc⟩

/-- C18. A read of an operand slot whose staged value has the type `PH`, while the
Placeholder Queue is empty, is the read of the operand token of the instruction at that
index by `GetVariable`; the queue stays empty and the Parameter Stack is as before, whether
the read returns or its cast throws. -/
theorem GetParam_empty_queue_reads_literal {T : Type} [LexicalCast T] (s : NsbInterpreter)
    (Index : Nat) (p : Variable) (l : Line) (tok : String) (hi : s.Params[Index]? = some p)
    (hph : p.Ty = "PH") (hq : s.Placeholders = []) (hl : s.pLine = some l)
    (ht : l.Params[Index]? = some tok) :
    GetParam (T := T) Index s = GetVariable (T := T) tok s ∧
    ((∃ v s', GetParam (T := T) Index s = .ok (v, s') ∧ s'.Placeholders = [] ∧
        s'.Params = s.Params) ∨
      GetParam (T := T) Index s = .error (.bad_lexical_cast s)) := by
  have heq : GetParam (T := T) Index s = GetVariable (T := T) tok s := by
    simp [GetParam, hi, hph, hq, hl, ht]
  refine ⟨heq, ?_⟩
  rw [heq]
  rcases GetVariable_frame (T := T) tok s with ⟨v, h⟩ | ⟨v, h⟩ | h
  · exact Or.inl ⟨v, _, h, hq, rfl⟩
  · exact Or.inl ⟨v, _, h, hq, rfl⟩
  · exact Or.inr h

/-- C20. An instruction whose opcode has no registered handler and is no `case` of the
`switch`, executed with a non-null script, changes nothing: the state after `ExecuteLine` is
the state before, in every store, the active module, the cursors, the flags and the count of
Fault Handler calls. -/
theorem ExecuteLine_unknown_opcode (s : NsbInterpreter) (l : Line)
    (hp : s.pScript.isSome = true) (hl : s.pLine = some l)
    (hb : Builtins l.Magic = none) (hs : l.Magic ∉ switchCases) :
    ExecuteLine s = .ok s := by
  rw [ExecuteLine_switch s l hp hl hb]
  unfold ExecuteSwitch
  cases hm : l.Magic <;> simp [hm, switchCases, Builtins] at hs hb ⊢

/-! ## Stores: begin, create-array, array read, call and return -/

theorem mapFind_mapSet_same {α : Type} (m : List (String × α)) (k : String) (v : α) :
    mapFind (mapSet m k v) k = some v := by
  induction m with
  | nil => simp [mapSet, mapFind]
  | cons e m ih =>
    by_cases h : e.1 = k
    · simp [mapSet, h, mapFind]
    · simp only [mapSet, h, if_false]
      simp only [mapFind, List.find?_cons, h, decide_False] at ih ⊢
      exact ih

theorem mapFind_mapSet_other {α : Type} (m : List (String × α)) (k k' : String) (v : α)
    (hk : k' ≠ k) : mapFind (mapSet m k v) k' = mapFind m k' := by
  induction m with
  | nil => simp [mapSet, mapFind, Ne.symm hk]
  | cons e m ih =>
    by_cases h : e.1 = k
    · have h' : ¬ e.1 = k' := by rw [h]; exact Ne.symm hk
      simp [mapSet, h, mapFind, Ne.symm hk, h']
    · simp only [mapSet, h, if_false]
      by_cases h' : e.1 = k'
      · simp [mapFind, h']
      · simp only [mapFind, List.find?_cons, h', decide_False] at ih ⊢
        exact ih

theorem mapFind_mapTouch_same {α : Type} (m : List (String × α)) (k : String) (d : α) :
    mapFind (mapTouch m k d) k = some (mapAt m k d) := by
  cases h : mapFind m k with
  | some v => simp [mapTouch, mapAt, h]
  | none =>
    simp only [mapTouch, mapAt, h]
    have hnone : List.find? (fun e => decide (e.1 = k)) m = none := by
      cases hx : List.find? (fun e => decide (e.1 = k)) m with
      | none => rfl
      | some e => simp [mapFind, hx] at h
    simp [mapFind, List.find?_append, hnone]

theorem mapTouch_of_find {α : Type} (m : List (String × α)) (k : String) (d v : α)
    (h : mapFind m k = some v) : mapTouch m k d = m ∧ mapAt m k d = v := by
  simp [mapTouch, mapAt, h]

theorem mapAt_mapSet_same {α : Type} (m : List (String × α)) (k : String) (v d : α) :
    mapAt (mapSet m k v) k d = v := by
  simp [mapAt, mapFind_mapSet_same]

theorem mapFind_mapTouch_other {α : Type} (m : List (String × α)) (k k' : String) (d : α)
    (hk : k' ≠ k) : mapFind (mapTouch m k d) k' = mapFind m k' := by
  cases h : mapFind m k with
  | some v => simp [mapTouch, h]
  | none =>
    simp only [mapTouch, h]
    simp only [mapFind, List.find?_append]
    cases hx : List.find? (fun e => decide (e.1 = k')) m with
    | some e => simp
    | none => simp [Ne.symm hk]

theorem BeginLoop_spec : ∀ (names : List String) (j : Nat) (s : NsbInterpreter),
    names.Nodup → j + names.length ≤ s.Params.length →
    ∃ vars, BeginLoop names j s = .ok { s with Variables := vars } ∧
      (∀ i name, names[i]? = some name → mapFind vars name = s.Params[j + i]?) ∧
      (∀ key, key ∉ names → mapFind vars key = mapFind s.Variables key) := by
  intro names
  induction names with
  | nil =>
    intro j s _ _
    exact ⟨s.Variables, rfl, by simp, fun _ _ => rfl⟩
  | cons name rest ih =>
    intro j s hnd hlen
    have hj : j < s.Params.length := by simp only [List.length_cons] at hlen; omega
    have hnd' := List.nodup_cons.mp hnd
    obtain ⟨vars, hrun, hnames, hother⟩ := ih (j + 1) (SetVariable name s.Params[j] s) hnd'.2
      (by simp only [List.length_cons] at hlen; simp only [SetVariable]; omega)
    refine ⟨vars, ?_, ?_, ?_⟩
    · simp only [BeginLoop, List.getElem?_eq_getElem hj]
      exact hrun
    · intro i nm hi
      cases i with
      | zero =>
        simp only [List.getElem?_cons_zero, Option.some.injEq] at hi
        subst hi
        rw [hother name hnd'.1]
        simp [SetVariable, mapFind_mapSet_same, List.getElem?_eq_getElem hj]
      | succ i =>
        simp only [List.getElem?_cons_succ] at hi
        rw [hnames i nm hi]
        simp [SetVariable, Nat.add_assoc, Nat.add_comm 1 i]
    · intro key hkey
      have hk : key ≠ name ∧ key ∉ rest := by simpa using hkey
      rw [hother key hk.2]
      simp [SetVariable, mapFind_mapSet_other _ _ _ _ hk.1]

/-- C17. A begin instruction with the names `n1 .. nk` after its function-name operand,
distinct, executed with at least `k` staged values, binds each name to the staged value of
its position in the Variable Store, leaves every other key of the store as it was, and
changes nothing but the store: the Parameter Stack is as before. -/
theorem Begin_binds_parameters (s : NsbInterpreter) (l : Line) (names : List String)
    (hl : s.pLine = some l) (hn : l.Params.drop 1 = names) (hnd : names.Nodup)
    (hlen : names.length ≤ s.Params.length) :
    ∃ s' : NsbInterpreter, Begin s = .ok s' ∧ s' = { s with Variables := s'.Variables } ∧
      (∀ (i : Nat) (name : String), names[i]? = some name →
        mapFind s'.Variables name = s.Params[i]?) ∧
      (∀ key, key ∉ names → mapFind s'.Variables key = mapFind s.Variables key) ∧
      s'.Params = s.Params ∧
      (s.pScript.isSome = true → l.Magic = Magic.MAGIC_BEGIN → ExecuteLine s = .ok s') := by
  obtain ⟨vars, hrun, hnames, hother⟩ := BeginLoop_spec names 0 s hnd (by omega)
  have hB0 : Begin s = BeginLoop (l.Params.drop 1) 0 s := by
    simp only [Begin, hl]
  have hB : Begin s = .ok { s with Variables := vars } := by
    rw [hB0, hn]
    exact hrun
  refine ⟨_, hB, rfl, ?_, hother, rfl, ?_⟩
  · intro i name hi
    simpa using hnames i name hi
  · intro hp hm
    rw [ExecuteLine_builtin s l Begin hp hl (by rw [hm]; rfl)]
    exact hB

theorem ArrayVariable_Members_setMembers (v : ArrayVariable)
    (ms : List (String × ArrayVariable)) : (v.setMembers ms).Members = ms := by
  cases v
  rfl

theorem mapAt_mapTouch_same {α : Type} (m : List (String × α)) (k : String) (d : α) :
    mapAt (mapTouch m k d) k d = mapAt m k d := by
  have h := mapFind_mapTouch_same m k d
  simp only [mapAt, h]

/-- C16 (amended). The create-array instruction executed with `k` staged values appends
`k - 1` unnamed members to the array it names, one for every staged value after the first,
in staged order, after the members the array had (none when it was absent); the other arrays
and the Parameter Stack are as before. With at most one staged value it changes nothing. -/
theorem CreateArray_appends_after_first (s : NsbInterpreter) (l : Line) (name : String)
    (hp : s.pScript.isSome = true) (hl : s.pLine = some l)
    (hm : l.Magic = Magic.MAGIC_CREATE_ARRAY) (hn : l.Params[0]? = some name) :
    (s.Params.length ≤ 1 → ExecuteLine s = .ok s) ∧
    (2 ≤ s.Params.length →
      ∃ s' : NsbInterpreter, ExecuteLine s = .ok s' ∧ s' = { s with Arrays := s'.Arrays } ∧
        (mapAt s'.Arrays name ArrayVariable.empty).Members =
          (mapAt s.Arrays name ArrayVariable.empty).Members ++
            (s.Params.drop 1).map (fun p => ("", ArrayVariable.ofVariable p)) ∧
        (mapAt s'.Arrays name ArrayVariable.empty).Members.length =
          (mapAt s.Arrays name ArrayVariable.empty).Members.length + (s.Params.length - 1) ∧
        (∀ other, other ≠ name → mapFind s'.Arrays other = mapFind s.Arrays other) ∧
        s'.Params = s.Params) := by
  have hsw : ExecuteLine s = ExecuteSwitch l s :=
    ExecuteLine_switch s l hp hl (by rw [hm]; rfl)
  constructor
  · intro hle
    have hd : s.Params.drop 1 = [] := by
      apply List.drop_eq_nil_of_le
      exact hle
    rw [hsw]
    simp only [ExecuteSwitch, hm, hd]
  · intro hge
    cases hd : s.Params.drop 1 with
    | nil =>
      have := List.drop_eq_nil_iff.mp hd
      omega
    | cons v vs =>
      obtain ⟨arrs, harrs, hE⟩ : ∃ arrs,
          arrs = mapSet (mapTouch s.Arrays name ArrayVariable.empty) name
            ((mapAt (mapTouch s.Arrays name ArrayVariable.empty) name
              ArrayVariable.empty).setMembers
              ((mapAt (mapTouch s.Arrays name ArrayVariable.empty) name
                ArrayVariable.empty).Members ++
                (v :: vs).map (fun p => ("", ArrayVariable.ofVariable p)))) ∧
          ExecuteLine s = .ok { s with Arrays := arrs } := by
        refine ⟨_, rfl, ?_⟩
        rw [hsw]
        simp only [ExecuteSwitch, hm, hd, hn]
      subst harrs
      refine ⟨_, hE, rfl, ?_, ?_, ?_, rfl⟩
      · simp only [mapAt_mapSet_same, ArrayVariable_Members_setMembers, mapAt_mapTouch_same]
      · simp only [mapAt_mapSet_same, ArrayVariable_Members_setMembers, mapAt_mapTouch_same,
          List.length_append, List.length_map]
        have : (v :: vs).length = s.Params.length - 1 := by
          rw [← hd, List.length_drop]
        rw [this]
      · intro other ho
        simp only [mapFind_mapSet_other _ _ _ _ ho, mapFind_mapTouch_other _ _ _ _ ho]

theorem scanMembers_first (key : String) (m : String × ArrayVariable)
    (post : List (String × ArrayVariable)) (hm : m.1 = key) :
    ∀ (pre : List (String × ArrayVariable)) (i : Nat), (∀ x ∈ pre, x.1 ≠ key) →
      scanMembers (some key) (pre ++ m :: post) i = .ok (some (i + pre.length)) := by
  intro pre
  induction pre with
  | nil => intro i _; simp [scanMembers, hm]
  | cons x pre ih =>
    intro i h
    have hx : x.1 ≠ key := h x (by simp)
    have e := ih (i + 1) (fun y hy => h y (by simp [hy]))
    simp only [List.cons_append, scanMembers, hx, if_false]
    show scanMembers (some key) (pre ++ m :: post) (i + 1) = _
    rw [e]
    simp only [List.length_cons]
    congr 2
    omega

theorem getElem?_first_match {α : Type} (pre : List α) (m : α) (post : List α) :
    (pre ++ m :: post)[pre.length]? = some m := by
  induction pre with
  | nil => simp
  | cons x pre ih => simpa using ih

/-- C19. An array read of depth 1 on a handle whose member list has a member named by the
staged key (the payload of the last staged value but one) stages exactly one value: the
value of the first such member in the order of the list; the member staged is recorded in
the list of array-read results and the array table is as before. -/
theorem ArrayRead_first_match_wins (s : NsbInterpreter) (Handle : String)
    (arr : ArrayVariable) (pre post : List (String × ArrayVariable))
    (m : String × ArrayVariable) (kv : Variable)
    (hfind : mapFind s.Arrays Handle = some arr) (hmem : arr.Members = pre ++ m :: post)
    (hpre : ∀ x ∈ pre, x.1 ≠ kv.Value) (hm : m.1 = kv.Value)
    (hlen : 2 ≤ s.Params.length) (hkey : s.Params[s.Params.length - 2]? = some kv) :
    ArrayRead Handle 1 s = .ok { s with
      ArrayParams := s.ArrayParams ++ [(Handle, pre.length)]
      Params := s.Params ++ [m.2.toVariable] } := by
  obtain ⟨hT, hA⟩ := mapTouch_of_find s.Arrays Handle ArrayVariable.empty arr hfind
  have hscan := scanMembers_first kv.Value m post hm pre 0 hpre
  have hget := getElem?_first_match pre m post
  have h1 : (1 : Int).toNat = 1 := rfl
  have h2 : 0 + 2 ≤ s.Params.length := by omega
  have h3 : s.Params.length - 0 - 2 = s.Params.length - 2 := by omega
  simp only [ArrayRead, h1, ArrayReadLoop, hT, hA, hmem, h2, if_true, h3, hkey, Option.map_some',
    hscan, Nat.zero_add, hget]

/-- C13. A call that resolves (and is not the built-in override), followed at once by an end
instruction, makes the module that was active before the call active again, with its cursor
at the resume position recorded in the frame the call pushed, which is the cursor before the
call, and leaves the Return Stack as it was before the call. -/
theorem Call_then_End_restores (s : NsbInterpreter) (n : String) (hwf : WellFormed s)
    (hno : c_str n ≠ "MovieWaitSG") (hres : Resolves s (c_str n)) :
    ∃ (s1 s2 : NsbInterpreter) (fr : FuncReturn),
      ExecuteLine { s with pLine := some (CallEnd.call n).line } = .ok s1 ∧
      s1.Returns = fr :: s.Returns ∧ fr.pScript = s.pScript ∧
      ExecuteLine { s1 with pLine := some CallEnd.ret.line } = .ok s2 ∧
      s2.pScript = s.pScript ∧ cursor s2 = some fr.SourceLine ∧ cursor s2 = cursor s ∧
      s2.Returns = s.Returns := by
  obtain ⟨a, cur, hp, hc, hd⟩ := deref_of_valid hwf.1
  have ha : a < s.Files.length := by
    obtain ⟨_, h, h'⟩ := validPtr_of_getElem hc
    cases h
    exact h'
  obtain ⟨i, dest, cur', hdest, hcur', hcall⟩ :=
    Call_resolves { s with pLine := some (CallEnd.call n).line } (CallEnd.call n).line n
      hwf rfl rfl hno hres
  have hcc : cur' = cur := by
    have : deref s s.pScript = .ok cur' := hcur'
    rw [hd] at this
    cases this
    rfl
  subst hcc
  have hsome : s.pScript.isSome = true := by simp [hp]
  have hexec1 : ExecuteLine { s with pLine := some (CallEnd.call n).line } =
      .ok (entered { s with pLine := some (CallEnd.call n).line } i dest cur' (c_str n)) := by
    rw [ExecuteLine_builtin { s with pLine := some (CallEnd.call n).line }
      (CallEnd.call n).line Call hsome rfl rfl]
    exact hcall
  have hlen : (s.Files.set i
      (dest.SetSourceIter (subUInt32 (dest.GetFunctionLine (c_str n)) 1))).length =
      s.Files.length := by simp
  have ha' : a < (s.Files.set i
      (dest.SetSourceIter (subUInt32 (dest.GetFunctionLine (c_str n)) 1))).length := by
    rw [hlen]; exact ha
  have hpop := End_pop
    { entered { s with pLine := some (CallEnd.call n).line } i dest cur' (c_str n) with
      pLine := some CallEnd.ret.line }
    ⟨s.pScript, cur'.GetNextLineEntry⟩ s.Returns a
    ((s.Files.set i (dest.SetSourceIter (subUInt32 (dest.GetFunctionLine (c_str n)) 1)))[a])
    rfl hp (by simp only [entered, setFile]; exact List.getElem?_eq_getElem ha')
  have hexec2 := (ExecuteLine_builtin
    { entered { s with pLine := some (CallEnd.call n).line } i dest cur' (c_str n) with
      pLine := some CallEnd.ret.line }
    CallEnd.ret.line End (by simp [entered]) rfl rfl).trans hpop
  refine ⟨_, _, ⟨s.pScript, cur'.GetNextLineEntry⟩, hexec1, rfl, rfl, hexec2, rfl, ?_, ?_,
    rfl⟩
  · simp [cursor, setFile, entered, ha, NsbFile.SetSourceIter, NsbFile.GetNextLineEntry, hp]
  · simp [cursor, setFile, entered, ha, NsbFile.SetSourceIter, NsbFile.GetNextLineEntry, hp, hc]

/-! ## The claims on the further example states -/

/-- Witness of C12: in `exampleVariables` the key `x` yields its stored 5, the absent
identifier `12` yields 12, and the key `y` (payload `abc`) and the absent identifier `zz`
yield 0 with a message and no other change. -/
theorem GetVariable_soft_failure_witness :
    GetVariable (T := Int) "x" exampleVariables = .ok (5, exampleVariables) ∧
    GetVariable (T := Int) "12" exampleVariables = .ok (12, exampleVariables) ∧
    GetVariable (T := Int) "y" exampleVariables = .ok (0,
      { exampleVariables with cout := "Failed to cast y to correct type.\n" }) ∧
    GetVariable (T := Int) "zz" exampleVariables = .ok (0,
      { exampleVariables with cout := "Failed to cast zz to correct type.\n" }) :=
  ⟨(GetVariable_soft_failure "x" exampleVariables (by decide)).1 ⟨"INT", "5"⟩ 5 rfl rfl,
    (GetVariable_soft_failure "12" exampleVariables (by decide)).2.1 12 rfl rfl,
    (GetVariable_soft_failure "y" exampleVariables (by decide)).2.2.1 ⟨"STRING", "abc"⟩ rfl rfl,
    (GetVariable_soft_failure "zz" exampleVariables (by decide)).2.2.2 rfl rfl⟩

/-- Witness of C13: in `exampleState` the call of `Bar`, which resolves in the loaded
module, followed by an end instruction. -/
theorem Call_then_End_restores_witness :
    WellFormed exampleState ∧ Resolves exampleState (c_str "Bar") ∧
    ∃ (s1 s2 : NsbInterpreter) (fr : FuncReturn),
      ExecuteLine { exampleState with pLine := some (CallEnd.call "Bar").line } = .ok s1 ∧
      s1.Returns = fr :: exampleState.Returns ∧ fr.pScript = exampleState.pScript ∧
      ExecuteLine { s1 with pLine := some CallEnd.ret.line } = .ok s2 ∧
      s2.pScript = exampleState.pScript ∧ cursor s2 = some fr.SourceLine ∧
      cursor s2 = cursor exampleState ∧ s2.Returns = exampleState.Returns := by
  have hwf : WellFormed exampleState := by
    refine ⟨⟨0, rfl, by decide⟩, ?_⟩
    intro p hp
    have : p = some 1 := by simpa [exampleState, initState] using hp
    exact ⟨1, this, by decide⟩
  have hres : Resolves exampleState (c_str "Bar") :=
    Or.inr ⟨some 1, by simp [exampleState, initState], ⟨1, exampleLib, rfl, rfl, by decide⟩⟩
  exact ⟨hwf, hres, Call_then_End_restores exampleState "Bar" hwf (by decide) hres⟩

/-- Witness of C14: no module of `exampleState` defines `Nope`. -/
theorem Call_unresolved_changes_nothing_witness :
    exampleMain.GetFunctionLine "Nope" = 0 ∧ exampleLib.GetFunctionLine "Nope" = 0 ∧
    ∃ s', Call (exampleCall "Nope") = .ok s' ∧
      s' = { exampleCall "Nope" with cout := "Failed to lookup function symbol Nope\n" } ∧
      s'.Returns = [] ∧ s'.pScript = some 0 ∧ s'.Files = [exampleMain, exampleLib] ∧
      cursor s' = some 0 ∧ s'.Variables = [] ∧ s'.Params = [] ∧ s'.Crashes = 0 ∧
      ExecuteLine (exampleCall "Nope") = .ok s' := by
  obtain ⟨s', h, hs, hret, hp, hfiles, hcur, hvar, hpar, hcr, hex⟩ :=
    Call_unresolved_changes_nothing (exampleCall "Nope") ⟨Magic.MAGIC_CALL, ["Nope"]⟩ "Nope" 0
      exampleMain rfl rfl (by decide) rfl rfl (by decide)
      (by
        intro p hp
        have : p = some 1 := by simpa [exampleCall, exampleState, initState] using hp
        exact ⟨1, exampleLib, this, rfl, by decide⟩)
  exact ⟨by decide, by decide, s', h, hs, hret, hp, hfiles, hcur, hvar, hpar, hcr, hex rfl⟩

/-- Witness of C15: in `exampleFetched` the strings `True`, `1` and the empty string each
call the Fault Handler once. -/
theorem Boolify_exact_tokens_witness :
    Boolify "true" exampleFetched = .ok (true, exampleFetched) ∧
    Boolify "false" exampleFetched = .ok (false, exampleFetched) ∧
    (∃ s', Boolify "True" exampleFetched = .ok (false, s') ∧ s'.Crashes = 1) ∧
    (∃ s', Boolify "1" exampleFetched = .ok (false, s') ∧ s'.Crashes = 1) ∧
    (∃ s', Boolify "" exampleFetched = .ok (false, s') ∧ s'.Crashes = 1) := by
  have h := Boolify_exact_tokens exampleFetched 0 { exampleMain with SourceIter := 1 } rfl rfl
    (by intro fr hfr; simp [exampleFetched, initState] at hfr)
  exact ⟨h.1, h.2.1, h.2.2 "True" (by decide) (by decide), h.2.2 "1" (by decide) (by decide),
    h.2.2 "" (by decide) (by decide)⟩

/-- Counterexample to C16 as stated: with the three staged values `INT 1`, `INT 2`, `INT 3`
the create-array instruction gives the new array `arr` two members, `INT 2` and `INT 3`;
the first staged value is not among them. -/
theorem CreateArray_counterexample :
    ∃ s', ExecuteLine exampleCreateArray = .ok s' ∧
      (mapAt s'.Arrays "arr" ArrayVariable.empty).Members.map
          (fun m => (m.1, m.2.toVariable)) = [("", ⟨"INT", "2"⟩), ("", ⟨"INT", "3"⟩)] ∧
      (mapAt s'.Arrays "arr" ArrayVariable.empty).Members.length = 2 ∧
      (mapAt s'.Arrays "arr" ArrayVariable.empty).Members.length ≠
        exampleCreateArray.Params.length :=
  ⟨_, rfl, rfl, rfl, by decide⟩

/-- Witness of C16 (amended): the three staged values of `exampleCreateArray` append two
members to `arr`. -/
theorem CreateArray_appends_after_first_witness :
    ∃ s' : NsbInterpreter, ExecuteLine exampleCreateArray = .ok s' ∧
      s' = { exampleCreateArray with Arrays := s'.Arrays } ∧
      (mapAt s'.Arrays "arr" ArrayVariable.empty).Members =
        (mapAt exampleCreateArray.Arrays "arr" ArrayVariable.empty).Members ++
          (exampleCreateArray.Params.drop 1).map (fun p => ("", ArrayVariable.ofVariable p)) ∧
      (mapAt s'.Arrays "arr" ArrayVariable.empty).Members.length =
        (mapAt exampleCreateArray.Arrays "arr" ArrayVariable.empty).Members.length +
          (exampleCreateArray.Params.length - 1) ∧
      (∀ other, other ≠ "arr" →
        mapFind s'.Arrays other = mapFind exampleCreateArray.Arrays other) ∧
      s'.Params = exampleCreateArray.Params :=
  (CreateArray_appends_after_first exampleCreateArray ⟨Magic.MAGIC_CREATE_ARRAY, ["arr"]⟩ "arr"
    rfl rfl rfl rfl).2 (by decide)

/-- Witness of C17: the begin instruction of `exampleBegin` binds `$a` to `INT 1` and `$b`
to `STRING two`, keeps `x`, and keeps the three staged values. -/
theorem Begin_binds_parameters_witness :
    ∃ s' : NsbInterpreter, Begin exampleBegin = .ok s' ∧
      mapFind s'.Variables "$a" = some ⟨"INT", "1"⟩ ∧
      mapFind s'.Variables "$b" = some ⟨"STRING", "two"⟩ ∧
      mapFind s'.Variables "x" = some ⟨"INT", "5"⟩ ∧
      s'.Params = [⟨"INT", "1"⟩, ⟨"STRING", "two"⟩, ⟨"INT", "3"⟩] ∧
      ExecuteLine exampleBegin = .ok s' := by
  obtain ⟨s', h, _, hnames, hother, hpar, hex⟩ :=
    Begin_binds_parameters exampleBegin ⟨Magic.MAGIC_BEGIN, ["function.Foo", "$a", "$b"]⟩
      ["$a", "$b"] rfl rfl (by decide) (by decide)
  exact ⟨s', h, hnames 0 "$a" rfl, hnames 1 "$b" rfl, hother "x" (by decide), hpar,
    hex rfl rfl⟩

/-- Witness of C18: with an empty queue the placeholder slots of `examplePlaceholderSlots`
read the operand tokens `x` (the variable, 5) and `7` (the literal). -/
theorem GetParam_empty_queue_reads_literal_witness :
    GetParam (T := Int) 0 examplePlaceholderSlots = .ok (5, examplePlaceholderSlots) ∧
    GetParam (T := Int) 1 examplePlaceholderSlots = .ok (7, examplePlaceholderSlots) :=
  ⟨(GetParam_empty_queue_reads_literal (T := Int) examplePlaceholderSlots 0 ⟨"PH", ""⟩
      ⟨Magic.MAGIC_CREATE_BOX, ["x", "7"]⟩ "x" rfl rfl rfl rfl rfl).1.trans rfl,
    (GetParam_empty_queue_reads_literal (T := Int) examplePlaceholderSlots 1 ⟨"PH", ""⟩
      ⟨Magic.MAGIC_CREATE_BOX, ["x", "7"]⟩ "7" rfl rfl rfl rfl rfl).1.trans rfl⟩

/-- Witness of C19: of the two members named `a` of `exampleArrayFirst` the first, with the
value `INT 2` at index 1, is staged. -/
theorem ArrayRead_first_match_wins_witness :
    ArrayRead "arr" 1 exampleArrayFirst = .ok { exampleArrayFirst with
      ArrayParams := [("arr", 1)]
      Params := [⟨"STRING", "a"⟩, ⟨"INT", "1"⟩, ⟨"INT", "2"⟩] } :=
  ArrayRead_first_match_wins exampleArrayFirst "arr"
    (ArrayVariable.mk "" "" [("k", ArrayVariable.mk "INT" "1" []),
      ("a", ArrayVariable.mk "INT" "2" []), ("a", ArrayVariable.mk "INT" "3" [])])
    [("k", ArrayVariable.mk "INT" "1" [])] [("a", ArrayVariable.mk "INT" "3" [])]
    ("a", ArrayVariable.mk "INT" "2" []) ⟨"STRING", "a"⟩ rfl rfl
    (by
      intro x hx
      have : x = ("k", ArrayVariable.mk "INT" "1" []) := by simpa using hx
      rw [this]
      decide)
    rfl (by decide) rfl

/-- Witness of C20: an instruction with the unassigned tag 4660 and one with the format
opcode, whose registration is commented out, leave `exampleState` as it is. -/
theorem ExecuteLine_unknown_opcode_witness :
    ExecuteLine { exampleState with pLine := some ⟨Magic.MAGIC_OTHER 4660, ["a"]⟩ } =
      .ok { exampleState with pLine := some ⟨Magic.MAGIC_OTHER 4660, ["a"]⟩ } ∧
    ExecuteLine { exampleState with pLine := some ⟨Magic.MAGIC_FORMAT, ["a"]⟩ } =
      .ok { exampleState with pLine := some ⟨Magic.MAGIC_FORMAT, ["a"]⟩ } :=
  ⟨ExecuteLine_unknown_opcode { exampleState with pLine := some ⟨Magic.MAGIC_OTHER 4660, ["a"]⟩ }
      ⟨Magic.MAGIC_OTHER 4660, ["a"]⟩ rfl rfl rfl (by decide),
    ExecuteLine_unknown_opcode { exampleState with pLine := some ⟨Magic.MAGIC_FORMAT, ["a"]⟩ }
      ⟨Magic.MAGIC_FORMAT, ["a"]⟩ rfl rfl rfl (by decide)⟩

/-! ## Frames of the operand reads and of the glue -/

theorem hostFrame_refl (s : NsbInterpreter) : hostFrame s s :=
  ⟨rfl, rfl, rfl, rfl, rfl, rfl, rfl, rfl⟩

theorem hostFrame_trans {a b c : NsbInterpreter} (h1 : hostFrame a b) (h2 : hostFrame b c) :
    hostFrame a c := by
  obtain ⟨a1, a2, a3, a4, a5, a6, a7, a8⟩ := h1
  obtain ⟨b1, b2, b3, b4, b5, b6, b7, b8⟩ := h2
  exact ⟨b1.trans a1, b2.trans a2, b3.trans a3, b4.trans a4, b5.trans a5, b6.trans a6,
    b7.trans a7, b8.trans a8⟩

theorem hostFrame_stepFrame {s s' : NsbInterpreter} (h : hostFrame s s') : stepFrame s s' :=
  ⟨h.1, by rw [h.2.1]; exact Nat.le_succ _⟩

theorem deref_error (s : NsbInterpreter) (p : Option Nat) (e : Exn)
    (h : deref s p = .error e) : e = .undefined := by
  unfold deref at h
  cases p with
  | none => simp only at h; cases h; rfl
  | some i =>
    simp only at h
    cases hf : s.Files[i]? with
    | none => rw [hf] at h; simp only at h; cases h; rfl
    | some f => rw [hf] at h; simp only at h; cases h

theorem traceLines_error (s : NsbInterpreter) : ∀ (frs : List FuncReturn) (e : Exn),
    traceLines s frs = .error e → e = .undefined := by
  intro frs
  induction frs with
  | nil => intro e h; simp only [traceLines] at h; cases h
  | cons fr rest ih =>
    intro e h
    simp only [traceLines] at h
    cases hd : deref s fr.pScript with
    | error e1 =>
      rw [hd] at h; simp only at h
      cases h
      exact deref_error s _ _ hd
    | ok g =>
      rw [hd] at h; simp only at h
      cases ht : traceLines s rest with
      | error e2 =>
        rw [ht] at h; simp only at h
        cases h
        exact ih _ ht
      | ok t => rw [ht] at h; simp only at h; cases h

theorem WriteTrace_error (s : NsbInterpreter) (e : Exn) (h : WriteTrace s = .error e) :
    e = .undefined := by
  unfold WriteTrace at h
  cases hd : deref s s.pScript with
  | error e1 =>
    rw [hd] at h; simp only at h
    cases h
    exact deref_error s _ _ hd
  | ok f =>
    rw [hd] at h; simp only at h
    exact traceLines_error s _ _ h

/-- `Recover` changes nothing but the cursor of the active module. -/
theorem Recover_frame (s s' : NsbInterpreter) (h : finalState (Recover s) = some s') :
    hostFrame s s' ∧ s'.Crashes = s.Crashes ∧ s'.StopInterpreter = s.StopInterpreter ∧
      s'.Placeholders = s.Placeholders := by
  unfold Recover at h
  cases hp : s.pScript with
  | none => rw [hp] at h; simp only [finalState] at h; cases h
  | some i =>
    rw [hp] at h; simp only at h
    cases hf : s.Files[i]? with
    | none => rw [hf] at h; simp only [finalState] at h; cases h
    | some f =>
      rw [hf] at h; simp only [finalState] at h
      cases h
      exact ⟨⟨rfl, rfl, rfl, rfl, rfl, hp.symm, rfl, rfl⟩, rfl, rfl, rfl⟩

/-- `Crash` changes nothing but `std::cout`, the cursor of the active module and the count
of its calls, which grows by one. -/
theorem Crash_frame (s s' : NsbInterpreter) (h : finalState (Crash s) = some s') :
    hostFrame s s' ∧ s'.Crashes = s.Crashes + 1 ∧ s'.StopInterpreter = s.StopInterpreter ∧
      s'.Placeholders = s.Placeholders := by
  unfold Crash at h
  cases hw : WriteTrace s with
  | error e =>
    rw [hw] at h; simp only at h
    rw [WriteTrace_error s e hw] at h
    simp only [finalState] at h; cases h
  | ok t =>
    rw [hw] at h; simp only at h
    obtain ⟨hf, hc, hs, hq⟩ := Recover_frame _ _ h
    exact ⟨hf, hc, hs, hq⟩

theorem Crash_error (s : NsbInterpreter) (e : Exn) (h : Crash s = .error e) :
    e = .undefined := by
  cases e with
  | undefined => rfl
  | bad_lexical_cast s1 =>
    exfalso
    unfold Crash at h
    cases hw : WriteTrace s with
    | error e =>
      rw [hw] at h; simp only at h
      have := WriteTrace_error s e hw
      rw [this] at h; cases h
    | ok t =>
      rw [hw] at h; simp only at h
      unfold Recover at h
      simp only at h
      cases hp : s.pScript with
      | none => rw [hp] at h; simp only at h; cases h
      | some i =>
        rw [hp] at h; simp only at h
        cases hf : s.Files[i]? with
        | none => rw [hf] at h; simp only at h; cases h
        | some f => rw [hf] at h; simp only at h; cases h

/-- An assertion, passed or failed, stays in the frame. -/
theorem NsbAssert_frame (expr : Bool) (fmt : String) (args : List String)
    (s s' : NsbInterpreter) (h : stateOf (NsbAssert expr fmt args s) = some s') :
    hostFrame s s' ∧ s'.StopInterpreter = s.StopInterpreter ∧
      s'.Placeholders = s.Placeholders := by
  unfold NsbAssert at h
  cases expr with
  | true =>
    simp only [if_true, stateOf] at h
    cases h
    exact ⟨hostFrame_refl s, rfl, rfl⟩
  | false =>
    simp only [Bool.false_eq_true, if_false] at h
    cases hc : Crash { s with cout := s.cout ++ NsbAssertPrint fmt.data args } with
    | error e =>
      rw [hc] at h; simp only at h
      rw [Crash_error _ e hc] at h
      simp only [stateOf] at h; cases h
    | ok s1 =>
      rw [hc] at h; simp only [stateOf] at h
      have := Crash_frame _ s1 (by rw [hc]; rfl)
      cases h
      exact ⟨this.1, this.2.2.1, this.2.2.2⟩

theorem NsbAssert_keeps (expr : Bool) (fmt : String) (args : List String) :
    Keeps (NsbAssert expr fmt args) :=
  fun s s' h => (NsbAssert_frame expr fmt args s s' h).1

theorem GetVariable_keeps {T : Type} [LexicalCast T] (Identifier : String) :
    Keeps (GetVariable (T := T) Identifier) := by
  intro s s' h
  rcases GetVariable_frame (T := T) Identifier s with ⟨v, hv⟩ | ⟨v, hv⟩ | hv <;>
    rw [hv] at h <;> simp only [stateOf, Option.some.injEq] at h <;> subst h <;>
    exact ⟨rfl, rfl, rfl, rfl, rfl, rfl, rfl, rfl⟩

theorem GetParam_keeps {T : Type} [LexicalCast T] (Index : Nat) :
    Keeps (GetParam (T := T) Index) := by
  intro s s' h
  have via : ∀ r : Res (T × NsbInterpreter),
      r = (match s.pLine with
        | none => .error .undefined
        | some l =>
          match l.Params[Index]? with
          | none => .error .undefined
          | some tok => GetVariable tok s) → stateOf r = some s' → hostFrame s s' := by
    intro r hr h
    subst hr
    cases hl : s.pLine with
    | none => rw [hl] at h; simp only [stateOf] at h; cases h
    | some l =>
      rw [hl] at h; simp only at h
      cases ht : l.Params[Index]? with
      | none => rw [ht] at h; simp only [stateOf] at h; cases h
      | some tok => rw [ht] at h; simp only at h; exact GetVariable_keeps tok s s' h
  unfold GetParam at h
  simp only at h
  cases hp : s.Params[Index]? with
  | none => rw [hp] at h; exact via _ rfl h
  | some p =>
    rw [hp] at h; simp only at h
    by_cases hph : p.Ty = "PH"
    · rw [if_pos hph] at h
      cases hq : s.Placeholders with
      | nil => rw [hq] at h; exact via _ rfl h
      | cons Var rest =>
        rw [hq] at h; simp only at h
        cases hc : (LexicalCast.cast Var.Value : Option T) with
        | none =>
          rw [hc] at h; simp only [stateOf, Option.some.injEq] at h; subst h
          exact ⟨rfl, rfl, rfl, rfl, rfl, rfl, rfl, rfl⟩
        | some v =>
          rw [hc] at h; simp only [stateOf, Option.some.injEq] at h; subst h
          exact ⟨rfl, rfl, rfl, rfl, rfl, rfl, rfl, rfl⟩
    · rw [if_neg hph] at h; exact via _ rfl h

theorem Boolify_keeps (Str : String) : Keeps (Boolify Str) := by
  intro s s' h
  unfold Boolify at h
  by_cases h1 : Str = "true"
  · rw [if_pos h1] at h; simp only [stateOf, Option.some.injEq] at h; subst h
    exact hostFrame_refl s
  · rw [if_neg h1] at h
    by_cases h2 : Str = "false"
    · rw [if_pos h2] at h; simp only [stateOf, Option.some.injEq] at h; subst h
      exact hostFrame_refl s
    · rw [if_neg h2] at h
      cases ha : NsbAssert false "Invalid boolification of string: " [c_str Str] s with
      | error e =>
        rw [ha] at h; simp only at h
        exact NsbAssert_keeps _ _ _ s s' (by rw [ha]; cases e <;> exact h)
      | ok r =>
        obtain ⟨b, s1⟩ := r
        rw [ha] at h; simp only [stateOf, Option.some.injEq] at h; subst h
        exact NsbAssert_keeps _ _ _ s s1 (by rw [ha]; rfl)

/-- Sequencing keeps the frame when both parts do. -/
theorem Keeps_andThen {α β : Type} (x : Act α) (f : α → Act β) (hx : Keeps x)
    (hf : ∀ a, Keeps (f a)) : Keeps (Act.andThen x f) := by
  intro s s' h
  unfold Act.andThen at h
  cases hr : x s with
  | error e =>
    rw [hr] at h; simp only at h
    exact hx s s' (by rw [hr]; cases e <;> exact h)
  | ok r =>
    obtain ⟨a, s1⟩ := r
    rw [hr] at h; simp only at h
    exact hostFrame_trans (hx s s1 (by rw [hr]; rfl)) (hf a s1 s' h)

theorem GetParamBool_keeps (Index : Nat) : Keeps (GetParamBool Index) := by
  intro s s' h
  exact Keeps_andThen (GetParam (T := String) Index) Boolify (GetParam_keeps Index)
    Boolify_keeps s s' (by
      unfold GetParamBool at h
      unfold Act.andThen
      cases hr : GetParam (T := String) Index s with
      | error e => rw [hr] at h; exact h
      | ok r => obtain ⟨a, s1⟩ := r; rw [hr] at h; exact h)

theorem done_keeps : Keeps Act.done := by
  intro s s' h
  simp only [Act.done, stateOf, Option.some.injEq] at h; subst h
  exact hostFrame_refl s

theorem setHandleName_keeps (h : String) : Keeps (setHandleName h) := by
  intro s s' hs
  simp only [setHandleName, stateOf, Option.some.injEq] at hs; subst hs
  exact ⟨rfl, rfl, rfl, rfl, rfl, rfl, rfl, rfl⟩

theorem GLCallback_keeps (what : String) : Keeps (GLCallback what) := by
  intro s s' hs
  simp only [GLCallback, stateOf, Option.some.injEq] at hs; subst hs
  exact ⟨rfl, rfl, rfl, rfl, rfl, rfl, rfl, rfl⟩

theorem print_keeps (text : String) : Keeps (print text) := by
  intro s s' hs
  simp only [print, stateOf, Option.some.injEq] at hs; subst hs
  exact ⟨rfl, rfl, rfl, rfl, rfl, rfl, rfl, rfl⟩

theorem writeNullDrawable_keeps : Keeps writeNullDrawable := by
  intro s s' hs
  simp only [writeNullDrawable, stateOf, Option.some.injEq] at hs; subst hs
  exact ⟨rfl, rfl, rfl, rfl, rfl, rfl, rfl, rfl⟩

theorem printTrace_keeps : Keeps printTrace := by
  intro s s' hs
  unfold printTrace at hs
  cases hw : WriteTrace s with
  | error e =>
    rw [hw] at hs; simp only at hs
    rw [WriteTrace_error s e hw] at hs
    simp only [stateOf] at hs; cases hs
  | ok t =>
    rw [hw] at hs; simp only [stateOf, Option.some.injEq] at hs; subst hs
    exact ⟨rfl, rfl, rfl, rfl, rfl, rfl, rfl, rfl⟩

theorem evalArg_keeps (a : ArgType × Nat) : Keeps (evalArg a) := by
  obtain ⟨t, i⟩ := a
  cases t with
  | int => exact Keeps_andThen _ _ (GetParam_keeps i) (fun _ => done_keeps)
  | string => exact Keeps_andThen _ _ (GetParam_keeps i) (fun _ => done_keeps)
  | bool => exact Keeps_andThen _ _ (GetParamBool_keeps i) (fun _ => done_keeps)

theorem evalArgs_keeps : ∀ args : List (ArgType × Nat), Keeps (evalArgs args) := by
  intro args
  induction args with
  | nil => exact done_keeps
  | cons a rest ih => exact Keeps_andThen _ _ (evalArg_keeps a) (fun _ => ih)

theorem WildcardCall_keeps (Func : Option DrawableKind → Act Unit)
    (hF : ∀ d, Keeps (Func d)) : ∀ keys : List String, Keeps (WildcardCall Func keys) := by
  intro keys
  induction keys with
  | nil => exact done_keeps
  | cons k rest ih =>
    refine Keeps_andThen _ _ (setHandleName_keeps k) (fun _ => ?_)
    refine Keeps_andThen _ _ ?_ (fun _ => ih)
    intro s s' h
    exact hF _ s s' h

theorem NSBSetOpacity_keeps (Opacity : Int) (d : Option DrawableKind) :
    Keeps (NSBSetOpacity Opacity d) := by
  unfold NSBSetOpacity
  cases d with
  | none => exact done_keeps
  | some k =>
    cases k with
    | movie ms => exact done_keeps
    | other => exact done_keeps
    | text =>
      simp only
      by_cases h0 : Opacity = 0
      · rw [if_pos h0]
        exact Keeps_andThen _ _ (GLCallback_keeps _) (fun _ => writeNullDrawable_keeps)
      · rw [if_neg h0]; exact done_keeps

/-- The outcome of a handler built from an expression is the outcome of the expression. -/
theorem finalState_run (x : Act Unit) (s : NsbInterpreter) :
    finalState (Act.run x s) = stateOf (x s) := by
  unfold Act.run
  cases hr : x s with
  | error e => cases e <;> rfl
  | ok r => obtain ⟨a, s1⟩ := r; rfl

/-- An expression that is, in every state, an expression that keeps the frame. -/
theorem Keeps_pointwise {α : Type} (x : Act α)
    (h : ∀ s, (∃ y : Act α, Keeps y ∧ x s = y s) ∨ x s = .error .undefined) : Keeps x := by
  intro s s' hs
  rcases h s with ⟨y, hy, he⟩ | he
  · rw [he] at hs; exact hy s s' hs
  · rw [he] at hs; simp only [stateOf] at hs; cases hs

theorem LoadTexturePos_keeps (i : Nat) : Keeps (LoadTexturePos i) := by
  apply Keeps_pointwise
  intro s
  unfold LoadTexturePos
  cases hp : s.Params[i]? with
  | none => exact Or.inr rfl
  | some p =>
    simp only
    by_cases ht : p.Ty = "STRING"
    · rw [if_pos ht]
      by_cases hv : p.Value ∈ SpecialPos
      · rw [if_pos hv]; exact Or.inl ⟨Act.done, done_keeps, rfl⟩
      · rw [if_neg hv]; exact Or.inr rfl
    · rw [if_neg ht]; exact Or.inl ⟨_, evalArg_keeps (ArgType.int, i), rfl⟩

theorem LoadAudio_keeps (File : String) : Keeps (LoadAudio File) := by
  apply Keeps_pointwise
  intro s
  unfold LoadAudio
  cases hr : mapFind s.Resources File with
  | none =>
    exact Or.inl ⟨_, Keeps_andThen _ _ (print_keeps _) (fun _ => printTrace_keeps), rfl⟩
  | some opens =>
    exact Or.inl ⟨_, Keeps_andThen _ _ (NsbAssert_keeps opens _ _) (fun _ => done_keeps), rfl⟩

theorem SetDisplayState_keeps (Handle State : String) : Keeps (SetDisplayState Handle State) := by
  apply Keeps_pointwise
  intro s
  unfold SetDisplayState
  have hnon : ∀ r : Res (Unit × NsbInterpreter),
      r = (if State = "Play" then
        (Act.andThen (NsbAssert false "Attempted to Play non-movie object " [Handle]) fun _ =>
          Act.done) s
      else .ok ((), s)) → (∃ y : Act Unit, Keeps y ∧ r = y s) ∨ r = .error .undefined := by
    intro r hr
    subst hr
    by_cases hs : State = "Play"
    · rw [if_pos hs]
      exact Or.inl ⟨_, Keeps_andThen _ _ (NsbAssert_keeps false _ _) (fun _ => done_keeps), rfl⟩
    · rw [if_neg hs]; exact Or.inl ⟨Act.done, done_keeps, rfl⟩
  cases hd : readDrawable s Handle with
  | none => exact Or.inl ⟨Act.done, done_keeps, rfl⟩
  | some k =>
    cases k with
    | movie ms => exact Or.inl ⟨Act.done, done_keeps, rfl⟩
    | text => exact hnon _ rfl
    | other => exact hnon _ rfl

theorem DrawToTexture_frame (s s' : NsbInterpreter)
    (h : finalState (DrawToTexture s) = some s') : hostFrame s s' := by
  unfold DrawToTexture at h; rw [finalState_run] at h
  exact Keeps_andThen _ _ (evalArgs_keeps _) (fun _ => GLCallback_keeps _) s s' h

theorem CreateTexture_frame (s s' : NsbInterpreter)
    (h : finalState (CreateTexture s) = some s') : hostFrame s s' := by
  unfold CreateTexture at h; rw [finalState_run] at h
  exact Keeps_andThen _ _ (GetParam_keeps 0) (fun _ =>
    Keeps_andThen _ _ (setHandleName_keeps _) (fun _ =>
    Keeps_andThen _ _ (evalArgs_keeps _) (fun _ => GLCallback_keeps _))) s s' h

theorem LoadMovie_frame (s s' : NsbInterpreter)
    (h : finalState (LoadMovie s) = some s') : hostFrame s s' := by
  unfold LoadMovie at h; rw [finalState_run] at h
  exact Keeps_andThen _ _ (GetParam_keeps 0) (fun _ =>
    Keeps_andThen _ _ (setHandleName_keeps _) (fun _ =>
    Keeps_andThen _ _ (evalArgs_keeps _) (fun _ => GLCallback_keeps _))) s s' h

theorem CreateColor_frame (s s' : NsbInterpreter)
    (h : finalState (CreateColor s) = some s') : hostFrame s s' := by
  unfold CreateColor at h; rw [finalState_run] at h
  exact Keeps_andThen _ _ (GetParam_keeps 0) (fun _ =>
    Keeps_andThen _ _ (setHandleName_keeps _) (fun _ =>
    Keeps_andThen _ _ (evalArgs_keeps _) (fun _ => GLCallback_keeps _))) s s' h

theorem ApplyMask_frame (s s' : NsbInterpreter)
    (h : finalState (ApplyMask s) = some s') : hostFrame s s' := by
  unfold ApplyMask at h; rw [finalState_run] at h
  refine Keeps_andThen _ _ (GetParam_keeps 0) (fun hd => ?_) s s' h
  apply Keeps_pointwise
  intro s1
  cases hr : readDrawable s1 hd with
  | none =>
    exact Or.inl ⟨_, Keeps_andThen _ _ (print_keeps _) (fun _ => printTrace_keeps),
      by simp only [hr]; rfl⟩
  | some k =>
    exact Or.inl ⟨_, Keeps_andThen _ _ (evalArgs_keeps _) (fun _ => GLCallback_keeps _),
      by simp only [hr]; rfl⟩

theorem LoadTexture_frame (s s' : NsbInterpreter)
    (h : finalState (LoadTexture s) = some s') : hostFrame s s' := by
  unfold LoadTexture at h; rw [finalState_run] at h
  exact Keeps_andThen _ _ (LoadTexturePos_keeps 2) (fun _ =>
    Keeps_andThen _ _ (LoadTexturePos_keeps 3) (fun _ =>
    Keeps_andThen _ _ (GetParam_keeps 0) (fun _ =>
    Keeps_andThen _ _ (setHandleName_keeps _) (fun _ =>
    Keeps_andThen _ _ (evalArgs_keeps _) (fun _ => GLCallback_keeps _))))) s s' h

theorem Destroy_frame (s s' : NsbInterpreter)
    (h : finalState (Destroy s) = some s') : hostFrame s s' := by
  unfold Destroy at h; rw [finalState_run] at h
  refine Keeps_andThen _ _ (GetParam_keeps 0) (fun hd => ?_) s s' h
  refine Keeps_andThen _ _ (setHandleName_keeps _) (fun _ => ?_)
  have hone : Keeps (Act.andThen (GLCallback "GLDestroy") fun _ => writeNullDrawable) :=
    Keeps_andThen _ _ (GLCallback_keeps _) (fun _ => writeNullDrawable_keeps)
  apply Keeps_pointwise
  intro s1
  cases hl : hd.data.getLast? with
  | none => exact Or.inr (by simp only [hl])
  | some c =>
    by_cases hw : c = '*' ∧ hd.utf8ByteSize ≠ 1
    · exact Or.inl ⟨_, WildcardCall_keeps _ (fun _ => hone) (s1.Wildcard hd),
        by simp only [hl]; rw [if_pos hw]⟩
    · exact Or.inl ⟨_, hone, by simp only [hl]; rw [if_neg hw]⟩

theorem SetOpacity_frame (s s' : NsbInterpreter)
    (h : finalState (SetOpacity s) = some s') : hostFrame s s' := by
  unfold SetOpacity at h; rw [finalState_run] at h
  refine Keeps_andThen _ _ (GetParam_keeps 0) (fun hd => ?_) s s' h
  refine Keeps_andThen _ _ (setHandleName_keeps _) (fun _ => ?_)
  apply Keeps_pointwise
  intro s1
  cases hl : hd.data.getLast? with
  | none => exact Or.inr (by simp only [hl])
  | some c =>
    have key : Keeps (Act.andThen (GetParam (T := Int) 1) fun _ =>
        Act.andThen (GetParam (T := Int) 2) fun Opacity =>
        Act.andThen (GetParam (T := String) 3) fun _ =>
        Act.andThen (GetParamBool 4) fun _ =>
        if c = '*' then WildcardCall (NSBSetOpacity Opacity) (s1.Wildcard hd)
        else NSBSetOpacity Opacity (readDrawable s1 hd)) := by
      refine Keeps_andThen _ _ (GetParam_keeps 1) (fun _ => ?_)
      refine Keeps_andThen _ _ (GetParam_keeps 2) (fun Opacity => ?_)
      refine Keeps_andThen _ _ (GetParam_keeps 3) (fun _ => ?_)
      refine Keeps_andThen _ _ (GetParamBool_keeps 4) (fun _ => ?_)
      by_cases hw : c = '*'
      · rw [if_pos hw]; exact WildcardCall_keeps _ (NSBSetOpacity_keeps Opacity) _
      · rw [if_neg hw]; exact NSBSetOpacity_keeps Opacity _
    exact Or.inl ⟨_, key, by simp only [hl]⟩

theorem DisplayText_frame (s s' : NsbInterpreter)
    (h : finalState (DisplayText s) = some s') : hostFrame s s' := by
  unfold DisplayText at h; rw [finalState_run] at h
  refine Keeps_andThen _ _ (GetParam_keeps 0) (fun hd => ?_) s s' h
  refine Keeps_andThen _ _ (setHandleName_keeps _) (fun _ => ?_)
  refine Keeps_andThen _ _ (evalArgs_keeps _) (fun _ => ?_)
  intro s1 s2 h2
  simp only [stateOf, Option.some.injEq] at h2; subst h2
  exact ⟨rfl, rfl, rfl, rfl, rfl, rfl, rfl, rfl⟩

/-! ## Frames of the handlers of the core -/

theorem NsbAssert_error (expr : Bool) (fmt : String) (args : List String)
    (s : NsbInterpreter) (e : Exn) (h : NsbAssert expr fmt args s = .error e) :
    e = .undefined := by
  cases e with
  | undefined => rfl
  | bad_lexical_cast s1 =>
    have := NsbAssert_frame expr fmt args s s1 (by rw [h]; rfl)
    unfold NsbAssert at h
    cases expr with
    | true => simp only [if_true] at h; cases h
    | false =>
      simp only [Bool.false_eq_true, if_false] at h
      cases hc : Crash { s with cout := s.cout ++ NsbAssertPrint fmt.data args } with
      | error e => rw [hc] at h; simp only at h; rw [Crash_error _ e hc] at h; cases h
      | ok s2 => rw [hc] at h; simp only at h; cases h

theorem Concat_stepFrame (s s' : NsbInterpreter) (h : finalState (Concat s) = some s') :
    stepFrame s s' := by
  unfold Concat at h
  by_cases hlen : s.Params.length < 2
  · rw [if_pos hlen] at h; simp only [finalState] at h; cases h
  · rw [if_neg hlen] at h
    simp only at h
    cases ha : s.Params[s.Params.length - 2]? with
    | none => rw [ha] at h; simp only [finalState] at h; cases h
    | some a =>
      cases hb : s.Params[s.Params.length - 1]? with
      | none => rw [ha, hb] at h; simp only [finalState] at h; cases h
      | some b =>
        rw [ha, hb] at h; simp only at h
        cases hn : NsbAssert (decide (a.Ty = b.Ty))
            "Concating params of different types (% and %)" [a.Ty, b.Ty] s with
        | error e =>
          rw [hn] at h; simp only at h
          rw [NsbAssert_error _ _ _ _ e hn] at h
          simp only [finalState] at h; cases h
        | ok r =>
          obtain ⟨c, s1⟩ := r
          rw [hn] at h; simp only at h
          have hfr := (NsbAssert_frame _ _ _ s s1 (by rw [hn]; rfl)).1
          have hlen1 : s1.Params.length = s.Params.length := by rw [hfr.2.1]
          by_cases hint : a.Ty = "INT" ∧ b.Ty = "INT"
          · rw [if_pos hint] at h
            cases hx : lexical_cast_int32 a.Value with
            | none =>
              rw [hx] at h; simp only [finalState, Option.some.injEq] at h; subst h
              exact hostFrame_stepFrame hfr
            | some x =>
              cases hy : lexical_cast_int32 b.Value with
              | none =>
                rw [hx, hy] at h; simp only [finalState, Option.some.injEq] at h; subst h
                exact hostFrame_stepFrame hfr
              | some y =>
                rw [hx, hy] at h; simp only [finalState, Option.some.injEq] at h; subst h
                refine ⟨hfr.1, ?_⟩
                simp only [List.length_take, List.length_set, hlen1]
                omega
          · rw [if_neg hint] at h
            simp only [finalState, Option.some.injEq] at h; subst h
            refine ⟨hfr.1, ?_⟩
            simp only [List.length_take, List.length_set, hlen1]
            omega

theorem BindLoop_error : ∀ (ps : List Variable) (j : Nat) (ms : List (String × ArrayVariable))
    (e : Exn), BindLoop ps j ms = .error e → e = .undefined := by
  intro ps
  induction ps with
  | nil => intro j ms e h; simp only [BindLoop] at h; cases h
  | cons p rest ih =>
    intro j ms e h
    simp only [BindLoop] at h
    cases hm : ms[j]? with
    | none => rw [hm] at h; simp only at h; cases h; rfl
    | some m => rw [hm] at h; simp only at h; exact ih _ _ _ h

theorem BindIdentifier_stepFrame (s s' : NsbInterpreter)
    (h : finalState (BindIdentifier s) = some s') : stepFrame s s' := by
  unfold BindIdentifier at h
  cases hl : s.pLine with
  | none => rw [hl] at h; simp only [finalState] at h; cases h
  | some l =>
    rw [hl] at h; simp only at h
    cases ht : l.Params[0]? with
    | none => rw [ht] at h; simp only [finalState] at h; cases h
    | some hd =>
      rw [ht] at h; simp only at h
      cases hb : BindLoop (s.Params.drop 1) 0
          (mapAt (mapTouch s.Arrays hd ArrayVariable.empty) hd ArrayVariable.empty).Members with
      | error e =>
        rw [hb] at h; simp only at h
        rw [BindLoop_error _ _ _ e hb] at h
        simp only [finalState] at h; cases h
      | ok ms =>
        rw [hb] at h; simp only [finalState, Option.some.injEq] at h; subst h
        exact ⟨rfl, Nat.le_succ _⟩

theorem BeginLoop_stepFrame : ∀ (names : List String) (j : Nat) (s s' : NsbInterpreter),
    finalState (BeginLoop names j s) = some s' →
      s'.Returns = s.Returns ∧ s'.Params = s.Params := by
  intro names
  induction names with
  | nil =>
    intro j s s' h
    simp only [BeginLoop, finalState, Option.some.injEq] at h; subst h
    exact ⟨rfl, rfl⟩
  | cons name rest ih =>
    intro j s s' h
    simp only [BeginLoop] at h
    cases hp : s.Params[j]? with
    | none => rw [hp] at h; simp only [finalState] at h; cases h
    | some v =>
      rw [hp] at h; simp only at h
      exact ih _ (SetVariable name v s) _ h

theorem Begin_stepFrame (s s' : NsbInterpreter) (h : finalState (Begin s) = some s') :
    stepFrame s s' := by
  unfold Begin at h
  cases hl : s.pLine with
  | none => rw [hl] at h; simp only [finalState] at h; cases h
  | some l =>
    rw [hl] at h; simp only at h
    obtain ⟨h1, h2⟩ := BeginLoop_stepFrame _ _ _ _ h
    exact ⟨h1, by rw [h2]; exact Nat.le_succ _⟩

theorem CallFunction_params (p : Option Nat) (FuncName : String) (s s' : NsbInterpreter)
    (h : stateOf (CallFunction p FuncName s) = some s') : s'.Params = s.Params := by
  unfold CallFunction at h
  cases p with
  | none => simp only [stateOf] at h; cases h
  | some i =>
    simp only at h
    cases hf : s.Files[i]? with
    | none => rw [hf] at h; simp only [stateOf] at h; cases h
    | some dest =>
      rw [hf] at h; simp only at h
      by_cases hz : dest.GetFunctionLine FuncName ≠ 0
      · rw [if_pos hz] at h
        cases hd : deref s s.pScript with
        | error e =>
          rw [hd] at h; simp only at h
          rw [deref_error _ _ e hd] at h
          simp only [stateOf] at h; cases h
        | ok cur =>
          rw [hd] at h; simp only [stateOf, Option.some.injEq] at h; subst h
          rfl
      · rw [if_neg hz] at h
        simp only [stateOf, Option.some.injEq] at h; subst h
        rfl

theorem CallFunction_error (p : Option Nat) (FuncName : String) (s : NsbInterpreter) (e : Exn)
    (h : CallFunction p FuncName s = .error e) : e = .undefined := by
  unfold CallFunction at h
  cases p with
  | none => simp only at h; cases h; rfl
  | some i =>
    simp only at h
    cases hf : s.Files[i]? with
    | none => rw [hf] at h; simp only at h; cases h; rfl
    | some dest =>
      rw [hf] at h; simp only at h
      by_cases hz : dest.GetFunctionLine FuncName ≠ 0
      · rw [if_pos hz] at h
        cases hd : deref s s.pScript with
        | error e1 =>
          rw [hd] at h; simp only at h
          cases h
          exact deref_error _ _ _ hd
        | ok cur => rw [hd] at h; simp only at h; cases h
      · rw [if_neg hz] at h; cases h

theorem CallGlobal_params (FuncName : String) : ∀ (ps : List (Option Nat))
    (s s' : NsbInterpreter), finalState (CallGlobal FuncName ps s) = some s' →
      s'.Params = s.Params := by
  intro ps
  induction ps with
  | nil =>
    intro s s' h
    simp only [CallGlobal, finalState, Option.some.injEq] at h; subst h
    rfl
  | cons p rest ih =>
    intro s s' h
    simp only [CallGlobal] at h
    cases hc : CallFunction p FuncName s with
    | error e =>
      rw [hc] at h; simp only at h
      rw [CallFunction_error _ _ _ e hc] at h
      simp only [finalState] at h; cases h
    | ok r =>
      obtain ⟨b, s1⟩ := r
      have h1 := CallFunction_params p FuncName s s1 (by rw [hc]; rfl)
      rw [hc] at h
      cases b with
      | true => simp only [finalState, Option.some.injEq] at h; subst h; exact h1
      | false => simp only at h; exact (ih _ _ h).trans h1

/-- After `Call` the Parameter Stack is not empty when it was not before: a call of a
function leaves it as it is, and the override stages the duration of the movie. -/
theorem Call_params (s s' : NsbInterpreter) (hne : s.Params ≠ [])
    (h : finalState (Call s) = some s') : s'.Params ≠ [] := by
  unfold Call at h
  cases hl : s.pLine with
  | none => rw [hl] at h; simp only [finalState] at h; cases h
  | some l =>
    rw [hl] at h; simp only at h
    cases ht : l.Params[0]? with
    | none => rw [ht] at h; simp only [finalState] at h; cases h
    | some tok =>
      rw [ht] at h; simp only at h
      by_cases ho : c_str tok = "MovieWaitSG"
      · rw [if_pos ho] at h
        cases hp : (GetMovieTime "ムービー" s).Params[0]? with
        | none => rw [hp] at h; simp only [finalState] at h; cases h
        | some p =>
          rw [hp] at h; simp only at h
          have hne1 : (GetMovieTime "ムービー" s).Params ≠ [] := by
            intro hnil
            rw [hnil] at hp
            simp at hp
          cases hg : GetVariable (T := Int) p.Value (GetMovieTime "ムービー" s) with
          | error e =>
            rw [hg] at h; simp only at h
            have := GetVariable_keeps (T := Int) p.Value _ s' (by rw [hg]; cases e <;> exact h)
            rw [this.2.1]; exact hne1
          | ok r =>
            obtain ⟨v, s2⟩ := r
            rw [hg] at h; simp only [finalState, Option.some.injEq] at h; subst h
            have := GetVariable_keeps (T := Int) p.Value _ s2 (by rw [hg]; rfl)
            show s2.Params ≠ []
            rw [this.2.1]; exact hne1
      · rw [if_neg ho] at h
        cases hc : CallFunction s.pScript (c_str tok) s with
        | error e =>
          rw [hc] at h; simp only at h
          rw [CallFunction_error _ _ _ e hc] at h
          simp only [finalState] at h; cases h
        | ok r =>
          obtain ⟨b, s1⟩ := r
          have h1 := CallFunction_params _ _ s s1 (by rw [hc]; rfl)
          rw [hc] at h
          cases b with
          | true =>
            simp only [finalState, Option.some.injEq] at h; subst h
            rw [h1]; exact hne
          | false =>
            simp only at h
            rw [CallGlobal_params _ _ _ _ h, h1]; exact hne

theorem End_params (s s' : NsbInterpreter) (h : finalState (End s) = some s') :
    s'.Params = s.Params := by
  unfold End at h
  cases hn : NsbAssert (!s.Returns.isEmpty) "Empty return stack" [] s with
  | error e =>
    rw [hn] at h; simp only at h
    rw [NsbAssert_error _ _ _ _ e hn] at h
    simp only [finalState] at h; cases h
  | ok r =>
    obtain ⟨b, s1⟩ := r
    have h1 := (NsbAssert_frame _ _ _ s s1 (by rw [hn]; rfl)).1.2.1
    rw [hn] at h
    cases b with
    | true => simp only [finalState, Option.some.injEq] at h; subst h; exact h1
    | false =>
      simp only at h
      cases hr : s1.Returns with
      | nil => rw [hr] at h; simp only [finalState, Option.some.injEq] at h; subst h; exact h1
      | cons top rest =>
        rw [hr] at h; simp only at h
        cases hp : top.pScript with
        | none => rw [hp] at h; simp only [finalState] at h; cases h
        | some i =>
          rw [hp] at h; simp only at h
          cases hf : s1.Files[i]? with
          | none => rw [hf] at h; simp only [finalState] at h; cases h
          | some f =>
            rw [hf] at h; simp only [finalState, Option.some.injEq] at h; subst h
            exact h1

theorem scanMembers_error (key : Option String) : ∀ (ms : List (String × ArrayVariable))
    (i : Nat) (e : Exn), scanMembers key ms i = .error e → e = .undefined := by
  intro ms
  induction ms with
  | nil => intro i e h; simp only [scanMembers] at h; cases h
  | cons m rest ih =>
    intro i e h
    simp only [scanMembers] at h
    cases key with
    | none => simp only at h; cases h; rfl
    | some k =>
      simp only at h
      by_cases hk : m.1 = k
      · rw [if_pos hk] at h; cases h
      · rw [if_neg hk] at h; exact ih _ _ h

theorem ArrayReadLoop_error (Params : List Variable) : ∀ (n : Nat) (w : ArrayWalk) (e : Exn),
    ArrayReadLoop Params n w = .error e → e = .undefined := by
  intro n
  induction n with
  | zero => intro w e h; simp only [ArrayReadLoop] at h; cases h
  | succ Depth ih =>
    intro w e h
    simp only [ArrayReadLoop] at h
    generalize hsc : scanMembers _ _ 0 = r at h
    cases r with
    | error e1 =>
      simp only at h
      cases h
      exact scanMembers_error _ _ _ _ hsc
    | ok o =>
      cases o with
      | none => simp only at h; exact ih _ _ h
      | some i =>
        simp only at h
        generalize hmi : (mapAt (mapTouch w.Arrays w.MemberName ArrayVariable.empty)
          w.MemberName ArrayVariable.empty).Members[i]? = q at h
        cases q with
        | none => simp only at h; cases h; rfl
        | some m => simp only at h; exact ih _ _ h

theorem ArrayRead_stepFrame (Handle : String) (Depth : Int) (s s' : NsbInterpreter)
    (h : finalState (ArrayRead Handle Depth s) = some s') :
    s'.Returns = s.Returns ∧ s.Params.length ≤ s'.Params.length := by
  unfold ArrayRead at h
  cases hw : ArrayReadLoop s.Params Depth.toNat ⟨Handle, none, s.Arrays⟩ with
  | error e =>
    rw [hw] at h; simp only at h
    rw [ArrayReadLoop_error _ _ _ e hw] at h
    simp only [finalState] at h; cases h
  | ok w =>
    rw [hw] at h; simp only at h
    cases hv : w.pVariable with
    | none =>
      rw [hv] at h; simp only [finalState, Option.some.injEq] at h; subst h
      exact ⟨rfl, le_refl _⟩
    | some t =>
      obtain ⟨arr, i, v⟩ := t
      rw [hv] at h; simp only [finalState, Option.some.injEq] at h; subst h
      exact ⟨rfl, by simp⟩

/-- The movie-time query leaves the Return Stack as it is. -/
theorem GetMovieTime_returns (Handle : String) (s : NsbInterpreter) :
    (GetMovieTime Handle s).Returns = s.Returns := by
  unfold GetMovieTime
  cases hd : readDrawable s Handle with
  | none => rfl
  | some k => cases k <;> rfl

/-- The `switch` of `ExecuteLine`, the movie-time query apart: the Return Stack is as
before and the Parameter Stack loses at most one value. -/
theorem ExecuteSwitch_stepFrame (l : Line) (s s' : NsbInterpreter)
    (hm : l.Magic ≠ Magic.MAGIC_GET_MOVIE_TIME)
    (h : finalState (ExecuteSwitch l s) = some s') : stepFrame s s' := by
  unfold ExecuteSwitch at h
  cases hmag : l.Magic <;> rw [hmag] at h <;> simp only at h
  case MAGIC_GET_MOVIE_TIME => exact absurd hmag hm
  case MAGIC_SET_PLACEHOLDER =>
    cases hg : s.Params.getLast? with
    | none => rw [hg] at h; simp only [finalState] at h; cases h
    | some v =>
      rw [hg] at h; simp only [finalState, Option.some.injEq] at h; subst h
      refine ⟨rfl, ?_⟩
      simp only [List.length_dropLast]
      omega
  case MAGIC_PLACEHOLDER_PARAM =>
    simp only [finalState, Option.some.injEq] at h; subst h
    exact ⟨rfl, by simp only [List.length_append, List.length_cons, List.length_nil]; omega⟩
  case MAGIC_ARRAY_READ =>
    cases ht : l.Params[0]? with
    | none => rw [ht] at h; simp only [finalState] at h; cases h
    | some hd =>
      rw [ht] at h; simp only at h
      cases hg : GetParam (T := Int) 1 s with
      | error e =>
        rw [hg] at h; simp only at h
        exact hostFrame_stepFrame (GetParam_keeps (T := Int) 1 s s' (by rw [hg]; cases e <;> exact h))
      | ok r =>
        obtain ⟨Depth, s1⟩ := r
        rw [hg] at h; simp only at h
        have h1 := GetParam_keeps (T := Int) 1 s s1 (by rw [hg]; rfl)
        have h2 := ArrayRead_stepFrame hd Depth s1 s' h
        refine ⟨h2.1.trans h1.1, ?_⟩
        have := h2.2
        rw [h1.2.1] at this
        omega
  case MAGIC_CREATE_ARRAY =>
    cases hd : s.Params.drop 1 with
    | nil => rw [hd] at h; simp only [finalState, Option.some.injEq] at h; subst h
             exact ⟨rfl, Nat.le_succ _⟩
    | cons v vs =>
      rw [hd] at h; simp only at h
      cases ht : l.Params[0]? with
      | none => rw [ht] at h; simp only [finalState] at h; cases h
      | some name =>
        rw [ht] at h; simp only [finalState, Option.some.injEq] at h; subst h
        exact ⟨rfl, Nat.le_succ _⟩
  case MAGIC_SLEEP_MS =>
    cases hp : s.Params[0]? with
    | none => rw [hp] at h; simp only [finalState] at h; cases h
    | some p =>
      rw [hp] at h; simp only at h
      cases hg : GetVariable (T := Int) p.Value s with
      | error e =>
        rw [hg] at h; simp only at h
        exact hostFrame_stepFrame
          (GetVariable_keeps (T := Int) p.Value s s' (by rw [hg]; cases e <;> exact h))
      | ok r =>
        obtain ⟨v, s1⟩ := r
        rw [hg] at h; simp only [finalState, Option.some.injEq] at h; subst h
        exact hostFrame_stepFrame (GetVariable_keeps (T := Int) p.Value s s1 (by rw [hg]; rfl))
  case MAGIC_UNK5 =>
    cases hp : s.Params with
    | nil => rw [hp] at h; simp only [finalState] at h; cases h
    | cons p rest =>
      rw [hp] at h; simp only [finalState, Option.some.injEq] at h; subst h
      exact ⟨rfl, by rw [hp]; simp only [List.length_cons]; omega⟩
  case MAGIC_SET =>
    cases ht : l.Params[0]? with
    | none => rw [ht] at h; simp only [finalState] at h; cases h
    | some name =>
      rw [ht] at h; simp only at h
      by_cases ha : name = "__array_variable__"
      · rw [if_pos ha] at h; simp only [finalState, Option.some.injEq] at h; subst h
        exact ⟨rfl, Nat.le_succ _⟩
      · rw [if_neg ha] at h
        cases hp : s.Params[0]? with
        | none => rw [hp] at h; simp only [finalState] at h; cases h
        | some v =>
          rw [hp] at h; simp only [finalState, Option.some.injEq] at h; subst h
          exact ⟨rfl, Nat.le_succ _⟩
  case MAGIC_GET =>
    cases ht : l.Params[0]? with
    | none => rw [ht] at h; simp only [finalState] at h; cases h
    | some name =>
      rw [ht] at h; simp only [finalState, Option.some.injEq] at h; subst h
      exact ⟨rfl, by simp only [List.length_append, List.length_cons, List.length_nil]; omega⟩
  case MAGIC_PARAM =>
    cases ht : l.Params[0]? with
    | none => rw [ht] at h; simp only [finalState] at h; cases h
    | some t =>
      cases hv : l.Params[1]? with
      | none => rw [ht, hv] at h; simp only [finalState] at h; cases h
      | some v =>
        rw [ht, hv] at h; simp only [finalState, Option.some.injEq] at h; subst h
        exact ⟨rfl, by simp only [List.length_append, List.length_cons, List.length_nil]; omega⟩
  case MAGIC_CALLBACK =>
    cases ht : l.Params[0]? with
    | none => rw [ht] at h; simp only [finalState] at h; cases h
    | some t =>
      cases hv : l.Params[1]? with
      | none => rw [ht, hv] at h; simp only [finalState] at h; cases h
      | some v =>
        rw [ht, hv] at h; simp only [finalState, Option.some.injEq] at h; subst h
        exact ⟨rfl, Nat.le_succ _⟩
  case MAGIC_APPLY_BLUR =>
    rw [finalState_run] at h
    exact hostFrame_stepFrame
      (Keeps_andThen _ _ (evalArgs_keeps _) (fun _ => GLCallback_keeps _) s s' h)
  case MAGIC_DISPLAY_TEXT => exact hostFrame_stepFrame (DisplayText_frame s s' h)
  case MAGIC_CREATE_BOX =>
    rw [finalState_run] at h
    exact hostFrame_stepFrame (Keeps_andThen _ _ (GetParam_keeps 0) (fun _ =>
      Keeps_andThen _ _ (setHandleName_keeps _) (fun _ => evalArgs_keeps _)) s s' h)
  case MAGIC_SET_TEXTBOX_ATTRIBUTES =>
    rw [finalState_run] at h; exact hostFrame_stepFrame (evalArgs_keeps _ s s' h)
  case MAGIC_SET_FONT_ATTRIBUTES =>
    rw [finalState_run] at h; exact hostFrame_stepFrame (evalArgs_keeps _ s s' h)
  case MAGIC_SET_AUDIO_STATE =>
    rw [finalState_run] at h; exact hostFrame_stepFrame (evalArgs_keeps _ s s' h)
  case MAGIC_SET_AUDIO_LOOP =>
    rw [finalState_run] at h; exact hostFrame_stepFrame (evalArgs_keeps _ s s' h)
  case MAGIC_START_ANIMATION =>
    rw [finalState_run] at h; exact hostFrame_stepFrame (evalArgs_keeps _ s s' h)
  case MAGIC_LOAD_AUDIO =>
    rw [finalState_run] at h
    exact hostFrame_stepFrame (Keeps_andThen _ _ (GetParam_keeps 0) (fun _ =>
      Keeps_andThen _ _ (GetParam_keeps 1) (fun _ =>
      Keeps_andThen _ _ (GetParam_keeps 2) (fun _ => LoadAudio_keeps _))) s s' h)
  case MAGIC_TEXT =>
    rw [finalState_run] at h
    exact hostFrame_stepFrame
      (Keeps_andThen _ _ (evalArgs_keeps _) (fun _ => GLCallback_keeps _) s s' h)
  case MAGIC_SET_DISPLAY_STATE =>
    rw [finalState_run] at h
    exact hostFrame_stepFrame (Keeps_andThen _ _ (GetParam_keeps 0) (fun _ =>
      Keeps_andThen _ _ (GetParam_keeps 1) (fun _ => SetDisplayState_keeps _ _)) s s' h)
  all_goals
    simp only [finalState, Option.some.injEq] at h
    subst h
    exact ⟨rfl, Nat.le_succ _⟩

/-- The movie-time query opcode leaves the Return Stack as it is. -/
theorem ExecuteSwitch_movie_returns (l : Line) (s s' : NsbInterpreter)
    (hm : l.Magic = Magic.MAGIC_GET_MOVIE_TIME)
    (h : finalState (ExecuteSwitch l s) = some s') : s'.Returns = s.Returns := by
  unfold ExecuteSwitch at h
  rw [hm] at h; simp only at h
  cases hg : GetParam (T := String) 0 s with
  | error e =>
    rw [hg] at h; simp only at h
    exact (GetParam_keeps (T := String) 0 s s' (by rw [hg]; cases e <;> exact h)).1
  | ok r =>
    obtain ⟨hd, s1⟩ := r
    rw [hg] at h; simp only [finalState, Option.some.injEq] at h; subst h
    rw [GetMovieTime_returns]
    exact (GetParam_keeps (T := String) 0 s s1 (by rw [hg]; rfl)).1

theorem NsbAssert_false_result (expr : Bool) (fmt : String) (args : List String)
    (s s1 : NsbInterpreter) (h : NsbAssert expr fmt args s = .ok (false, s1)) : s1 = s := by
  unfold NsbAssert at h
  cases expr with
  | true => simp only [if_true] at h; cases h; rfl
  | false =>
    simp only [Bool.false_eq_true, if_false] at h
    cases hc : Crash { s with cout := s.cout ++ NsbAssertPrint fmt.data args } with
    | error e => rw [hc] at h; simp only at h; cases h
    | ok s2 => rw [hc] at h; simp only at h; cases h

/-- The outcomes of `ExecuteLine`: a failed assertion stops the interpreter inside the
frame; otherwise the outcome is that of the registered handler of the opcode, or of the
`switch` when the opcode has none. -/
theorem ExecuteLine_outcome (s s' : NsbInterpreter)
    (h : finalState (ExecuteLine s) = some s') :
    hostFrame s s' ∨ ∃ l, s.pLine = some l ∧
      ((∃ f, Builtins l.Magic = some f ∧ finalState (f s) = some s') ∨
        (Builtins l.Magic = none ∧ finalState (ExecuteSwitch l s) = some s')) := by
  unfold ExecuteLine at h
  cases h1 : NsbAssert s.pScript.isSome "Interpreting null script" [] s with
  | error e =>
    rw [h1] at h; simp only at h
    rw [NsbAssert_error _ _ _ _ e h1] at h
    simp only [finalState] at h; cases h
  | ok r =>
    obtain ⟨b, s1⟩ := r
    have hf1 := (NsbAssert_frame _ _ _ s s1 (by rw [h1]; rfl)).1
    rw [h1] at h
    cases b with
    | true =>
      simp only [finalState, Option.some.injEq] at h; subst h
      exact Or.inl hf1
    | false =>
      simp only at h
      have e1 := NsbAssert_false_result _ _ _ _ _ h1
      subst e1
      cases h2 : NsbAssert s1.pLine.isSome "Interpreting null line" [] s1 with
      | error e =>
        rw [h2] at h; simp only at h
        rw [NsbAssert_error _ _ _ _ e h2] at h
        simp only [finalState] at h; cases h
      | ok r =>
        obtain ⟨b, s2⟩ := r
        have hf2 := (NsbAssert_frame _ _ _ s1 s2 (by rw [h2]; rfl)).1
        rw [h2] at h
        cases b with
        | true =>
          simp only [finalState, Option.some.injEq] at h; subst h
          exact Or.inl hf2
        | false =>
          simp only at h
          have e2 := NsbAssert_false_result _ _ _ _ _ h2
          subst e2
          cases hl : s2.pLine with
          | none => rw [hl] at h; simp only [finalState] at h; cases h
          | some l =>
            rw [hl] at h; simp only at h
            refine Or.inr ⟨l, rfl, ?_⟩
            cases hb : Builtins l.Magic with
            | none => rw [hb] at h; exact Or.inr ⟨rfl, h⟩
            | some f => rw [hb] at h; exact Or.inl ⟨f, rfl, h⟩

/-- The registered handlers other than `Call`, `End` and `ClearParams`: the Return Stack is
as before and the Parameter Stack loses at most one value. -/
theorem Builtins_stepFrame (m : Magic) (f : NsbInterpreter → Res NsbInterpreter)
    (s s' : NsbInterpreter) (hb : Builtins m = some f) (h1 : m ≠ Magic.MAGIC_CALL)
    (h2 : m ≠ Magic.MAGIC_END) (h3 : m ≠ Magic.MAGIC_FWN_UNK)
    (h4 : m ≠ Magic.MAGIC_CLEAR_PARAMS) (h5 : m ≠ Magic.MAGIC_UNK3)
    (h : finalState (f s) = some s') : stepFrame s s' := by
  cases m <;> simp only [Builtins, Option.some.injEq] at hb <;>
    first
    | exact absurd rfl h1
    | exact absurd rfl h2
    | exact absurd rfl h3
    | exact absurd rfl h4
    | exact absurd rfl h5
    | cases hb
  · exact hostFrame_stepFrame (DrawToTexture_frame s s' h)
  · exact hostFrame_stepFrame (CreateTexture_frame s s' h)
  · exact hostFrame_stepFrame (LoadMovie_frame s s' h)
  · exact hostFrame_stepFrame (ApplyMask_frame s s' h)
  · exact hostFrame_stepFrame (CreateColor_frame s s' h)
  · exact hostFrame_stepFrame (LoadTexture_frame s s' h)
  · exact Concat_stepFrame s s' h
  · exact hostFrame_stepFrame (Destroy_frame s s' h)
  · exact hostFrame_stepFrame (SetOpacity_frame s s' h)
  · exact BindIdentifier_stepFrame s s' h
  · exact Begin_stepFrame s s' h

theorem ClearParams_returns (s s' : NsbInterpreter)
    (h : finalState (ClearParams s) = some s') : s'.Returns = s.Returns := by
  simp only [ClearParams, finalState, Option.some.injEq] at h; subst h; rfl

/-! ## The claims on the frames of a step -/

/-- C22. Executing the clear-parameters opcode, in a state with an active module, returns
with the Parameter Stack, the Placeholder Queue and the list of array-read result
references empty; the Variable Store, the Array Table, the Return Stack, the active module
pointer, the module objects and with them the cursor of the active module are as before. -/
theorem ClearParams_clears_staging_only (s : NsbInterpreter) (l : Line)
    (hp : s.pScript.isSome = true) (hl : s.pLine = some l)
    (hm : l.Magic = Magic.MAGIC_CLEAR_PARAMS) :
    ExecuteLine s = .ok { s with Params := [], ArrayParams := [], Placeholders := [] } ∧
    ∃ s', ExecuteLine s = .ok s' ∧
      s'.Params = [] ∧ s'.Placeholders = [] ∧ s'.ArrayParams = [] ∧
      s'.Variables = s.Variables ∧ s'.Arrays = s.Arrays ∧ s'.Returns = s.Returns ∧
      s'.pScript = s.pScript ∧ s'.Files = s.Files ∧ cursor s' = cursor s := by
  have h : ExecuteLine s = .ok { s with Params := [], ArrayParams := [], Placeholders := [] } := by
    rw [ExecuteLine_builtin s l ClearParams hp hl (by rw [hm]; rfl)]
    rfl
  exact ⟨h, _, h, rfl, rfl, rfl, rfl, rfl, rfl, rfl, rfl, rfl⟩

/-- Witness of C22: the clear-parameters instruction in `exampleClear` empties the three
staging stores and keeps the two variables, the array, the frame and the cursor. -/
theorem ClearParams_clears_staging_only_witness :
    ∃ s', ExecuteLine exampleClear = .ok s' ∧
      s'.Params = [] ∧ s'.Placeholders = [] ∧ s'.ArrayParams = [] ∧
      s'.Variables = [("x", ⟨"INT", "5"⟩), ("y", ⟨"STRING", "abc"⟩)] ∧
      s'.Arrays = exampleClear.Arrays ∧ s'.Returns = [⟨some 1, 2⟩] ∧
      s'.pScript = some 0 ∧ s'.Files = exampleClear.Files ∧ cursor s' = some 0 :=
  (ClearParams_clears_staging_only exampleClear ⟨Magic.MAGIC_CLEAR_PARAMS, []⟩ rfl rfl rfl).2

/-- C23. For every instruction whose opcode is not Call and is not dispatched to `End`
(`MAGIC_END` and `MAGIC_FWN_UNK`), every state that the outcome of one step carries,
whether the step returns or a cast error escapes, and whether or not an assertion failed
and `Recover` ran on the way, has the Return Stack of the state before. -/
theorem Returns_changed_only_by_Call_and_End (s s' : NsbInterpreter) (l : Line)
    (hl : s.pLine = some l) (h1 : l.Magic ≠ Magic.MAGIC_CALL)
    (h2 : l.Magic ≠ Magic.MAGIC_END) (h3 : l.Magic ≠ Magic.MAGIC_FWN_UNK)
    (h : finalState (ExecuteLine s) = some s') : s'.Returns = s.Returns := by
  rcases ExecuteLine_outcome s s' h with hf | ⟨l', hl', ⟨f, hb, hf⟩ | ⟨hb, hf⟩⟩
  · exact hf.1
  · have e : l' = l := by rw [hl] at hl'; exact (Option.some.inj hl').symm
    subst e
    by_cases hc : l'.Magic = Magic.MAGIC_CLEAR_PARAMS ∨ l'.Magic = Magic.MAGIC_UNK3
    · have hf' : f = ClearParams := by
        rcases hc with hc | hc <;> rw [hc] at hb <;> exact (Option.some.inj hb).symm
      subst hf'
      exact ClearParams_returns s s' hf
    · exact (Builtins_stepFrame l'.Magic f s s' hb h1 h2 h3 (fun h => hc (Or.inl h))
        (fun h => hc (Or.inr h)) hf).1
  · have e : l' = l := by rw [hl] at hl'; exact (Option.some.inj hl').symm
    subst e
    by_cases hm : l'.Magic = Magic.MAGIC_GET_MOVIE_TIME
    · exact ExecuteSwitch_movie_returns l' s s' hm hf
    · exact (ExecuteSwitch_stepFrame l' s s' hm hf).1

/-- Witness of C23: in `exampleConcatFault` the concat instruction fails its assertion on
the types `INT` and `STRING`; `Crash` runs once, the cursor is moved by `Recover`, and the
frame on the Return Stack is still there. -/
theorem Returns_changed_only_by_Call_and_End_witness :
    ∃ s', finalState (ExecuteLine exampleConcatFault) = some s' ∧
      s'.Crashes = exampleConcatFault.Crashes + 1 ∧ cursor exampleConcatFault = some 1 ∧
      cursor s' = some 4 ∧ s'.Returns = [⟨some 1, 2⟩] :=
  ⟨_, rfl, rfl, rfl, rfl,
    Returns_changed_only_by_Call_and_End exampleConcatFault _ ⟨Magic.MAGIC_CONCAT, []⟩ rfl
      (by decide) (by decide) (by decide) rfl⟩

/-- Counterexample to C24 as stated: the movie-time query opcode is not the clear-parameters
opcode, `exampleMovieTime` has two staged values, and the step leaves the Parameter Stack
empty. -/
theorem Params_cleared_counterexample :
    Magic.MAGIC_GET_MOVIE_TIME ≠ Magic.MAGIC_CLEAR_PARAMS ∧
    exampleMovieTime.pLine = some ⟨Magic.MAGIC_GET_MOVIE_TIME, ["movie"]⟩ ∧
    exampleMovieTime.Params.length = 2 ∧
    ∃ s', ExecuteLine exampleMovieTime = .ok s' ∧ s'.Params = [] :=
  ⟨by decide, rfl, rfl, _, rfl, rfl⟩

/-- The text of an integer does not begin with `@`. -/
theorem lexical_cast_string_head (n : Int) :
    (lexical_cast_string n).data.head? ≠ some '@' := by
  unfold lexical_cast_string
  cases n with
  | ofNat m =>
    have hp := parseNat_toDigits m
    have hdata : (toString (Int.ofNat m)).data = Nat.toDigits 10 m := by
      show (Nat.repr m).data = _
      simp [Nat.repr, List.asString]
    rw [hdata]
    cases hd : Nat.toDigits 10 m with
    | nil => simp
    | cons c cs =>
      intro hc
      have hc' : c = '@' := by simpa using hc
      rw [hd, hc'] at hp
      simp [parseNat, parseDigits, digitValue] at hp
  | negSucc m =>
    have hdata : (toString (Int.negSucc m)).data = '-' :: Nat.toDigits 10 (m + 1) := by
      show ("-" ++ Nat.repr (m + 1)).data = _
      simp [Nat.repr, List.asString]
    rw [hdata]
    simp

/-- A `GetVariable` on an identifier that does not begin with `@` returns, and changes
nothing but `std::cout`. -/
theorem GetVariable_plain_returns {T : Type} [LexicalCast T] (Identifier : String)
    (s : NsbInterpreter) (h : Identifier.data.head? ≠ some '@') :
    ∃ (v : T) (s2 : NsbInterpreter), GetVariable (T := T) Identifier s = .ok (v, s2) ∧
      s2.Params = s.Params ∧ s2.Drawables = s.Drawables := by
  cases hf : mapFind s.Variables Identifier with
  | none =>
    cases hc : (LexicalCast.cast Identifier : Option T) with
    | none => exact ⟨_, _, GetVariable_miss_fail Identifier s h hf hc, rfl, rfl⟩
    | some v => exact ⟨_, _, GetVariable_miss_ok Identifier s v h hf hc, rfl, rfl⟩
  | some Var =>
    cases hc : (LexicalCast.cast Var.Value : Option T) with
    | none => exact ⟨_, _, GetVariable_hit_fail Identifier s Var h hf hc, rfl, rfl⟩
    | some v => exact ⟨_, _, GetVariable_hit_ok Identifier s Var v h hf hc, rfl, rfl⟩

theorem GetVariable_drawables {T : Type} [LexicalCast T] (Identifier : String)
    (s s' : NsbInterpreter) (h : stateOf (GetVariable (T := T) Identifier s) = some s') :
    s'.Drawables = s.Drawables := by
  rcases GetVariable_frame (T := T) Identifier s with ⟨v, hv⟩ | ⟨v, hv⟩ | hv <;>
    rw [hv] at h <;> simp only [stateOf, Option.some.injEq] at h <;> subst h <;> rfl

/-- An operand read leaves the cache of drawables as it is. -/
theorem GetParam_drawables {T : Type} [LexicalCast T] (Index : Nat) (s s' : NsbInterpreter)
    (h : stateOf (GetParam (T := T) Index s) = some s') : s'.Drawables = s.Drawables := by
  have via : ∀ r : Res (T × NsbInterpreter),
      r = (match s.pLine with
        | none => .error .undefined
        | some l =>
          match l.Params[Index]? with
          | none => .error .undefined
          | some tok => GetVariable tok s) → stateOf r = some s' →
        s'.Drawables = s.Drawables := by
    intro r hr h
    subst hr
    cases hl : s.pLine with
    | none => rw [hl] at h; simp only [stateOf] at h; cases h
    | some l =>
      rw [hl] at h; simp only at h
      cases ht : l.Params[Index]? with
      | none => rw [ht] at h; simp only [stateOf] at h; cases h
      | some tok => rw [ht] at h; simp only at h; exact GetVariable_drawables tok s s' h
  unfold GetParam at h
  simp only at h
  cases hp : s.Params[Index]? with
  | none => rw [hp] at h; exact via _ rfl h
  | some p =>
    rw [hp] at h; simp only at h
    by_cases hph : p.Ty = "PH"
    · rw [if_pos hph] at h
      cases hq : s.Placeholders with
      | nil => rw [hq] at h; exact via _ rfl h
      | cons Var rest =>
        rw [hq] at h; simp only at h
        cases hc : (LexicalCast.cast Var.Value : Option T) with
        | none => rw [hc] at h; simp only [stateOf, Option.some.injEq] at h; subst h; rfl
        | some v => rw [hc] at h; simp only [stateOf, Option.some.injEq] at h; subst h; rfl
    · rw [if_neg hph] at h; exact via _ rfl h

/-- The movie-time query on a movie: the staged values are cleared and the duration is
staged; nothing else but the Parameter Stack changes. -/
theorem GetMovieTime_movie (Handle : String) (s : NsbInterpreter) (ms : Int)
    (h : readDrawable s Handle = some (DrawableKind.movie ms)) :
    GetMovieTime Handle s = { s with Params := [⟨"INT", lexical_cast_string ms⟩] } := by
  unfold GetMovieTime
  rw [h]

/-- The movie-time query on a handle that is not a movie: the staged values are cleared and
nothing is staged. -/
theorem GetMovieTime_no_movie (Handle : String) (s : NsbInterpreter)
    (h : ∀ ms, readDrawable s Handle ≠ some (DrawableKind.movie ms)) :
    (GetMovieTime Handle s).Params = [] := by
  unfold GetMovieTime
  cases hd : readDrawable s Handle with
  | none => rfl
  | some k =>
    cases k with
    | movie ms => exact absurd hd (h ms)
    | text => rfl
    | other => rfl

/-- The movie-time query opcode: the handle is read, then `GetMovieTime` runs. -/
theorem ExecuteLine_movie_time (s : NsbInterpreter) (l : Line) (Handle : String)
    (s1 : NsbInterpreter) (hp : s.pScript.isSome = true) (hl : s.pLine = some l)
    (hm : l.Magic = Magic.MAGIC_GET_MOVIE_TIME)
    (hg : GetParam (T := String) 0 s = .ok (Handle, s1)) :
    ExecuteLine s = .ok (GetMovieTime Handle s1) := by
  rw [ExecuteLine_switch s l hp hl (by rw [hm]; rfl)]
  unfold ExecuteSwitch
  rw [hm]; simp only
  rw [hg]

/-- The override `MovieWaitSG` of `Call` when its handle is a movie: the call returns with
the duration as the only staged value. -/
theorem Call_override_movie (s : NsbInterpreter) (l : Line) (tok : String) (ms : Int)
    (hl : s.pLine = some l) (ht : l.Params[0]? = some tok) (ho : c_str tok = "MovieWaitSG")
    (hd : readDrawable s "ムービー" = some (DrawableKind.movie ms)) :
    ∃ s' : NsbInterpreter, Call s = .ok s' ∧ s'.Params = [⟨"INT", lexical_cast_string ms⟩] := by
  have hp0 : (GetMovieTime "ムービー" s).Params[0]? =
      some (⟨"INT", lexical_cast_string ms⟩ : Variable) := by
    rw [GetMovieTime_movie _ _ _ hd]
    exact List.getElem?_cons_zero
  obtain ⟨v, s2, hg, hpar, -⟩ := GetVariable_plain_returns (T := Int) (lexical_cast_string ms)
    (GetMovieTime "ムービー" s) (lexical_cast_string_head ms)
  have hcall : Call s = .ok { s2 with
      GLCallbacks := s2.GLCallbacks ++ ["Game::RemoveDrawable ムービー"] } := by
    unfold Call
    rw [hl]; simp only
    rw [ht]; simp only
    rw [if_pos ho, hp0]; simp only
    rw [hg]
  refine ⟨_, hcall, ?_⟩
  show s2.Params = _
  rw [hpar, GetMovieTime_movie _ _ _ hd]

/-- The override `MovieWaitSG` of `Call` when its handle is not a movie: the staged values
are cleared and `Params[0]` of the empty vector is read. -/
theorem Call_override_no_movie (s : NsbInterpreter) (l : Line) (tok : String)
    (hl : s.pLine = some l) (ht : l.Params[0]? = some tok) (ho : c_str tok = "MovieWaitSG")
    (hd : ∀ ms, readDrawable s "ムービー" ≠ some (DrawableKind.movie ms)) :
    Call s = .error .undefined := by
  have hp0 : (GetMovieTime "ムービー" s).Params[0]? = none := by
    rw [GetMovieTime_no_movie _ _ hd]
    rfl
  unfold Call
  rw [hl]; simp only
  rw [ht]; simp only
  rw [if_pos ho, hp0]

/-- C24 (amended). For every state with at least two staged values and every instruction
other than the two opcodes dispatched to `ClearParams` (the clear-parameters opcode and
`MAGIC_UNK3`), the movie-time query and a Call of the override `MovieWaitSG`, no state
that the outcome of one step carries has an empty Parameter Stack. The movie-time query,
once its handle is read, returns with the state of `GetMovieTime`: the Parameter Stack is
exactly the duration of the movie when the handle is a movie, and is empty when it is not.
A Call of `MovieWaitSG` runs the same query on its own handle: when that handle is a movie
the step returns with exactly the duration staged; when it is not, the staged values are
cleared and the read of `Params[0]` that follows is undefined behaviour. -/
theorem Params_cleared_only_by_clear_and_movie_time :
    (∀ (s s' : NsbInterpreter) (l : Line), s.pLine = some l →
      l.Magic ≠ Magic.MAGIC_CLEAR_PARAMS → l.Magic ≠ Magic.MAGIC_UNK3 →
      l.Magic ≠ Magic.MAGIC_GET_MOVIE_TIME →
      (l.Magic = Magic.MAGIC_CALL → ∀ tok, l.Params[0]? = some tok →
        c_str tok ≠ "MovieWaitSG") →
      2 ≤ s.Params.length → finalState (ExecuteLine s) = some s' → s'.Params ≠ []) ∧
    (∀ (s s1 : NsbInterpreter) (l : Line) (Handle : String), s.pScript.isSome = true →
      s.pLine = some l → l.Magic = Magic.MAGIC_GET_MOVIE_TIME →
      GetParam (T := String) 0 s = .ok (Handle, s1) →
      ExecuteLine s = .ok (GetMovieTime Handle s1) ∧
      (∀ ms, readDrawable s Handle = some (DrawableKind.movie ms) →
        (GetMovieTime Handle s1).Params = [⟨"INT", lexical_cast_string ms⟩]) ∧
      ((∀ ms, readDrawable s Handle ≠ some (DrawableKind.movie ms)) →
        (GetMovieTime Handle s1).Params = [])) ∧
    (∀ (s : NsbInterpreter) (l : Line) (tok : String), s.pScript.isSome = true →
      s.pLine = some l → l.Magic = Magic.MAGIC_CALL → l.Params[0]? = some tok →
      c_str tok = "MovieWaitSG" →
      (∀ ms, readDrawable s "ムービー" = some (DrawableKind.movie ms) →
        ∃ s' : NsbInterpreter, ExecuteLine s = .ok s' ∧
          s'.Params = [⟨"INT", lexical_cast_string ms⟩]) ∧
      ((∀ ms, readDrawable s "ムービー" ≠ some (DrawableKind.movie ms)) →
        (GetMovieTime "ムービー" s).Params = [] ∧ ExecuteLine s = .error .undefined)) := by
  refine ⟨?_, ?_, ?_⟩
  · intro s s' l hl h1 h2 h3 _ hn h
    have hne : s.Params ≠ [] := by
      intro h0; rw [h0] at hn; simp at hn
    have fromStep : stepFrame s s' → s'.Params ≠ [] := by
      intro hs h0
      have := hs.2
      rw [h0] at this
      simp only [List.length_nil] at this
      omega
    rcases ExecuteLine_outcome s s' h with hf | ⟨l', hl', ⟨f, hb, hf⟩ | ⟨hb, hf⟩⟩
    · rw [hf.2.1]; exact hne
    · have e : l' = l := by rw [hl] at hl'; exact (Option.some.inj hl').symm
      subst e
      by_cases hc : l'.Magic = Magic.MAGIC_CALL
      · have hf' : f = Call := by rw [hc] at hb; exact (Option.some.inj hb).symm
        subst hf'
        exact Call_params s s' hne hf
      · by_cases he : l'.Magic = Magic.MAGIC_END ∨ l'.Magic = Magic.MAGIC_FWN_UNK
        · have hf' : f = End := by
            rcases he with he | he <;> rw [he] at hb <;> exact (Option.some.inj hb).symm
          subst hf'
          rw [End_params s s' hf]; exact hne
        · exact fromStep (Builtins_stepFrame l'.Magic f s s' hb hc (fun h => he (Or.inl h))
            (fun h => he (Or.inr h)) h1 h2 hf)
    · have e : l' = l := by rw [hl] at hl'; exact (Option.some.inj hl').symm
      subst e
      exact fromStep (ExecuteSwitch_stepFrame l' s s' h3 hf)
  · intro s s1 l Handle hp hl hm hg
    have hdr : s1.Drawables = s.Drawables :=
      GetParam_drawables (T := String) 0 s s1 (by rw [hg]; rfl)
    have hrd : readDrawable s1 Handle = readDrawable s Handle := by
      unfold readDrawable
      rw [hdr]
    refine ⟨ExecuteLine_movie_time s l Handle s1 hp hl hm hg, ?_, ?_⟩
    · intro ms hd
      rw [GetMovieTime_movie Handle s1 ms (hrd.trans hd)]
    · intro hd
      exact GetMovieTime_no_movie Handle s1 (fun ms h => hd ms (hrd.symm.trans h))
  · intro s l tok hp hl hm ht ho
    have hex : ExecuteLine s = Call s := ExecuteLine_builtin s l Call hp hl (by rw [hm]; rfl)
    refine ⟨?_, ?_⟩
    · intro ms hd
      rw [hex]
      exact Call_override_movie s l tok ms hl ht ho hd
    · intro hd
      rw [hex]
      exact ⟨GetMovieTime_no_movie _ s hd, Call_override_no_movie s l tok hl ht ho hd⟩

/-- Witness of C24 (amended). The set-placeholder instruction in `exampleSetPlaceholder`,
which has two staged values, leaves one. The movie-time query leaves nothing in
`exampleMovieTime`, where the handle has no drawable, and the duration in
`exampleMovieTimeHit`, where it is a movie of 1500 milliseconds. The call of `MovieWaitSG`
leaves the duration in `exampleMovieWait` and is undefined in `exampleMovieWaitMiss`, where
the handle is a `Text`. -/
theorem Params_cleared_only_by_clear_and_movie_time_witness :
    (exampleSetPlaceholder.Params.length = 2 ∧
      ∃ s', finalState (ExecuteLine exampleSetPlaceholder) = some s' ∧
        s'.Params = [⟨"STRING", "a"⟩] ∧ s'.Params ≠ []) ∧
    (exampleMovieTime.Params.length = 2 ∧
      ExecuteLine exampleMovieTime = .ok (GetMovieTime "movie" exampleMovieTime) ∧
      (GetMovieTime "movie" exampleMovieTime).Params = []) ∧
    (exampleMovieTimeHit.Params.length = 2 ∧
      ExecuteLine exampleMovieTimeHit = .ok (GetMovieTime "movie" exampleMovieTimeHit) ∧
      (GetMovieTime "movie" exampleMovieTimeHit).Params = [⟨"INT", "1500"⟩]) ∧
    (exampleMovieWait.Params.length = 2 ∧
      ∃ s' : NsbInterpreter, ExecuteLine exampleMovieWait = .ok s' ∧
        s'.Params = [⟨"INT", "1500"⟩]) ∧
    (exampleMovieWaitMiss.Params.length = 2 ∧
      (GetMovieTime "ムービー" exampleMovieWaitMiss).Params = [] ∧
      ExecuteLine exampleMovieWaitMiss = .error .undefined) := by
  have hmiss : ∀ ms, readDrawable exampleMovieTime "movie" ≠ some (DrawableKind.movie ms) := by
    intro ms h
    have e : readDrawable exampleMovieTime "movie" = none := rfl
    rw [e] at h
    cases h
  have hwait : ∀ ms,
      readDrawable exampleMovieWaitMiss "ムービー" ≠ some (DrawableKind.movie ms) := by
    intro ms h
    have e : readDrawable exampleMovieWaitMiss "ムービー" = some DrawableKind.text := rfl
    rw [e] at h
    cases h
  have h2 := Params_cleared_only_by_clear_and_movie_time.2.1 exampleMovieTime exampleMovieTime
    ⟨Magic.MAGIC_GET_MOVIE_TIME, ["movie"]⟩ "movie" rfl rfl rfl rfl
  have h3 := Params_cleared_only_by_clear_and_movie_time.2.1 exampleMovieTimeHit
    exampleMovieTimeHit ⟨Magic.MAGIC_GET_MOVIE_TIME, ["movie"]⟩ "movie" rfl rfl rfl rfl
  have h4 := Params_cleared_only_by_clear_and_movie_time.2.2 exampleMovieWait
    ⟨Magic.MAGIC_CALL, ["MovieWaitSG"]⟩ "MovieWaitSG" rfl rfl rfl rfl (by decide)
  have h5 := Params_cleared_only_by_clear_and_movie_time.2.2 exampleMovieWaitMiss
    ⟨Magic.MAGIC_CALL, ["MovieWaitSG"]⟩ "MovieWaitSG" rfl rfl rfl rfl (by decide)
  exact ⟨⟨rfl, _, rfl, rfl,
      Params_cleared_only_by_clear_and_movie_time.1 exampleSetPlaceholder _
        ⟨Magic.MAGIC_SET_PLACEHOLDER, []⟩ rfl (by decide) (by decide) (by decide)
        (fun h => absurd h (by decide)) (by decide) rfl⟩,
    ⟨rfl, h2.1, h2.2.2 hmiss⟩,
    ⟨rfl, h3.1, h3.2.1 1500 rfl⟩,
    ⟨rfl, h4.1 1500 rfl⟩,
    ⟨rfl, h5.2 hwait⟩⟩

/-- A returning `Concat` leaves one staged value less than it found. -/
theorem Concat_length (s s' : NsbInterpreter) (h : Concat s = .ok s') :
    s'.Params.length + 1 = s.Params.length := by
  unfold Concat at h
  by_cases hlen : s.Params.length < 2
  · rw [if_pos hlen] at h; cases h
  · rw [if_neg hlen] at h
    simp only at h
    cases ha : s.Params[s.Params.length - 2]? with
    | none => rw [ha] at h; simp only at h; cases h
    | some a =>
      cases hb : s.Params[s.Params.length - 1]? with
      | none => rw [ha, hb] at h; simp only at h; cases h
      | some b =>
        rw [ha, hb] at h; simp only at h
        cases hn : NsbAssert (decide (a.Ty = b.Ty))
            "Concating params of different types (% and %)" [a.Ty, b.Ty] s with
        | error e => rw [hn] at h; simp only at h; cases h
        | ok r =>
          obtain ⟨c, s1⟩ := r
          rw [hn] at h; simp only at h
          have hfr := (NsbAssert_frame _ _ _ s s1 (by rw [hn]; rfl)).1
          have hlen1 : s1.Params.length = s.Params.length := by rw [hfr.2.1]
          by_cases hint : a.Ty = "INT" ∧ b.Ty = "INT"
          · rw [if_pos hint] at h
            cases hx : lexical_cast_int32 a.Value with
            | none => rw [hx] at h; simp only at h; cases h
            | some x =>
              cases hy : lexical_cast_int32 b.Value with
              | none => rw [hx, hy] at h; simp only at h; cases h
              | some y =>
                rw [hx, hy] at h; simp only [Except.ok.injEq] at h; subst h
                simp only [List.length_take, List.length_set, hlen1]
                omega
          · rw [if_neg hint] at h
            simp only [Except.ok.injEq] at h; subst h
            simp only [List.length_take, List.length_set, hlen1]
            omega

/-! ## The claims on the error paths -/

/-- C25. `Concat` is not atomic on a fault. When the last two staged values `a` and `b`
have different types, in a state whose active module and frames are valid, `Concat` calls
`Crash` once and then still returns, with the payload of `a` followed by the payload of
`b` in the place of `a` and with `b` removed: the stack is one shorter. Every return of
`Concat`, with or without a fault, leaves the stack exactly one shorter. -/
theorem Concat_not_atomic_on_fault (s : NsbInterpreter) (pre : List Variable) (a b : Variable)
    (i : Nat) (f : NsbFile) (hparams : s.Params = pre ++ [a, b]) (hty : a.Ty ≠ b.Ty)
    (hp : s.pScript = some i) (hf : s.Files[i]? = some f)
    (hr : ∀ fr ∈ s.Returns, validPtr s fr.pScript) :
    (∃ s' : NsbInterpreter, Concat s = .ok s' ∧ s'.Crashes = s.Crashes + 1 ∧
      s'.Params = pre ++ [{ a with Value := a.Value ++ b.Value }] ∧
      s'.Params.length + 1 = s.Params.length) ∧
    ∀ t t' : NsbInterpreter, Concat t = .ok t' → t'.Params.length + 1 = t.Params.length := by
  refine ⟨?_, Concat_length⟩
  obtain ⟨t, ht⟩ := Concat_mismatch s pre a b i f hparams hty hp hf hr
  refine ⟨_, ht, rfl, rfl, ?_⟩
  rw [hparams]
  simp only [List.length_append, List.length_cons, List.length_nil]

/-- Witness of C25: in `exampleConcatFault` the staged values `INT 1` and `STRING a` become
the one value `INT 1a`, after one call of `Crash`. -/
theorem Concat_not_atomic_on_fault_witness :
    ∃ s' : NsbInterpreter, Concat exampleConcatFault = .ok s' ∧
      s'.Crashes = exampleConcatFault.Crashes + 1 ∧ s'.Params = [⟨"INT", "1a"⟩] ∧
      s'.Params.length + 1 = exampleConcatFault.Params.length :=
  (Concat_not_atomic_on_fault exampleConcatFault [] ⟨"INT", "1"⟩ ⟨"STRING", "a"⟩ 0
    { exampleMain with SourceIter := 1 } rfl (by decide) rfl rfl
    (by
      intro fr hfr
      have : fr = ⟨some 1, 2⟩ := by simpa [exampleConcatFault] using hfr
      rw [this]
      exact ⟨1, rfl, by decide⟩)).1

/-- C26. For an identifier made of `@` and a non-empty rest that does not cast to
`int32_t`, `GetVariable<int32_t>` does not return: the `bad_lexical_cast` of the
immediate-literal branch escapes to the caller, with the state as it was. The same text
without the leading `@`, when it is not a key of the store, fails softly: 0 is returned
and the message is printed. -/
theorem GetVariable_immediate_error_escapes (rest : String) (s : NsbInterpreter)
    (hne : rest ≠ "") (hc : lexical_cast_int32 rest = none) :
    GetVariable (T := Int) ("@" ++ rest) s = .error (.bad_lexical_cast s) ∧
    (∀ (v : Int) (s' : NsbInterpreter), GetVariable (T := Int) ("@" ++ rest) s ≠ .ok (v, s')) ∧
    (rest.data.head? ≠ some '@' → mapFind s.Variables rest = none →
      GetVariable (T := Int) rest s = .ok (0,
        { s with cout := s.cout ++ "Failed to cast " ++ rest ++ " to correct type.\n" })) := by
  have hd : ("@" ++ rest).data = '@' :: rest.data := rfl
  have h0 : "@" ++ rest ≠ "@" := by
    intro h
    have h2 : ("@" ++ rest).data = "@".data := by rw [h]
    rw [hd] at h2
    have h3 : rest.data = [] := (List.cons.inj h2).2
    apply hne
    cases rest with
    | mk cs => simp only at h3; rw [h3]
  have h1 : ("@" ++ rest).data.head? = some '@' := by rw [hd]; rfl
  have hcast : (LexicalCast.cast (String.mk (("@" ++ rest).data.drop 1)) : Option Int) = none := by
    rw [hd]
    exact hc
  have hthrow := GetVariable_immediate_throw (T := Int) ("@" ++ rest) s h0 h1 hcast
  refine ⟨hthrow, ?_, ?_⟩
  · intro v s' h
    rw [hthrow] at h
    cases h
  · intro hh hm
    exact GetVariable_miss_fail (T := Int) rest s hh hm hc

/-- Witness of C26: in `exampleVariables` the identifier `@abc` throws, and `abc` yields 0
with the message. -/
theorem GetVariable_immediate_error_escapes_witness :
    GetVariable (T := Int) "@abc" exampleVariables = .error (.bad_lexical_cast exampleVariables) ∧
    GetVariable (T := Int) "abc" exampleVariables = .ok (0,
      { exampleVariables with cout := "Failed to cast abc to correct type.\n" }) :=
  ⟨(GetVariable_immediate_error_escapes "abc" exampleVariables (by decide) rfl).1,
    (GetVariable_immediate_error_escapes "abc" exampleVariables (by decide) rfl).2.2
      (by decide) rfl⟩

/-- C27. When the fetch of the active module answers end-of-stream, in a state whose active
module and frames are valid, one iteration of the interpreter loop returns: the assertion
on the current instruction fails, `Crash` is called exactly once, the stop flag is set, and
the Variable Store, the Parameter Stack, the Placeholder Queue, the Array Table and the
Return Stack are as before. -/
theorem FetchExecute_end_of_stream (s : NsbInterpreter) (i : Nat) (f : NsbFile)
    (hp : s.pScript = some i) (hf : s.Files[i]? = some f)
    (hr : ∀ fr ∈ s.Returns, validPtr s fr.pScript) (hn : nextLine s = none) :
    ∃ s' : NsbInterpreter, FetchExecute s = .ok s' ∧ s'.Crashes = s.Crashes + 1 ∧
      s'.StopInterpreter = true ∧ s'.Variables = s.Variables ∧ s'.Params = s.Params ∧
      s'.Placeholders = s.Placeholders ∧ s'.Arrays = s.Arrays ∧ s'.Returns = s.Returns := by
  have hline : f.GetNextLine.1 = none := by
    unfold nextLine at hn
    rw [hp] at hn; simp only at hn
    rw [hf] at hn; simp only at hn
    exact hn
  have hi : i < s.Files.length := by
    rcases List.getElem?_eq_some_iff.mp hf with ⟨hlt, _⟩
    exact hlt
  obtain ⟨s1, hs1⟩ : ∃ s1 : NsbInterpreter,
      s1 = { setFile s i f.GetNextLine.2 with pLine := f.GetNextLine.1 } := ⟨_, rfl⟩
  have hfe : FetchExecute s = ExecuteLine s1 := by
    unfold FetchExecute
    rw [hp]; simp only
    rw [hf]; simp only
    rw [hs1]
  have hp1 : s1.pScript = some i := by rw [hs1]; exact hp
  have hl1 : s1.pLine = none := by rw [hs1]; exact hline
  have hf1 : s1.Files[i]? = some f.GetNextLine.2 := by
    rw [hs1]
    show (s.Files.set i f.GetNextLine.2)[i]? = some f.GetNextLine.2
    simp [hi]
  have hr1 : ∀ fr ∈ s1.Returns, validPtr s1 fr.pScript := by
    intro fr hfr
    have hlen : s1.Files.length = s.Files.length := by
      rw [hs1]
      show (s.Files.set i f.GetNextLine.2).length = s.Files.length
      simp
    have hfr' : fr ∈ s.Returns := by rw [hs1] at hfr; exact hfr
    exact (validPtr_congr hlen fr.pScript).2 (hr fr hfr')
  obtain ⟨t, ht⟩ := NsbAssert_fail_ok s1 i f.GetNextLine.2 "Interpreting null line" [] hp1 hf1 hr1
  have hex : ExecuteLine s1 = .ok (Stop { s1 with
      cout := s1.cout ++ t
      Crashes := s1.Crashes + 1
      Files := s1.Files.set i (recovered f.GetNextLine.2) }) := by
    unfold ExecuteLine
    have e1 : s1.pScript.isSome = true := by rw [hp1]; rfl
    have e2 : s1.pLine.isSome = false := by rw [hl1]; rfl
    rw [e1, NsbAssert_pass]
    simp only
    rw [e2, ht]
  refine ⟨_, hfe.trans hex, ?_, rfl, ?_, ?_, ?_, ?_, ?_⟩ <;> rw [hs1] <;> rfl

/-- Witness of C27: in `exampleEndOfStream` the cursor is past the last instruction; the
step calls `Crash` once, sets the stop flag and keeps the five stores. -/
theorem FetchExecute_end_of_stream_witness :
    nextLine exampleEndOfStream = none ∧
    ∃ s' : NsbInterpreter, FetchExecute exampleEndOfStream = .ok s' ∧
      s'.Crashes = exampleEndOfStream.Crashes + 1 ∧ s'.StopInterpreter = true ∧
      s'.Variables = exampleEndOfStream.Variables ∧ s'.Params = exampleEndOfStream.Params ∧
      s'.Placeholders = exampleEndOfStream.Placeholders ∧
      s'.Arrays = exampleEndOfStream.Arrays ∧ s'.Returns = exampleEndOfStream.Returns :=
  ⟨rfl, FetchExecute_end_of_stream exampleEndOfStream 0 { exampleMain with SourceIter := 8 }
    rfl rfl
    (by
      intro fr hfr
      have : fr = ⟨some 1, 2⟩ := by simpa [exampleEndOfStream, initState] using hfr
      rw [this]
      exact ⟨1, rfl, by decide⟩)
    rfl⟩

/-! ## The variable store under set and get -/

/-- The keys after `m[k] = v`: those before, with `k` added at the back when it was absent. -/
theorem mapSet_keys {α : Type} (m : List (String × α)) (k : String) (v : α) :
    (mapSet m k v).map Prod.fst =
      if k ∈ m.map Prod.fst then m.map Prod.fst else m.map Prod.fst ++ [k] := by
  induction m with
  | nil => simp [mapSet]
  | cons e m ih =>
    simp only [mapSet]
    by_cases he : e.1 = k
    · rw [if_pos he]
      simp [he]
    · rw [if_neg he]
      have hne : k ≠ e.1 := fun h => he h.symm
      simp only [List.map_cons, ih, List.mem_cons, hne, false_or]
      by_cases hk : k ∈ m.map Prod.fst
      · rw [if_pos hk, if_pos hk]
      · rw [if_neg hk, if_neg hk]; rfl

theorem mapSet_keys_nodup {α : Type} (m : List (String × α)) (k : String) (v : α)
    (h : (m.map Prod.fst).Nodup) : ((mapSet m k v).map Prod.fst).Nodup := by
  rw [mapSet_keys]
  by_cases hk : k ∈ m.map Prod.fst
  · rw [if_pos hk]; exact h
  · rw [if_neg hk]
    rw [List.nodup_append]
    refine ⟨h, List.nodup_singleton k, ?_⟩
    intro a ha hb
    have : a = k := by simpa using hb
    exact hk (this ▸ ha)

theorem mapSet_keys_mem {α : Type} (m : List (String × α)) (k : String) (v : α) :
    k ∈ (mapSet m k v).map Prod.fst := by
  rw [mapSet_keys]
  by_cases hk : k ∈ m.map Prod.fst
  · rw [if_pos hk]; exact hk
  · rw [if_neg hk]; simp

/-- The set opcode on a name other than `__array_variable__` stores the first staged
value under the name. -/
theorem ExecuteLine_set (s : NsbInterpreter) (l : Line) (name : String) (v : Variable)
    (hp : s.pScript.isSome = true) (hl : s.pLine = some l) (hm : l.Magic = Magic.MAGIC_SET)
    (hn : l.Params[0]? = some name) (hname : name ≠ "__array_variable__")
    (hv : s.Params[0]? = some v) : ExecuteLine s = .ok (SetVariable name v s) := by
  rw [ExecuteLine_switch s l hp hl (by rw [hm]; rfl)]
  unfold ExecuteSwitch
  rw [hm]; simp only
  rw [hn]; simp only
  rw [if_neg hname, hv]

/-- The get opcode evaluates `Variables[name]` and stages the value. -/
theorem ExecuteLine_get (s : NsbInterpreter) (l : Line) (name : String)
    (hp : s.pScript.isSome = true) (hl : s.pLine = some l) (hm : l.Magic = Magic.MAGIC_GET)
    (hn : l.Params[0]? = some name) :
    ExecuteLine s = .ok { s with
      Variables := mapTouch s.Variables name Variable.empty
      Params := s.Params ++ [mapAt s.Variables name Variable.empty] } := by
  rw [ExecuteLine_switch s l hp hl (by rw [hm]; rfl)]
  unfold ExecuteSwitch
  rw [hm]; simp only
  rw [hn]

/-- C21. Last write wins. For a name other than `__array_variable__`, in a state with an
active module whose store has unique keys: the set opcode for the name with `v1` as the
first staged value, then the set opcode with `v2` as the first staged value, then the get
opcode for the name all return, and the get stages `v2` at the back of the Parameter
Stack; the store then maps the name to `v2`, has exactly one entry for the name, has
unique keys, and maps every other key as the store before the first set did. -/
theorem set_set_get_last_write_wins (s : NsbInterpreter) (lset lget : Line) (name : String)
    (v1 v2 : Variable) (rest1 rest2 rest3 : List Variable) (hp : s.pScript.isSome = true)
    (hset : lset.Magic = Magic.MAGIC_SET) (hsetn : lset.Params[0]? = some name)
    (hget : lget.Magic = Magic.MAGIC_GET) (hgetn : lget.Params[0]? = some name)
    (hname : name ≠ "__array_variable__") (huniq : (s.Variables.map Prod.fst).Nodup) :
    ∃ sa sb sc : NsbInterpreter,
      ExecuteLine { s with pLine := some lset, Params := v1 :: rest1 } = .ok sa ∧
      ExecuteLine { sa with pLine := some lset, Params := v2 :: rest2 } = .ok sb ∧
      ExecuteLine { sb with pLine := some lget, Params := rest3 } = .ok sc ∧
      sc.Params = rest3 ++ [v2] ∧ mapFind sc.Variables name = some v2 ∧
      (sc.Variables.map Prod.fst).count name = 1 ∧ (sc.Variables.map Prod.fst).Nodup ∧
      ∀ k, k ≠ name → mapFind sc.Variables k = mapFind s.Variables k := by
  obtain ⟨V2, hV2⟩ : ∃ V2, V2 = mapSet (mapSet s.Variables name v1) name v2 := ⟨_, rfl⟩
  have hfind : mapFind V2 name = some v2 := by rw [hV2]; exact mapFind_mapSet_same _ _ _
  have htouch := mapTouch_of_find V2 name Variable.empty v2 hfind
  have hnd : (V2.map Prod.fst).Nodup := by
    rw [hV2]; exact mapSet_keys_nodup _ _ _ (mapSet_keys_nodup _ _ _ huniq)
  have hmem : name ∈ V2.map Prod.fst := by rw [hV2]; exact mapSet_keys_mem _ _ _
  have hother : ∀ k, k ≠ name → mapFind V2 k = mapFind s.Variables k := by
    intro k hk
    rw [hV2, mapFind_mapSet_other _ _ _ _ hk, mapFind_mapSet_other _ _ _ _ hk]
  refine ⟨_, _, _,
    ExecuteLine_set { s with pLine := some lset, Params := v1 :: rest1 } lset name v1 hp rfl
      hset hsetn hname (List.getElem?_cons_zero),
    ExecuteLine_set { SetVariable name v1 { s with pLine := some lset, Params := v1 :: rest1 } with
      pLine := some lset, Params := v2 :: rest2 } lset name v2 hp rfl hset hsetn hname
      (List.getElem?_cons_zero),
    ExecuteLine_get _ lget name hp rfl hget hgetn, ?_, ?_, ?_, ?_, ?_⟩
  · show rest3 ++ [mapAt (mapSet (mapSet s.Variables name v1) name v2) name Variable.empty] =
      rest3 ++ [v2]
    rw [← hV2, htouch.2]
  · show mapFind (mapTouch (mapSet (mapSet s.Variables name v1) name v2) name Variable.empty)
      name = some v2
    rw [← hV2, htouch.1]; exact hfind
  · show ((mapTouch (mapSet (mapSet s.Variables name v1) name v2) name
      Variable.empty).map Prod.fst).count name = 1
    rw [← hV2, htouch.1]
    exact List.count_eq_one_of_mem hnd hmem
  · show ((mapTouch (mapSet (mapSet s.Variables name v1) name v2) name
      Variable.empty).map Prod.fst).Nodup
    rw [← hV2, htouch.1]; exact hnd
  · intro k hk
    show mapFind (mapTouch (mapSet (mapSet s.Variables name v1) name v2) name Variable.empty)
      k = mapFind s.Variables k
    rw [← hV2, htouch.1]; exact hother k hk

/-- Witness of C21: in `exampleVariables`, where `x` holds `INT 5`, setting `x` to `INT 1`
and then to `STRING two` and getting `x` stages `STRING two`; the store still has the two
keys `x` and `y`, and `y` holds `STRING abc`. -/
theorem set_set_get_last_write_wins_witness :
    ∃ sa sb sc : NsbInterpreter,
      ExecuteLine { exampleVariables with
        pLine := some ⟨Magic.MAGIC_SET, ["x"]⟩, Params := [⟨"INT", "1"⟩] } = .ok sa ∧
      ExecuteLine { sa with
        pLine := some ⟨Magic.MAGIC_SET, ["x"]⟩, Params := [⟨"STRING", "two"⟩] } = .ok sb ∧
      ExecuteLine { sb with pLine := some ⟨Magic.MAGIC_GET, ["x"]⟩, Params := [] } = .ok sc ∧
      sc.Params = [⟨"STRING", "two"⟩] ∧
      sc.Variables = [("x", ⟨"STRING", "two"⟩), ("y", ⟨"STRING", "abc"⟩)] := by
  obtain ⟨sa, sb, sc, ha, hb, hc, hpar, -, -, -, -⟩ :=
    set_set_get_last_write_wins exampleVariables ⟨Magic.MAGIC_SET, ["x"]⟩
      ⟨Magic.MAGIC_GET, ["x"]⟩ "x" ⟨"INT", "1"⟩ ⟨"STRING", "two"⟩ [] [] [] rfl rfl rfl rfl rfl
      (by decide) (by decide)
  refine ⟨sa, sb, sc, ha, hb, hc, hpar, ?_⟩
  have ea : sa = SetVariable "x" ⟨"INT", "1"⟩ { exampleVariables with
      pLine := some ⟨Magic.MAGIC_SET, ["x"]⟩, Params := [⟨"INT", "1"⟩] } :=
    Except.ok.inj (ha.symm.trans rfl)
  subst ea
  have eb : sb = _ := Except.ok.inj (hb.symm.trans rfl)
  subst eb
  have ec : sc = _ := Except.ok.inj (hc.symm.trans rfl)
  subst ec
  rfl

end Npengine
